import Mathlib

/-! # Collaboration page: document synchronisation, partner chat and local code runs

A shallow embedding of `src/frontend/src/pages/Collaboration.jsx`.

* Text is a list of characters; every character stands for one UTF-16 code unit, the unit in
  which the editor widget and the replicated text both count offsets.
* The replicated document (Yjs) and the editor widget (Monaco) are external libraries.  The
  positional semantics of `ytext.insert` / `ytext.delete` is written out (`applyYOp`); everything
  else they do is taken as a parameter (`Lib`).
* The user's code run by `executeJavaScript` is an oracle (`Program`).
-/

namespace Collab

/-! ## Widget to document translation (`onDidChangeModelContent`, lines 485-504) -/

/-- One entry of `e.changes`: the replaced range, as an offset and a length in the widget's
pre-edit content, and the replacement text (`c.text || ""`). -/
structure Change where
  rangeOffset : Nat
  rangeLength : Nat
  text : List Char
  deriving DecidableEq, Repr

/-- An operation issued on the shared text inside a transaction. -/
inductive YOp where
  | delete (index : Int) (length : Nat)
  | insert (index : Int) (text : List Char)
  deriving DecidableEq, Repr

/-- The call `[...e.changes].sort((a, b) => a.rangeOffset - b.rangeOffset)`: a stable sort,
ascending by `rangeOffset`. -/
def sortChanges (changes : List Change) : List Change :=
  changes.insertionSort (fun a b => a.rangeOffset ≤ b.rangeOffset)

/-- The body of the `for (const c of changes)` loop, with the running `shift` made explicit:
the operations issued on `ytext`, in order. -/
def loopOps : Int → List Change → List YOp
  | _, [] => []
  | shift, c :: cs =>
    let offset : Int := (c.rangeOffset : Int) + shift
    let delLen := c.rangeLength
    let insText := c.text
    let delOps := if delLen > 0 then [YOp.delete offset delLen] else []
    let shift1 : Int := if delLen > 0 then shift - (delLen : Int) else shift
    let insOps := if insText.length > 0 then [YOp.insert offset insText] else []
    let shift2 : Int := if insText.length > 0 then shift1 + (insText.length : Int) else shift1
    delOps ++ insOps ++ loopOps shift2 cs

/-- The operations of the single transaction built by the handler for the change list
`e.changes`. -/
def transactionOps (changes : List Change) : List YOp :=
  loopOps 0 (sortChanges changes)

/-- Positional semantics of the replicated text (external library): `delete` removes `length`
characters from `index`, `insert` puts `text` at `index`.  The library walks the text from its
start and stops at its end, so positions past the end act on the end; an index below zero is
read as zero. -/
def applyYOp (t : List Char) : YOp → List Char
  | .delete index length => t.take index.toNat ++ t.drop (index.toNat + length)
  | .insert index text => t.take index.toNat ++ text ++ t.drop index.toNat

/-- Run a list of operations on the shared text, in order. -/
def applyYOps (t : List Char) (ops : List YOp) : List Char :=
  ops.foldl applyYOp t

/-- Shared text after the handler has processed the change list `changes` on shared text
`D`. -/
def applyLocalChanges (D : List Char) (changes : List Change) : List Char :=
  applyYOps D (transactionOps changes)

/-- Texts inserted at offset `i` by a batch, in batch order. -/
def insertedAt (changes : List Change) (i : Nat) : List Char :=
  (changes.filter (fun c => c.rangeOffset = i)).flatMap (fun c => c.text)

/-- Whether the character at offset `i` lies in a replaced range of the batch. -/
def covered (changes : List Change) (i : Nat) : Bool :=
  changes.any (fun c => decide (c.rangeOffset ≤ i) && decide (i < c.rangeOffset + c.rangeLength))

/-- Walk the original text from offset `i` on: the texts inserted at an offset come first, then
the original character there unless it lies in a replaced range. -/
def replaceFrom (changes : List Change) : Nat → List Char → List Char
  | i, [] => insertedAt changes i
  | i, ch :: rest =>
    insertedAt changes i ++ (if covered changes i then [] else [ch]) ++
      replaceFrom changes (i + 1) rest

/-- The widget's new content, as the specification words it: `D` with every original range replaced
simultaneously by its text (all offsets are offsets in `D`; texts put at one offset keep their
batch order). -/
def simultaneousReplace (D : List Char) (changes : List Change) : List Char :=
  replaceFrom changes 0 D

/-- The same replacement for a list in ascending order whose ranges follow each other: the part
of `D` from `pos` up to the next range is kept, the range is replaced by its text, and the walk
resumes behind the range. -/
def replaceRanges (D : List Char) : Nat → List Change → List Char
  | pos, [] => D.drop pos
  | pos, c :: cs =>
    (D.drop pos).take (c.rangeOffset - pos) ++ c.text ++
      replaceRanges D (c.rangeOffset + c.rangeLength) cs

/-- Every range lies inside `D`. -/
def RangesInside (D : List Char) (changes : List Change) : Prop :=
  ∀ c ∈ changes, c.rangeOffset + c.rangeLength ≤ D.length

/-- Two ranges share no character: one ends where or before the other starts. -/
def Disjoint2 (a b : Change) : Prop :=
  a.rangeOffset + a.rangeLength ≤ b.rangeOffset ∨
    b.rangeOffset + b.rangeLength ≤ a.rangeOffset

/-- The ranges of a batch are pairwise non-overlapping. -/
def PairwiseDisjoint (changes : List Change) : Prop :=
  changes.Pairwise Disjoint2

/-- Each range ends where or before the next one in the list starts, and the first starts at
or after `pos`. -/
def Consecutive : Nat → List Change → Prop
  | _, [] => True
  | pos, c :: cs => pos ≤ c.rangeOffset ∧ Consecutive (c.rangeOffset + c.rangeLength) cs

instance : DecidablePred (RangesInside D) := fun changes =>
  inferInstanceAs (Decidable (∀ c ∈ changes, c.rangeOffset + c.rangeLength ≤ D.length))

instance : DecidableRel Disjoint2 := fun _ _ =>
  inferInstanceAs (Decidable (_ ∨ _))

instance : DecidablePred PairwiseDisjoint := fun changes =>
  inferInstanceAs (Decidable (changes.Pairwise Disjoint2))

instance decConsecutive : (pos : Nat) → (cs : List Change) → Decidable (Consecutive pos cs)
  | _, [] => isTrue trivial
  | _, c :: cs =>
    have := decConsecutive (c.rangeOffset + c.rangeLength) cs
    inferInstanceAs (Decidable (_ ∧ _))

/-! ## Payload encoding (`toB64`, `fromB64`, lines 93-94) -/

/-- The base64 alphabet. -/
def b64Alphabet : List Char :=
  "ABCDEFGHIJKLMNOPQRSTUVWXYZabcdefghijklmnopqrstuvwxyz0123456789+/".toList

/-- The character of a six-bit value. -/
def b64Digit (n : Nat) : Char := b64Alphabet.getD n 'A'

/-- The six-bit value of a character of the alphabet. -/
def b64Value (c : Char) : Option Nat :=
  let i := b64Alphabet.indexOf c
  if i < 64 then some i else none

/-- The helper `toB64`, `btoa(String.fromCharCode(...u8))`: standard base64 with padding, three
bytes to four characters. -/
def toB64 : List Nat → List Char
  | [] => []
  | [a] => [b64Digit (a / 4), b64Digit (a % 4 * 16), '=', '=']
  | [a, b] => [b64Digit (a / 4), b64Digit (a % 4 * 16 + b / 16), b64Digit (b % 16 * 4), '=']
  | a :: b :: c :: rest =>
    b64Digit (a / 4) :: b64Digit (a % 4 * 16 + b / 16) :: b64Digit (b % 16 * 4 + c / 64) ::
      b64Digit (c % 64) :: toB64 rest

/-- ASCII whitespace, which `atob` removes before decoding: tab, line feed, form feed, carriage
return, space. -/
def isAsciiWhitespace (c : Char) : Bool :=
  c.toNat = 9 || c.toNat = 10 || c.toNat = 12 || c.toNat = 13 || c.toNat = 32

/-- When the length is a multiple of four, `atob` drops one or two trailing `=`. -/
def stripPadding (cs : List Char) : List Char :=
  if cs.length % 4 = 0 then
    match cs.reverse with
    | '=' :: '=' :: r => r.reverse
    | '=' :: r => r.reverse
    | _ => cs
  else cs

/-- Six-bit values to bytes, four to three; two or three left-over values give one or two
bytes, their spare low bits dropped. -/
def decodeSextets : List Nat → List Nat
  | a :: b :: c :: d :: rest =>
    (a * 4 + b / 16) :: (b % 16 * 16 + c / 4) :: (c % 4 * 64 + d) :: decodeSextets rest
  | [a, b, c] => [a * 4 + b / 16, b % 16 * 16 + c / 4]
  | [a, b] => [a * 4 + b / 16]
  | _ => []

/-- The browser's `atob` (forgiving base64 decoding) followed by `charCodeAt(0)` on each
character: `none` when `atob` throws. -/
def atobBytes (s : List Char) : Option (List Nat) :=
  let data := stripPadding (s.filter (fun c => !isAsciiWhitespace c))
  if data.length % 4 = 1 then none
  else (data.mapM b64Value).map decodeSextets

/-! ## Values read from parsed JSON -/

/-- A JavaScript value as the handlers see it.  Numbers are the safe integers (magnitude at most
`2 ^ 53 - 1`), which JavaScript holds exactly and prints with all their digits; other numbers
are not represented.  `obj` is any object or array, carrying the string that JavaScript's
string conversion gives for it. -/
inductive JsVal where
  | undefined
  | null
  | bool (b : Bool)
  | num (n : Int)
  | str (s : String)
  | obj (repr : String)
  deriving DecidableEq, Repr

namespace JsVal

/-- Truthiness, as tested by `if (v)`, `v && ...` and `v || ...`. -/
def truthy : JsVal → Bool
  | undefined => false
  | null => false
  | bool b => b
  | num n => decide (n ≠ 0)
  | str s => decide (s ≠ "")
  | obj _ => true

/-- Strict equality `===`.  Two objects are equal only when they are the same object; the
values compared here always come from different `JSON.parse` calls, so two objects are never
equal. -/
def strictEq : JsVal → JsVal → Bool
  | undefined, undefined => true
  | null, null => true
  | bool a, bool b => decide (a = b)
  | num a, num b => decide (a = b)
  | str a, str b => decide (a = b)
  | _, _ => false

/-- String conversion, as done by template literals and by `atob` on its argument; for `num n`
it is the conversion of a safe integer (from `1e21` on JavaScript prints an exponent form). -/
def toJsString : JsVal → String
  | undefined => "undefined"
  | null => "null"
  | bool true => "true"
  | bool false => "false"
  | num n => toString n
  | str s => s
  | obj repr => repr

end JsVal

/-- The helper `fromB64(b64)`: the bytes of a payload, `none` when `atob` throws. -/
def fromB64 (b64 : JsVal) : Option (List Nat) :=
  atobBytes b64.toJsString.toList

/-- The result of `JSON.parse(evt.data)`, reduced to the fields the handler reads; a field that
is absent reads as `undefined`, and so does every field of a value that is not an object. -/
structure Msg where
  type : JsVal := .undefined
  payloadB64 : JsVal := .undefined
  message : JsVal := .undefined
  roomId : JsVal := .undefined
  senderId : JsVal := .undefined
  content : JsVal := .undefined
  sentAt : JsVal := .undefined
  clientId : JsVal := .undefined
  deriving DecidableEq, Repr

/-- A message sent on the transport (`ws.send(JSON.stringify(...))`). -/
inductive OutMsg where
  | joinRoom (roomId : JsVal)
  | leaveRoom
  | yjsUpdate (payloadB64 : List Char)
  | partnerChat (content : String) (clientId : String)
  deriving DecidableEq, Repr

/-! ## Chat entries -/

/-- The `role` of a chat entry. -/
inductive Role where
  | user
  | assistant
  | partner
  | partnerSelf
  | system
  deriving DecidableEq, Repr

/-- An element of `chatMessages`.  A key the object does not have reads as `undefined`; for the
two flags that is `false`. -/
structure ChatEntry where
  role : Role
  content : JsVal := .undefined
  senderId : JsVal := .undefined
  sentAt : JsVal := .undefined
  clientId : JsVal := .undefined
  pending : Bool := false
  delivered : Bool := false
  deriving DecidableEq, Repr

/-- The displayed partner notice: `{ content, sentAt }`. -/
structure Notice where
  content : JsVal
  sentAt : JsVal
  deriving DecidableEq, Repr

/-- The `incoming` object built for a `PARTNER_CHAT` message (lines 326-332). -/
def incomingEntry (myUserId : JsVal) (msg : Msg) : ChatEntry :=
  { role := if msg.senderId.strictEq myUserId then Role.partnerSelf else Role.partner
    content := msg.content
    senderId := msg.senderId
    sentAt := msg.sentAt
    clientId := msg.clientId }

/-- The object `{ ...prev[existingIndex], ...incoming, delivered: true }`: the five keys of
`incoming` override, every other key of the existing entry is kept, `delivered` is set. -/
def mergeEntry (existing incoming : ChatEntry) : ChatEntry :=
  { existing with
    role := incoming.role
    content := incoming.content
    senderId := incoming.senderId
    sentAt := incoming.sentAt
    clientId := incoming.clientId
    delivered := true }

/-- The reducer passed to `setChatMessages` for a `PARTNER_CHAT` message (lines 334-344).  The
index found by `findIndex` always lies in the list, so the inner `none` branch is never taken. -/
def partnerChatReducer (myUserId : JsVal) (msg : Msg) (prev : List ChatEntry) : List ChatEntry :=
  let incoming := incomingEntry myUserId msg
  if msg.senderId.strictEq myUserId && msg.clientId.truthy then
    match prev.findIdx? (fun entry => entry.clientId.strictEq msg.clientId) with
    | some existingIndex =>
      match prev.get? existingIndex with
      | some existing => prev.set existingIndex (mergeEntry existing incoming)
      | none => prev ++ [incoming]
    | none => prev ++ [incoming]
  else prev ++ [incoming]

/-! ## External libraries -/

/-- One operation of the change notification of the replicated text. -/
inductive DeltaOp where
  | retain (n : Nat)
  | insert (s : List Char)
  | delete (n : Nat)
  deriving DecidableEq, Repr

/-- A widget edit: the range, given by the offsets of its two ends, and the replacement text. -/
structure Edit where
  startOffset : Nat
  endOffset : Nat
  text : List Char
  deriving DecidableEq, Repr

/-- What one transaction on the document raises: the text observers are called with `delta`
when the text changed, the `update` listeners with the encoded update when the document
changed; each at most once per transaction. -/
structure TxnNotice where
  delta : Option (List DeltaOp)
  update : Option (List Nat)
  deriving DecidableEq, Repr

/-- The replicated document and the editor widget, as far as the page uses them.
`applyUpdate` is `Y.applyUpdate` (`none` when it throws, the document then being left as it
was), `transact` is `Y.transact` around a list of text operations, `executeEdits` and the two
event fields describe the widget: its new content and the change event it raises, if any. -/
structure Lib where
  Doc : Type
  toText : Doc → List Char
  applyUpdate : Doc → List Nat → Option (Doc × TxnNotice)
  transact : Doc → List YOp → Doc × TxnNotice
  executeEdits : List Char → List Edit → List Char
  editsEvent : List Char → List Edit → Option (List Change)
  setValueEvent : List Char → List Char → Option (List Change)

/-! ## Session state and handlers -/

/-- The values fixed for a session: the decoded identity and the room. -/
structure Config where
  myUserId : JsVal
  roomId : JsVal
  deriving DecidableEq, Repr

/-- The mutable state of a session: the document, the widget content when the editor is mounted
(`editorRef` / `modelRef`), the refs, the React state and the messages sent so far. -/
structure Session (L : Lib) where
  doc : L.Doc
  widget : Option (List Char) := none
  suppressLocal : Bool := false
  suppressNetwork : Bool := false
  synced : Bool := false
  joined : Bool := false
  wsOpen : Bool := false
  sent : List OutMsg := []
  status : String := "connecting…"
  chat : List ChatEntry := []
  partnerNotice : Option Notice := none
  noticeTimerRef : Option Nat := none
  timers : List (Nat × Nat) := []
  nextTimerId : Nat := 1
  peerLeftOpen : Bool := false
  lastText : List Char := []
  language : String := "python"

variable {L : Lib}

/-- The `update` listener of the document (lines 370-376). -/
def onUpdate (s : Session L) (update : List Nat) : Session L :=
  if !s.wsOpen then s
  else if s.suppressNetwork then s
  else if s.suppressLocal then s
  else { s with sent := s.sent ++ [OutMsg.yjsUpdate (toB64 update)] }

/-- The call `model.getPositionAt(index)`: the position of an offset, the offset being brought
into the content first. -/
def getPositionAt (w : List Char) (index : Nat) : Nat := min index w.length

/-- The `delta.forEach` loop of `onYTextEvent` (lines 394-416), with the running `index`. -/
def buildEdits (w : List Char) : Nat → List DeltaOp → List Edit
  | _, [] => []
  | index, .retain n :: ops =>
    if n > 0 then buildEdits w (index + n) ops else buildEdits w index ops
  | index, .insert ins :: ops =>
    if ins.length > 0 then
      { startOffset := getPositionAt w index, endOffset := getPositionAt w index, text := ins } ::
        buildEdits w (index + ins.length) ops
    else buildEdits w index ops
  | index, .delete n :: ops =>
    if n > 0 then
      { startOffset := getPositionAt w index, endOffset := getPositionAt w (index + n),
        text := [] } :: buildEdits w index ops
    else buildEdits w index ops

/-- The observer of the replicated text (lines 385-423).  `listener` is the content listener
registered on the widget, which the widget calls from `executeEdits`. -/
def onYTextEvent (listener : Session L → List Change → Session L) (s : Session L)
    (isLocal : Bool) (delta : List DeltaOp) : Session L :=
  let s := { s with lastText := L.toText s.doc }
  if isLocal then s
  else
    match s.widget with
    | none => s
    | some w =>
      if delta.length = 0 then s
      else
        let edits := buildEdits w 0 delta
        if edits.length > 0 then
          let s := { s with suppressLocal := true }
          let s := { s with widget := some (L.executeEdits w edits) }
          let s := match L.editsEvent w edits with
            | some e => listener s e
            | none => s
          { s with suppressLocal := false }
        else s

/-- Delivery of what a transaction raises: first the text observer, then the `update`
listener. -/
def notify (observer : Session L → Bool → List DeltaOp → Session L) (s : Session L)
    (n : TxnNotice) (isLocal : Bool) : Session L :=
  let s := match n.delta with
    | some d => observer s isLocal d
    | none => s
  match n.update with
  | some u => onUpdate s u
  | none => s

/-- The content listener of the widget (lines 485-504).  Its transaction is a local one, for
which the text observer returns before it reaches the widget, so the observer is given a
listener that is never called. -/
def onDidChangeModelContent (s : Session L) (changes : List Change) : Session L :=
  if s.suppressLocal then s
  else
    let r := L.transact s.doc (transactionOps changes)
    notify (onYTextEvent (fun s _ => s)) { s with doc := r.1 } r.2 true

/-- The call `modelRef.current.setValue(text)` between the two writes of `suppressLocalRef`. -/
def setValueSuppressed (s : Session L) (w text : List Char) : Session L :=
  let s := { s with suppressLocal := true }
  let s := { s with widget := some text }
  let s := match L.setValueEvent w text with
    | some e => onDidChangeModelContent s e
    | none => s
  { s with suppressLocal := false }

/-- The `PARTNER_CHAT` branch of `ws.onmessage` (lines 325-353). -/
def onPartnerChat (cfg : Config) (s : Session L) (msg : Msg) : Session L :=
  let s := { s with chat := partnerChatReducer cfg.myUserId msg s.chat }
  if !(msg.senderId.strictEq cfg.myUserId) then
    let s := { s with partnerNotice := some { content := msg.content, sentAt := msg.sentAt } }
    let s := match s.noticeTimerRef with
      | some t => { s with timers := s.timers.filter (fun p => p.1 ≠ t) }
      | none => s
    { s with noticeTimerRef := some s.nextTimerId
             timers := s.timers ++ [(s.nextTimerId, 8000)]
             nextTimerId := s.nextTimerId + 1 }
  else s

/-- The body of the `try` block of `ws.onmessage` for a parsed message: `.ok` is a normal
return, `.error` an exception, both with the state reached. -/
def handleMessage (cfg : Config) (s : Session L) (msg : Msg) : Except (Session L) (Session L) :=
  if !msg.type.truthy then .ok s
  else if msg.type.strictEq (.str "YJS_UPDATE") && msg.payloadB64.truthy then
    match fromB64 msg.payloadB64 with
    | none => .error s
    | some update =>
      let s := { s with suppressNetwork := true }
      match L.applyUpdate s.doc update with
      | none => .error s
      | some r =>
        let s := notify (onYTextEvent onDidChangeModelContent) { s with doc := r.1 } r.2 false
        .ok { s with suppressNetwork := false }
  else if msg.type.strictEq (.str "YJS_SYNC") && msg.payloadB64.truthy then
    match fromB64 msg.payloadB64 with
    | none => .error s
    | some snapshot =>
      let s := { s with suppressNetwork := true }
      match L.applyUpdate s.doc snapshot with
      | none => .error s
      | some r =>
        let s := notify (onYTextEvent onDidChangeModelContent) { s with doc := r.1 } r.2 false
        let s := { s with suppressNetwork := false }
        let s := { s with synced := true }
        let s := { s with status := "synced" }
        match s.widget with
        | some w =>
          let textNow := L.toText s.doc
          if w ≠ textNow then .ok (setValueSuppressed s w textNow) else .ok s
        | none => .ok s
  else if msg.type.strictEq (.str "ERROR") && msg.message.truthy then
    .ok { s with status := "error: " ++ msg.message.toJsString }
  else if msg.type.strictEq (.str "LEFT") then
    if !cfg.roomId.truthy || msg.roomId.strictEq cfg.roomId then
      .ok { s with peerLeftOpen := true }
    else .ok s
  else if msg.type.strictEq (.str "PARTNER_CHAT") then
    .ok (onPartnerChat cfg s msg)
  else .ok s

/-- The handler `ws.onmessage` (lines 295-357).  `data` is the result of `JSON.parse(evt.data)`,
`none` when it throws; the `catch` block ignores every exception. -/
def onmessage (cfg : Config) (s : Session L) (data : Option Msg) : Session L :=
  match data with
  | none => s
  | some msg =>
    match handleMessage cfg s msg with
    | .ok s1 => s1
    | .error s1 => s1

/-- The correlation id built at line 837; `now` and `rnd` are the values of `Date.now()` and
`Math.random().toString(36).slice(2, 8)`. -/
def newClientId (now : Nat) (rnd : String) : String :=
  "local-" ++ toString now ++ "-" ++ rnd

/-- The optimistic entry `pendingMessage` (lines 838-845); `iso` is the value of
`new Date().toISOString()`. -/
def pendingMessage (cfg : Config) (content : String) (now : Nat) (rnd iso : String) : ChatEntry :=
  { role := Role.partnerSelf
    content := .str content
    senderId := if cfg.myUserId.truthy then cfg.myUserId else .str "self"
    sentAt := .str iso
    clientId := .str (newClientId now rnd)
    pending := true }

/-- The partner branch of `sendChatMessage` from line 837 on, for an `@partner` input whose
text after the tag is the non-empty `content`. -/
def sendPartnerMessage (cfg : Config) (s : Session L) (content : String) (now : Nat)
    (rnd iso : String) : Session L :=
  let s := { s with chat := s.chat ++ [pendingMessage cfg content now rnd iso] }
  if s.wsOpen then
    { s with sent := s.sent ++ [OutMsg.partnerChat content (newClientId now rnd)] }
  else
    { s with chat := s.chat ++
        [{ role := Role.system
           content := .str "Failed to send message to your partner. Please try again." }] }

/-- The inputs of one call of the partner branch of `sendChatMessage`. -/
structure PartnerSend where
  content : String
  now : Nat
  rnd : String
  iso : String
  deriving DecidableEq, Repr

/-- The correlation id of a send. -/
def PartnerSend.clientId (i : PartnerSend) : String := newClientId i.now i.rnd

/-- Send a list of partner messages, one after the other. -/
def sendAll (cfg : Config) (s : Session L) (inputs : List PartnerSend) : Session L :=
  inputs.foldl (fun s i => sendPartnerMessage cfg s i.content i.now i.rnd i.iso) s

/-- Handle a list of inbound messages, one after the other. -/
def receiveAll (cfg : Config) (s : Session L) (msgs : List Msg) : Session L :=
  msgs.foldl (fun s m => onmessage cfg s (some m)) s

/-- What an echo does to one entry: an entry with the echoed `clientId` is merged with the
incoming object, every other entry is kept. -/
def applyEcho (my : JsVal) (m : Msg) (e : ChatEntry) : ChatEntry :=
  if e.clientId = m.clientId then mergeEntry e (incomingEntry my m) else e

/-! ## Identity resolution (`myUserId`, lines 70-82) -/

/-- The call `token.split(".")`: the segments between the dots. -/
def splitDot : List Char → List (List Char)
  | [] => [[]]
  | c :: cs =>
    if c = '.' then [] :: splitDot cs
    else
      match splitDot cs with
      | seg :: segs => (c :: seg) :: segs
      | [] => [[c]]

/-- The destructuring `const [, payload] = ...`: the second segment, `none` when there is
none (`undefined`). -/
def payloadSegment (token : List Char) : Option (List Char) :=
  (splitDot token).get? 1

/-- The string `base64` (lines 75-76): the segment, padded with `=` to a multiple of four, with
`-` turned into `+` and `_` into `/`. -/
def base64OfSegment (payload : List Char) : List Char :=
  let padding := List.replicate ((4 - payload.length % 4) % 4) '='
  (payload ++ padding).map (fun c => if c = '-' then '+' else if c = '_' then '/' else c)

/-- The string `atob(base64)`, one character per byte; `none` when `atob` throws. -/
def decodeSegment (payload : List Char) : Option (List Char) :=
  (atobBytes (base64OfSegment payload)).map (fun bytes => bytes.map Char.ofNat)

/-- The value returned by `JSON.parse`, as far as the last line of the `try` block tells values
apart: `null`, a string, an object with its own properties `sub`, `userId`, `uid` and `id` (one
it does not have being `undefined`), or another value (a number, a boolean, an array). -/
inductive Parsed where
  | null
  | string (s : String)
  | object (sub userId uid id : JsVal)
  | other
  deriving DecidableEq, Repr

/-- The method `String.prototype.sub`, which every string inherits: a function. -/
def stringSubMethod : JsVal := .obj "function sub() \x7b [native code] \x7d"

/-- The four property reads `decoded.sub`, `decoded.userId`, `decoded.uid`, `decoded.id`:
`none` when the read throws, which it does on `null`.  A string has no property of its own
with one of these names but inherits the method `sub`; numbers, booleans and arrays have and
inherit none of the four. -/
def Parsed.identifierProps : Parsed → Option (JsVal × JsVal × JsVal × JsVal)
  | .null => none
  | .string _ => some (stringSubMethod, .undefined, .undefined, .undefined)
  | .object sub userId uid id => some (sub, userId, uid, id)
  | .other => some (.undefined, .undefined, .undefined, .undefined)

/-- The operator `a || b`. -/
def jsOr (a b : JsVal) : JsVal := if a.truthy then a else b

/-- The memo `myUserId` (lines 70-82).  `jsonParse` is `JSON.parse`, `none` when it throws; the
credential is `state?.wsAuthToken`.  Every exception of the `try` block ends in `null`; calling
`split` on a value that is not a string is one of them. -/
def myUserId (jsonParse : List Char → Option Parsed) (wsAuthToken : JsVal) : JsVal :=
  if !wsAuthToken.truthy then .null
  else
    match wsAuthToken with
    | .str token =>
      match payloadSegment token.toList with
      | none => .null
      | some payload =>
        if payload.length = 0 then .null
        else
          match decodeSegment payload with
          | none => .null
          | some text =>
            match jsonParse text with
            | none => .null
            | some decoded =>
              match decoded.identifierProps with
              | none => .null
              | some (sub, userId, uid, id) =>
                jsOr (jsOr (jsOr (jsOr sub userId) uid) id) .null
    | _ => .null

/-- The first value of a list that is truthy, `null` when there is none. -/
def firstTruthy (vs : List JsVal) : JsVal :=
  (vs.find? (fun v => v.truthy)).getD .null

/-! ## Template seeding (lines 622-673 and 918-926) -/

/-- The helper `getDefaultCode(lang)`: the template of the language, the Python one for a
language without template.  The language is always one of the options of the language
select. -/
def getDefaultCode (lang : String) : List Char :=
  if lang = "python" then
    ("def solution():\n    # TODO: Implement your solution here\n    pass\n\n" ++
      "# Test cases will be provided below\n").toList
  else if lang = "javascript" then
    ("function solution(nums) \x7b\n    // TODO: Implement your solution here\n" ++
      "    // Example: return nums;\n\x7d\n\n// Test cases will be provided below\n").toList
  else if lang = "java" then
    ("public class Solution \x7b\n    public void solution() \x7b\n" ++
      "        // TODO: Implement your solution here\n    \x7d\n\x7d\n").toList
  else if lang = "cpp" then
    ("#include <iostream>\n#include <vector>\nusing namespace std;\n\n" ++
      "void solution() \x7b\n    // TODO: Implement your solution here\n\x7d\n\n" ++
      "int main() \x7b\n    solution();\n    return 0;\n\x7d\n").toList
  else if lang = "typescript" then
    ("export function solution(nums: number[]): any \x7b\n  // TODO\n\x7d\n").toList
  else
    ("def solution():\n    # TODO: Implement your solution here\n    pass\n\n" ++
      "# Test cases will be provided below\n").toList

/-- The transaction `Y.transact(ydoc, () => ytext.insert(0, getDefaultCode(lang)),
"init-template")`: a local transaction, delivered like the one of the widget listener. -/
def seedTemplate (s : Session L) (lang : String) : Session L :=
  let r := L.transact s.doc [YOp.insert 0 (getDefaultCode lang)]
  notify (onYTextEvent (fun s _ => s)) { s with doc := r.1 } r.2 true

/-- The seeding effect (lines 664-673), run after a render in which `language` or
`modelRef.current` has changed. -/
def seedingEffect (s : Session L) : Session L :=
  match s.widget with
  | none => s
  | some _ =>
    if !s.synced then s
    else if (L.toText s.doc).length > 0 then s
    else seedTemplate s s.language

/-- The handler `handleLanguageChange(newLang)` (lines 918-926). -/
def handleLanguageChange (s : Session L) (newLang : String) : Session L :=
  let s := { s with language := newLang }
  if (L.toText s.doc).length = 0 then seedTemplate s newLang else s

/-! ## Session events -/

/-- The state `t` differs from `s` at most in the document, the widget, the two suppression
flags, the messages sent and the mirror text. -/
def EditorOnly (s t : Session L) : Prop :=
  t = { s with doc := t.doc, widget := t.widget, suppressLocal := t.suppressLocal,
               suppressNetwork := t.suppressNetwork, sent := t.sent, lastText := t.lastText }

/-- The handler `ws.onopen` (lines 285-293), called when the transport has become open.  The
language recommendation dialog it may open is not part of the state kept here. -/
def onopen (cfg : Config) (s : Session L) : Session L :=
  let s := { s with wsOpen := true }
  let s := { s with status := "connected" }
  let s := { s with sent := s.sent ++ [OutMsg.joinRoom cfg.roomId] }
  { s with joined := true }

/-- The handler `ws.onerror` (line 359). -/
def onerror (s : Session L) : Session L :=
  { s with status := "error" }

/-- The handler `ws.onclose` (line 360), called when the transport has been closed. -/
def onclose (s : Session L) : Session L :=
  let s := { s with wsOpen := false }
  { s with status := "disconnected" }

/-- The call `clearTimeout(id)`: the timer is no longer pending. -/
def clearTimeout (s : Session L) (id : Nat) : Session L :=
  { s with timers := s.timers.filter (fun p => p.1 ≠ id) }

/-- The click handler of the dismiss button of the partner notice (lines 1134-1139). -/
def dismissPartnerNotice (s : Session L) : Session L :=
  let s := match s.noticeTimerRef with
    | some t => clearTimeout s t
    | none => s
  { s with partnerNotice := none }

/-- The expiry of the pending timer `id`: its callback `() => setPartnerNotice(null)` runs and
the timer is no longer pending.  A timer that is not pending does not fire. -/
def noticeTimerFires (s : Session L) (id : Nat) : Session L :=
  if s.timers.any (fun p => p.1 = id) then
    { clearTimeout s id with partnerNotice := none }
  else s

/-- The part of `handleEditorDidMount` (lines 430-482) that touches the session: the refs are
set to the editor, whose content is `content`, and the widget is given the text of the
document, or else the mirror text, when that text is not empty and differs. -/
def handleEditorDidMount (s : Session L) (content : List Char) : Session L :=
  let s := { s with widget := some content }
  let textFromY := L.toText s.doc
  let initial := if textFromY.length > 0 then textFromY else s.lastText
  if initial.length > 0 ∧ content ≠ initial then setValueSuppressed s content initial else s

/-- An event of a session. -/
inductive Event where
  | transportOpen
  | message (data : Option Msg)
  | transportError
  | transportClose
  | editorMount (content : List Char)
  | widgetChange (changes : List Change)
  | sendPartner (content : String) (now : Nat) (rnd iso : String)
  | seedingEffect
  | languageChange (newLang : String)
  | dismissNotice
  | timerFires (id : Nat)

/-- The handler run for an event. -/
def step (cfg : Config) (s : Session L) : Event → Session L
  | .transportOpen => onopen cfg s
  | .message data => onmessage cfg s data
  | .transportError => onerror s
  | .transportClose => onclose s
  | .editorMount content => handleEditorDidMount s content
  | .widgetChange changes => onDidChangeModelContent s changes
  | .sendPartner content now rnd iso => sendPartnerMessage cfg s content now rnd iso
  | .seedingEffect => seedingEffect s
  | .languageChange newLang => handleLanguageChange s newLang
  | .dismissNotice => dismissPartnerNotice s
  | .timerFires id => noticeTimerFires s id

/-- The state after a list of events. -/
def run (cfg : Config) (s : Session L) (events : List Event) : Session L :=
  events.foldl (step cfg) s

/-- The state of a session when the page has been entered: nothing received, nothing sent. -/
def initialSession (d : L.Doc) : Session L := { doc := d }

/-- The discipline of the notice timer: at most one timer is pending, and a pending timer is
the one held in `partnerNoticeTimeoutRef`, runs for 8000 ms and is the last one scheduled. -/
def TimerDiscipline (s : Session L) : Prop :=
  s.timers.length ≤ 1 ∧
  ∀ t ∈ s.timers, s.noticeTimerRef = some t.1 ∧ t.2 = 8000 ∧ t.1 + 1 = s.nextTimerId

/-- The event is an inbound `YJS_SYNC` message whose payload decodes and is applied by the
document of `s`. -/
def AppliesSnapshot (s : Session L) (e : Event) : Prop :=
  ∃ msg bytes r, e = .message (some msg) ∧ msg.type = .str "YJS_SYNC" ∧
    msg.payloadB64.truthy = true ∧ fromB64 msg.payloadB64 = some bytes ∧
    L.applyUpdate s.doc bytes = some r

/-! ## The pieces of a base64 text -/

/-- The six-bit values of a byte sequence, in the order in which `toB64` writes their
characters. -/
def toSextets : List Nat → List Nat
  | [] => []
  | [a] => [a / 4, a % 4 * 16]
  | [a, b] => [a / 4, a % 4 * 16 + b / 16, b % 16 * 4]
  | a :: b :: c :: rest =>
    a / 4 :: (a % 4 * 16 + b / 16) :: (b % 16 * 4 + c / 64) :: c % 64 :: toSextets rest

/-- The number of `=` that `toB64` writes at the end. -/
def padLength : List Nat → Nat
  | [] => 0
  | [_] => 2
  | [_, _] => 1
  | _ :: _ :: _ :: rest => padLength rest

/-! ## Two peers and the relay -/

/-- Modelled from the spec: the replicated text document is an external primitive whose merge
the spec requires to be idempotent and commutative (section 3, Document).  `merge d u` is the
document `d` with the update `u` integrated, `valid` marks the updates that transactions
encode: such an update is a non-empty byte sequence, `Y.applyUpdate` integrates it without
throwing, and a local transaction leaves the document that integrating its own update gives. -/
structure MergeLaws (L : Lib) where
  merge : L.Doc → List Nat → L.Doc
  valid : List Nat → Prop
  valid_bytes : ∀ u, valid u → u ≠ [] ∧ ∀ b ∈ u, b < 256
  applyUpdate_valid : ∀ d u, valid u → ∃ n, L.applyUpdate d u = some (merge d u, n)
  transact_update : ∀ d ops u, (L.transact d ops).2.update = some u →
    valid u ∧ (L.transact d ops).1 = merge d u
  transact_quiet : ∀ d ops, (L.transact d ops).2.update = none → (L.transact d ops).1 = d
  merge_comm : ∀ d u v, valid u → valid v → merge (merge d u) v = merge (merge d v) u
  merge_idem : ∀ d u, valid u → merge (merge d u) u = merge d u

/-- Modelled from the spec: the relay server is not part of the page; by the protocol table
(section 6) an outbound `YJS_UPDATE` reaches the peer as an inbound `YJS_UPDATE` with the same
`payloadB64`.  The other outbound messages carry no document update. -/
def relayForward : OutMsg → Option Msg
  | .yjsUpdate p => some { type := .str "YJS_UPDATE", payloadB64 := .str (String.mk p) }
  | _ => none

/-- Delivery of a forwarded message to a session: the handler `ws.onmessage` runs on it. -/
def deliver (cfg : Config) (s : Session L) (m : OutMsg) : Session L :=
  match relayForward m with
  | some msg => onmessage cfg s (some msg)
  | none => s

/-- Two sessions of one room and the messages the relay has not delivered yet, per direction,
oldest first. -/
structure Pair (L : Lib) where
  a : Session L
  b : Session L
  toA : List OutMsg := []
  toB : List OutMsg := []

/-- What happens in a room of two peers: a batch of widget changes at one of them, or the
delivery of the oldest undelivered message to one of them. -/
inductive PairEvent where
  | editA (changes : List Change)
  | editB (changes : List Change)
  | deliverA
  | deliverB
  deriving DecidableEq, Repr

/-- Modelled from the spec: the relay, which is not part of the page, delivers to each peer in
the order sent (section 8, Convergence).  One event in the room: what a peer sends during an
edit is queued for the other peer, and a delivery hands the oldest queued message to the
handler of its addressee. -/
def Pair.step (cfgA cfgB : Config) (p : Pair L) : PairEvent → Pair L
  | .editA changes =>
    let a := onDidChangeModelContent p.a changes
    { p with a := a, toB := p.toB ++ a.sent.drop p.a.sent.length }
  | .editB changes =>
    let b := onDidChangeModelContent p.b changes
    { p with b := b, toA := p.toA ++ b.sent.drop p.b.sent.length }
  | .deliverA =>
    match p.toA with
    | [] => p
    | m :: rest => { p with a := deliver cfgA p.a m, toA := rest }
  | .deliverB =>
    match p.toB with
    | [] => p
    | m :: rest => { p with b := deliver cfgB p.b m, toB := rest }

/-- The room after a sequence of events, any interleaving of the two peers. -/
def Pair.run (cfgA cfgB : Config) (p : Pair L) (events : List PairEvent) : Pair L :=
  events.foldl (Pair.step cfgA cfgB) p

/-- A session in steady state: transport open and neither suppression flag set. -/
def Steady (s : Session L) : Prop :=
  s.wsOpen = true ∧ s.suppressLocal = false ∧ s.suppressNetwork = false

/-- The outbound message that carries the update `u`. -/
def updateMessage (u : List Nat) : OutMsg := OutMsg.yjsUpdate (toB64 u)

/-- What the two replicas of a room have in common: each document is the common start with a
list of updates integrated, each queue holds encoded updates, and the updates integrated or
still due at one peer are those integrated or still due at the other, up to order. -/
def Exchanged (M : MergeLaws L) (d0 : L.Doc) (p : Pair L) : Prop :=
  ∃ la lb qa qb : List (List Nat),
    p.a.doc = la.foldl M.merge d0 ∧ p.b.doc = lb.foldl M.merge d0 ∧
    p.toA = qa.map updateMessage ∧ p.toB = qb.map updateMessage ∧
    (la ++ qa).Perm (lb ++ qb) ∧ (∀ u ∈ la ++ qa, M.valid u) ∧ Steady p.a ∧ Steady p.b

/-! ## Remote changes and the widget -/

/-- The edits for a change notification as the specification words them, every offset being an
offset in the text before the change: the cursor moves over retained and over deleted
characters, and is not moved by inserted text. -/
def originalOffsetEdits : Nat → List DeltaOp → List Edit
  | _, [] => []
  | index, .retain n :: ops => originalOffsetEdits (index + n) ops
  | index, .insert ins :: ops =>
    if ins.length > 0 then
      { startOffset := index, endOffset := index, text := ins } :: originalOffsetEdits index ops
    else originalOffsetEdits index ops
  | index, .delete n :: ops =>
    if n > 0 then
      { startOffset := index, endOffset := index + n, text := [] } ::
        originalOffsetEdits (index + n) ops
    else originalOffsetEdits (index + n) ops

/-- The text that a change notification of the replicated text describes (external library):
walking the text before the change, `retain n` keeps the next `n` characters, `insert` adds its
text, `delete n` drops the next `n` characters, and what is left at the end is kept. -/
def applyDelta : List Char → List DeltaOp → List Char
  | t, [] => t
  | t, .retain n :: ops => t.take n ++ applyDelta (t.drop n) ops
  | t, .insert ins :: ops => ins ++ applyDelta t ops
  | t, .delete n :: ops => applyDelta (t.drop n) ops

/-- The range of an edit as a change of the content: offset, length and replacement text. -/
def Edit.toChange (e : Edit) : Change :=
  { rangeOffset := e.startOffset, rangeLength := e.endOffset - e.startOffset, text := e.text }

/-- The widget call `editor.executeEdits(source, edits)` on a batch (external library): every
range is a range of the content before the call, and all ranges are replaced at once. -/
def executeBatch (w : List Char) (edits : List Edit) : List Char :=
  simultaneousReplace w (edits.map Edit.toChange)

/-! ## Operations outside the text -/

/-- The operation brought into the bounds of the text `t`: the index is brought into
`0 .. t.length`, and a deletion is cut where the text ends. -/
def clampOp (t : List Char) : YOp → YOp
  | .delete index length =>
    .delete ((min index.toNat t.length : Nat) : Int)
      (min length (t.length - min index.toNat t.length))
  | .insert index text => .insert ((min index.toNat t.length : Nat) : Int) text

/-- The operation lies inside the text `t`. -/
def YOp.InBounds (t : List Char) : YOp → Prop
  | .delete index length => 0 ≤ index ∧ index.toNat + length ≤ t.length
  | .insert index _ => 0 ≤ index ∧ index.toNat ≤ t.length

instance decInBounds (t : List Char) : DecidablePred (YOp.InBounds t)
  | .delete _ _ => inferInstanceAs (Decidable (_ ∧ _))
  | .insert _ _ => inferInstanceAs (Decidable (_ ∧ _))

/-- Run a list of operations on the shared text, each brought into the bounds of the text it
meets. -/
def applyClampedOps (t : List Char) (ops : List YOp) : List Char :=
  ops.foldl (fun t op => applyYOp t (clampOp t op)) t

/-! ## Local execution of JavaScript (`executeJavaScript` and `runCode`, lines 675-818) -/

/-- A test case, as far as the page reads it. -/
structure TestCase where
  input : JsVal := .undefined
  expectedOutput : JsVal := .undefined
  deriving DecidableEq, Repr

/-- An entry of the `results` list. -/
structure TestResult where
  input : JsVal
  expectedOutput : JsVal
  actualOutput : String
  passed : Bool
  testCaseNumber : Nat
  deriving DecidableEq, Repr

/-- A thrown value, as far as a `catch` block reads it: a value on which `error.message` can be
read, with the text that a template literal gives for it (`undefined` for a thrown primitive),
or `null` / `undefined` (`isUndefined` tells which), on which reading `message` throws. -/
inductive Thrown where
  | object (message : String)
  | nullish (isUndefined : Bool)
  deriving DecidableEq, Repr

/-- The user's code, as far as `executeJavaScript` observes it: whether `eval(code)` throws,
whether `solution`, or else `main`, is a function afterwards, and for the test case at index
`idx` what the body of the inner `try` gives up to `actualOutputStr` (parsing of the input, the
call of the function and the conversion of its result): a string, or a thrown value. -/
structure Program where
  evalThrows : Option Thrown
  definesFunction : Bool
  runCase : Nat → TestCase → Except Thrown String

/-- White space in the sense of `String.prototype.trim` and of `\s`. -/
def isJsWhitespace (c : Char) : Bool :=
  c.toNat ∈ [9, 10, 11, 12, 13, 32, 160, 5760, 8232, 8233, 8239, 8287, 12288, 65279] ||
    (8192 ≤ c.toNat && c.toNat ≤ 8202)

/-- The call `s.trim()`. -/
def jsTrim (s : List Char) : List Char :=
  ((s.dropWhile isJsWhitespace).reverse.dropWhile isJsWhitespace).reverse

/-- The call `s.replace(/\s+/g, " ")`; `inRun` tells that the preceding character was white
space. -/
def collapseWhitespace : Bool → List Char → List Char
  | _, [] => []
  | inRun, c :: cs =>
    if isJsWhitespace c then
      if inRun then collapseWhitespace true cs else ' ' :: collapseWhitespace true cs
    else c :: collapseWhitespace false cs

/-- The operator `a ?? b`. -/
def jsCoalesce (a b : JsVal) : JsVal :=
  match a with
  | .undefined => b
  | .null => b
  | v => v

/-- The entry pushed at the end of the inner `try` (lines 712-724). -/
def completedEntry (actualOutputStr : String) (testCase : TestCase) (idx : Nat) : TestResult :=
  let expectedOutput := jsTrim (jsCoalesce testCase.expectedOutput (.str "")).toJsString.toList
  let normalizedActual := collapseWhitespace false (jsTrim actualOutputStr.toList)
  let normalizedExpected := collapseWhitespace false expectedOutput
  { input := testCase.input
    expectedOutput := .str (String.mk expectedOutput)
    actualOutput := actualOutputStr
    passed := decide (normalizedActual = normalizedExpected)
    testCaseNumber := idx + 1 }

/-- The entry pushed by a `catch` block (lines 726-732 and 742-748). -/
def failedEntry (message : String) (tc : TestCase) (idx : Nat) : TestResult :=
  { input := tc.input
    expectedOutput := tc.expectedOutput
    actualOutput := "Error: " ++ message
    passed := false
    testCaseNumber := idx + 1 }

/-- The error raised when `message` is read on a thrown `null` or `undefined` (the texts are
those of V8). -/
def nullMessageError (isUndefined : Bool) : Thrown :=
  if isUndefined then .object "Cannot read properties of undefined (reading 'message')"
  else .object "Cannot read properties of null (reading 'message')"

/-- The loop `testCases.forEach((testCase, idx) => ...)` (lines 686-734) from index `idx` on:
the results so far, and the value thrown out of the loop if its `catch` block throws. -/
def runTestCases (runCase : Nat → TestCase → Except Thrown String) :
    Nat → List TestCase → List TestResult → List TestResult × Option Thrown
  | _, [], results => (results, none)
  | idx, testCase :: rest, results =>
    match runCase idx testCase with
    | .ok actualOutputStr =>
      runTestCases runCase (idx + 1) rest (results ++ [completedEntry actualOutputStr testCase idx])
    | .error (.object message) =>
      runTestCases runCase (idx + 1) rest (results ++ [failedEntry message testCase idx])
    | .error (.nullish isUndefined) => (results, some (nullMessageError isUndefined))

/-- The loop of the outer `catch` (lines 741-749) over `question?.testCases ?? []`, from index
`idx` on. -/
def pushFailed (message : String) : Nat → List TestCase → List TestResult → List TestResult
  | _, [], results => results
  | idx, tc :: rest, results =>
    pushFailed message (idx + 1) rest (results ++ [failedEntry message tc idx])

/-- One block of the output text for an entry (lines 754-759). -/
def resultLines (r : TestResult) : String :=
  "Test Case " ++ toString r.testCaseNumber ++ ": " ++
    (if r.passed then "✓ PASSED" else "✗ FAILED") ++ "\n" ++
    "  Input: " ++ r.input.toJsString ++ "\n" ++
    "  Expected: " ++ r.expectedOutput.toJsString ++ "\n" ++
    "  Got: " ++ r.actualOutput ++ "\n\n"

/-- The last line of the output text (line 760). -/
def verdict (results : List TestResult) : String :=
  if (results.filter (fun r => r.passed)).length = results.length then
    "✓ All test cases passed! Well done!"
  else "✗ Some test cases failed. Try again."

/-- The output text built from the results (lines 751-760). -/
def outputText (results : List TestResult) : String :=
  "Running your code...\n\n" ++
    "Results: " ++ toString (results.filter (fun r => r.passed)).length ++ "/" ++
    toString results.length ++ " test cases passed.\n\n" ++
    String.join (results.map resultLines) ++ verdict results

/-- The function `executeJavaScript(code, testCases)` (lines 676-762).  `questionTestCases` is
the value of `question?.testCases ?? []` in the component; the result is `.error` when an
exception leaves the function. -/
def executeJavaScript (questionTestCases : List TestCase) (prog : Program)
    (testCases : List TestCase) : Except Thrown (List TestResult × String) :=
  let tried : List TestResult × Option Thrown :=
    match prog.evalThrows with
    | some e => ([], some e)
    | none =>
      if !prog.definesFunction then
        ([], some (.object "Please define a function named \"solution\" or \"main\"."))
      else runTestCases prog.runCase 0 testCases []
  match tried.2 with
  | none => .ok (tried.1, outputText tried.1)
  | some (.object message) =>
    let results := pushFailed message 0 questionTestCases tried.1
    .ok (results, outputText results)
  | some (.nullish isUndefined) =>
    match questionTestCases with
    | [] => .ok (tried.1, outputText tried.1)
    | _ :: _ => .error (nullMessageError isUndefined)

/-- An example of a question. -/
structure Example where
  input : JsVal := .undefined
  output : JsVal := .undefined
  deriving DecidableEq, Repr

/-- The question of the session, as far as `runCode` reads it; a field that is absent or `null`
is `none`. -/
structure Question where
  testCases : Option (List TestCase) := none
  examples : Option (List Example) := none
  deriving DecidableEq, Repr

/-- The constant `testCasesToUse` of `runCode` (lines 795-800); `none` is `null`. -/
def testCasesToUse (question : Option Question) : Option (List TestCase) :=
  let fromQuestion : Option (List TestCase) :=
    match question.bind (fun q => q.testCases) with
    | some tcs => if tcs.length > 0 then some tcs else none
    | none => none
  match fromQuestion with
  | some tcs => some tcs
  | none =>
    match question.bind (fun q => q.examples) with
    | some exs =>
      if exs.length > 0 then
        some (exs.map (fun ex =>
          { input := jsOr ex.input (.str ""), expectedOutput := jsOr ex.output (.str "") }))
      else none
    | none => none

/-- The handler `runCode` (lines 790-818) for the languages run in the page (`javascript`,
`typescript`): the pair of `testResults` and `output` it sets last. -/
def runCode (question : Option Question) (prog : Program) : List TestResult × String :=
  match testCasesToUse question with
  | none => ([], "No test cases available for this question.")
  | some testCases =>
    if testCases.length = 0 then ([], "No test cases available for this question.")
    else
      match executeJavaScript ((question.bind (fun q => q.testCases)).getD []) prog testCases with
      | .ok executionResult => executionResult
      | .error (.object message) => ([], "Error: " ++ message)
      | .error (.nullish _) => ([], "Running your code...\n")

/-- The operations of the loop body (lines 490-500) for one change, given its `offset`. -/
def changeOps (offset : Int) (c : Change) : List YOp :=
  (if c.rangeLength > 0 then [YOp.delete offset c.rangeLength] else []) ++
    (if c.text.length > 0 then [YOp.insert offset c.text] else [])

/-- The value of `shift` after the loop has run over a list of changes: the sum of their net
length changes. -/
def netShift : List Change → Int
  | [] => 0
  | c :: cs => (c.text.length : Int) - (c.rangeLength : Int) + netShift cs

/-! ## A small library instance for running the handlers -/

/-- A stand-in for the two external libraries, used to run the handlers on concrete inputs.
The document is its text.  An update is the byte 1 followed by character codes, which are
appended to the text; any other byte sequence is rejected.  The widget applies a single edit
as a range replacement and raises no event. -/
def demoLib : Lib where
  Doc := List Char
  toText := fun d => d
  applyUpdate := fun d bytes =>
    match bytes with
    | 1 :: codes =>
      some (d ++ codes.map Char.ofNat,
        { delta := some [.retain d.length, .insert (codes.map Char.ofNat)], update := some bytes })
    | _ => none
  transact := fun d ops =>
    (applyYOps d ops,
      { delta := if ops = [] then none else some [],
        update := if ops = [] then none else some (1 :: (applyYOps d ops).map Char.toNat) })
  executeEdits := fun w edits =>
    match edits with
    | [e] => w.take e.startOffset ++ e.text ++ w.drop e.endOffset
    | _ => w
  editsEvent := fun _ _ => none
  setValueEvent := fun w text => some [{ rangeOffset := 0, rangeLength := w.length, text := text }]

/-- A session on `demoLib`: text `ab` in document and widget, transport open. -/
def demoSession : Session demoLib :=
  { doc := "ab".toList, widget := some "ab".toList, wsOpen := true }

/-- A mounted session on `demoLib` whose widget holds other text than the document. -/
def demoStaleSession : Session demoLib :=
  { doc := "ab".toList, widget := some "zzzz".toList, wsOpen := true }

/-- The configuration of the demo session. -/
def demoConfig : Config := { myUserId := .str "u1", roomId := .str "room" }

/-- A `YJS_UPDATE` message whose payload is the bytes 1, 99: append `c`. -/
def demoUpdateMsg : Msg := { type := .str "YJS_UPDATE", payloadB64 := .str "AWM=" }

/-- A `YJS_SYNC` message whose payload is the bytes 1, 99. -/
def demoSyncMsg : Msg := { type := .str "YJS_SYNC", payloadB64 := .str "AWM=" }

/-- A `YJS_UPDATE` message whose payload is valid base64 (the byte 0) that the document
rejects. -/
def demoRejectedMsg : Msg := { type := .str "YJS_UPDATE", payloadB64 := .str "AA==" }

/-- The chat list after one partner message has been sent from the demo session. -/
def demoPendingChat : List ChatEntry :=
  (sendPartnerMessage demoConfig demoSession "check case 3" 1700 "k3x9qa"
    "2025-01-01T00:00:00.000Z").chat

/-- The relay's echo of that message. -/
def demoEchoMsg : Msg :=
  { type := .str "PARTNER_CHAT", senderId := .str "u1", content := .str "check case 3",
    sentAt := .str "2025-01-01T00:00:01.000Z", clientId := .str "local-1700-k3x9qa" }

/-- A chat list holding one entry whose `clientId` is the empty string. -/
def demoEmptyIdChat : List ChatEntry :=
  [{ role := Role.partnerSelf, content := .str "first", senderId := .str "u1",
     clientId := .str "" }]

/-- A message of the local identity whose `clientId` is the empty string. -/
def demoEmptyIdMsg : Msg :=
  { type := .str "PARTNER_CHAT", senderId := .str "u1", content := .str "second",
    clientId := .str "" }

/-- The configuration of a session whose credential did not decode: the identity is
`null`. -/
def demoNullConfig : Config := { myUserId := .null, roomId := .str "room" }

/-- A session in degraded identity mode holding one pending partner message. -/
def demoNullSession : Session demoLib :=
  sendPartnerMessage demoNullConfig demoSession "check case 3" 1700 "k3x9qa"
    "2025-01-01T00:00:00.000Z"

/-- A `PARTNER_CHAT` message whose `senderId` is JSON `null`, carrying the `clientId` of the
pending entry. -/
def demoNullSenderMsg : Msg :=
  { type := .str "PARTNER_CHAT", senderId := .null, content := .str "from the peer",
    sentAt := .str "2025-01-01T00:00:02.000Z", clientId := .str "local-1700-k3x9qa" }

/-- Two partner messages sent one after the other. -/
def demoSends : List PartnerSend :=
  [⟨"check case 3", 1700, "k3x9qa", "2025-01-01T00:00:00.000Z"⟩,
   ⟨"and case 4", 1701, "p0w2zz", "2025-01-01T00:00:05.000Z"⟩]

/-- Their echoes, arriving in the opposite order. -/
def demoEchoes : List Msg :=
  [{ type := .str "PARTNER_CHAT", senderId := .str "u1", content := .str "and case 4",
     sentAt := .str "2025-01-01T00:00:06.000Z", clientId := .str "local-1701-p0w2zz" },
   { type := .str "PARTNER_CHAT", senderId := .str "u1", content := .str "check case 3",
     sentAt := .str "2025-01-01T00:00:01.000Z", clientId := .str "local-1700-k3x9qa" }]

/-- The batch of the offset rebasing example: delete 3 characters at offset 5, then insert
`xy` at offset 5, both offsets in the text before the batch. -/
def rebasingBatch : List Change := [⟨5, 3, []⟩, ⟨5, 0, "xy".toList⟩]

/-- A `PARTNER_CHAT` message of the peer `u2`. -/
def demoPeerMsg : Msg :=
  { type := .str "PARTNER_CHAT", senderId := .str "u2", content := .str "try a hash map",
    sentAt := .str "2025-01-01T00:00:03.000Z", clientId := .str "local-1702-zz91ab" }

/-- The demo session with the transport not open. -/
def demoClosedSession : Session demoLib :=
  { doc := "ab".toList, widget := some "ab".toList, wsOpen := false }

/-- An `ERROR` message of the relay. -/
def demoErrorMsg : Msg := { type := .str "ERROR", message := .str "room is full" }

/-- A stand-in for `JSON.parse` that knows two texts, the twelve characters of the object with
the single key `sub` and the value `u1`, and the five characters of the string literal `abc`
in double quotes, and throws on every other text. -/
def demoJsonParse (text : List Char) : Option Parsed :=
  if text.map Char.toNat = [123, 34, 115, 117, 98, 34, 58, 34, 117, 49, 34, 125] then
    some (.object (.str "u1") .undefined .undefined .undefined)
  else if text.map Char.toNat = [34, 97, 98, 99, 34] then some (.string "abc")
  else none

/-- A credential whose second segment is the base64url form of the string literal `abc` in
double quotes. -/
def demoStringToken : JsVal := .str "hdr.ImFiYyI.sig"

/-- A credential of three segments whose second segment is the base64url form of that text. -/
def demoToken : JsVal := .str "hdr.eyJzdWIiOiJ1MSJ9.sig"

/-- A session on `demoLib` that has not received its snapshot: empty document, editor
mounted, transport open. -/
def demoUnsyncedSession : Session demoLib :=
  { doc := [], widget := some [], wsOpen := true }

/-- A synced session on `demoLib` with an empty document and the editor mounted. -/
def demoSyncedEmptySession : Session demoLib :=
  { doc := [], widget := some [], wsOpen := true, synced := true }

/-- The events of a demo session: the transport opens and a message of the peer arrives. -/
def demoEvents : List Event := [.transportOpen, .message (some demoPeerMsg)]

/-- The events of a demo session in which the relay reports an error and then sends the
snapshot. -/
def demoErrorThenSync : List Event :=
  [.transportOpen, .message (some demoErrorMsg), .message (some demoSyncMsg)]

/-- The initial state of a session on `demoLib` with the document text `ab`. -/
def demoInitial : Session demoLib := initialSession "ab".toList

/-- The state of the demo session after the relay has reported an error. -/
def demoErrorState : Session demoLib :=
  run demoConfig demoInitial [.transportOpen, .message (some demoErrorMsg)]

/-- A lawful stand-in for the replicated document, used to run a room of two peers: a text
that only grows.  The document is the length of a run of `x`, each text operation of a
transaction lengthens it by one, an update carries the length reached as its own length, and
integrating an update takes the larger length. -/
def growLib : Lib where
  Doc := Nat
  toText := fun d => List.replicate d 'x'
  applyUpdate := fun d u =>
    if u = [] then none
    else some (max d u.length,
      { delta := some [.retain d, .insert (List.replicate (max d u.length - d) 'x')],
        update := some u })
  transact := fun d ops =>
    if ops = [] then (d, { delta := none, update := none })
    else (d + ops.length,
      { delta := some [.retain d, .insert (List.replicate ops.length 'x')],
        update := some (List.replicate (d + ops.length) 1) })
  executeEdits := fun w edits =>
    match edits with
    | [e] => w.take e.startOffset ++ e.text ++ w.drop e.endOffset
    | _ => w
  editsEvent := fun _ _ => none
  setValueEvent := fun _ _ => none

/-- Integration of an update into the growing text: the larger length. -/
def growMerge (d : Nat) (u : List Nat) : Nat := max d u.length

/-- The growing text keeps the laws of a replicated document. -/
def growLaws : MergeLaws growLib where
  merge := growMerge
  valid := fun u => u ≠ [] ∧ ∀ b ∈ u, b < 256
  valid_bytes := fun _ h => h
  applyUpdate_valid := fun d u h => ⟨_, if_neg h.1⟩
  transact_update := fun (d : Nat) ops u h => by
    by_cases ho : ops = []
    · simp [growLib, ho] at h
    · have hlen : 0 < ops.length := List.length_pos.mpr ho
      simp only [growLib, ho, if_false, Option.some.injEq] at h
      subst h
      refine ⟨⟨?_, ?_⟩, ?_⟩
      · intro hnil
        have := congrArg List.length hnil
        rw [List.length_replicate, List.length_nil] at this
        omega
      · intro b hb
        rw [List.eq_of_mem_replicate hb]
        decide
      · show (if ops = [] then _ else _ : Nat × TxnNotice).1 = growMerge d _
        rw [if_neg ho]
        simp [growMerge]
  transact_quiet := fun (d : Nat) ops h => by
    by_cases ho : ops = []
    · simp [growLib, ho]
    · simp [growLib, ho] at h
  merge_comm := fun (d : Nat) u v _ _ => by
    show (max (max d u.length) v.length : Nat) = max (max d v.length) u.length
    omega
  merge_idem := fun (d : Nat) u _ => by
    show (max (max d u.length) u.length : Nat) = max d u.length
    omega

/-- A room of two peers on `growLib`, both in steady state on the empty document, editor
mounted. -/
def demoPair : Pair growLib :=
  { a := { doc := (0 : Nat), widget := some [], wsOpen := true },
    b := { doc := (0 : Nat), widget := some [], wsOpen := true } }

/-- An interleaving: one keystroke at the first peer, two at the second, then the deliveries. -/
def demoPairEvents : List PairEvent :=
  [.editA [⟨0, 0, ['a']⟩], .editB [⟨0, 0, ['b']⟩], .editB [⟨1, 0, ['c']⟩],
   .deliverB, .deliverA, .deliverA]

/-- A fresh session on `growLib` with the editor mounted: nothing received, nothing typed. -/
def demoFreshSession : Session growLib :=
  { doc := (0 : Nat), widget := some [] }

/-- A `YJS_SYNC` message for `growLib` whose payload is the two bytes 1, 1: a snapshot of a
text of length two. -/
def demoGrowSyncMsg : Msg := { type := .str "YJS_SYNC", payloadB64 := .str "AQE=" }

/-- The stand-in library with a widget that executes batches of edits. -/
def batchLib : Lib := { demoLib with executeEdits := executeBatch }

/-- The text both peers hold before the remote change. -/
def demoMirrorText : List Char := "hello world, bye".toList

/-- The change notification raised when the peer selects `world` and types `there`: the peer's
transaction deletes five characters at offset 6 and inserts the new text there. -/
def demoReplaceDelta : List DeltaOp := [.retain 6, .insert "there".toList, .delete 5]

/-- The session that receives the change: the document already holds the new text, the widget
still the old one. -/
def demoMirrorSession : Session batchLib :=
  { doc := "hello there, bye".toList, widget := some demoMirrorText, wsOpen := true }

/-- The demo session with its pending partner message in the chat list. -/
def demoPendingSession : Session demoLib :=
  { doc := "ab".toList, widget := some "ab".toList, wsOpen := true, chat := demoPendingChat }

/-- A message of the peer that carries the `clientId` of the pending local entry. -/
def demoPeerSameIdMsg : Msg :=
  { type := .str "PARTNER_CHAT", senderId := .str "u2", content := .str "overwrite",
    sentAt := .str "2025-01-01T00:00:02.000Z", clientId := .str "local-1700-k3x9qa" }

/-- A question that comes with examples and without test cases. -/
def demoQuestion : Question :=
  { examples := some [{ input := .str "[1,2,3]", output := .str "6" }] }

/-- User code that does not parse: `eval` throws a `SyntaxError`. -/
def demoBrokenProgram : Program :=
  { evalThrows := some (.object "Unexpected end of input")
    definesFunction := false
    runCase := fun _ _ => .ok "" }

/-- User code that defines a function `solution` returning `6` on every input. -/
def demoSixProgram : Program :=
  { evalThrows := none
    definesFunction := true
    runCase := fun _ _ => .ok "6" }

/-- The stand-in library with one more kind of update: the bytes 2, `n` delete the first `n`
characters of the text. -/
def eraseLib : Lib where
  Doc := List Char
  toText := fun d => d
  applyUpdate := fun d bytes =>
    match bytes with
    | [2, n] => some (d.drop n, { delta := some [.delete n], update := some bytes })
    | 1 :: codes =>
      some (d ++ codes.map Char.ofNat,
        { delta := some [.retain d.length, .insert (codes.map Char.ofNat)], update := some bytes })
    | _ => none
  transact := fun d ops =>
    (applyYOps d ops,
      { delta := if ops = [] then none else some [],
        update := if ops = [] then none else some (1 :: (applyYOps d ops).map Char.toNat) })
  executeEdits := fun w edits =>
    match edits with
    | [e] => w.take e.startOffset ++ e.text ++ w.drop e.endOffset
    | _ => w
  editsEvent := fun _ _ => none
  setValueEvent := fun w text => some [{ rangeOffset := 0, rangeLength := w.length, text := text }]

/-- A synced session on `eraseLib` with an empty document and the editor mounted. -/
def demoSeedSession : Session eraseLib :=
  { doc := [], widget := some [], wsOpen := true, synced := true }

/-- The update of the peer that deletes the 103 characters of the Python template (the bytes
2, 103). -/
def demoEraseAllMsg : Msg := { type := .str "YJS_UPDATE", payloadB64 := .str "Amc=" }

/-- The events of a session in which the seeding effect runs, the peer deletes the whole text,
and the user then picks Java in the language select. -/
def demoReseedEvents : List Event :=
  [.seedingEffect, .message (some demoEraseAllMsg), .languageChange "java"]

/-! ## Echo suppression on the inbound path -/

theorem onUpdate_of_suppressNetwork (s : Session L) (u : List Nat)
    (h : s.suppressNetwork = true) : onUpdate s u = s := by
  unfold onUpdate
  simp [h]

theorem onDidChangeModelContent_of_suppressLocal (s : Session L) (e : List Change)
    (h : s.suppressLocal = true) : onDidChangeModelContent s e = s := by
  unfold onDidChangeModelContent
  simp [h]

/-- For a local transaction the text observer never reaches the widget, so the listener it is
given plays no part. -/
theorem onYTextEvent_local (k1 k2 : Session L → List Change → Session L) (s : Session L)
    (delta : List DeltaOp) : onYTextEvent k1 s true delta = onYTextEvent k2 s true delta := by
  simp [onYTextEvent]

/-- The text observer on a remote transaction, with the real widget listener: the listener
returns at once, and only the mirror text, the widget and `suppressLocal` can differ
afterwards. -/
theorem onYTextEvent_remote (s : Session L) (delta : List DeltaOp) :
    ∃ w sl, onYTextEvent onDidChangeModelContent s false delta =
      { s with lastText := L.toText s.doc, widget := w, suppressLocal := sl } ∧
      (s.widget = none → w = none) ∧ (∀ x, s.widget = some x → ∃ y, w = some y) := by
  unfold onYTextEvent
  cases hw : s.widget with
  | none => exact ⟨none, s.suppressLocal, by simp [hw], by simp, by simp⟩
  | some x =>
    by_cases hd : delta.length = 0
    · exact ⟨some x, s.suppressLocal, by simp [hw, hd], by simp, by simp⟩
    · by_cases he : (buildEdits x 0 delta).length > 0
      · refine ⟨some (L.executeEdits x (buildEdits x 0 delta)), false, ?_, by simp, by simp⟩
        simp only [hw, hd, he, if_true, if_false, Bool.false_eq_true]
        cases L.editsEvent x (buildEdits x 0 delta) with
        | none => rfl
        | some e => simp [onDidChangeModelContent_of_suppressLocal]
      · exact ⟨some x, s.suppressLocal, by simp [hw, hd, he], by simp, by simp⟩

theorem notify_remote (s : Session L) (n : TxnNotice) (h : s.suppressNetwork = true) :
    ∃ l w sl, notify (onYTextEvent onDidChangeModelContent) s n false =
      { s with lastText := l, widget := w, suppressLocal := sl } ∧
      (s.widget = none → w = none) ∧ (∀ x, s.widget = some x → ∃ y, w = some y) := by
  unfold notify
  cases hd : n.delta with
  | none =>
    refine ⟨s.lastText, s.widget, s.suppressLocal, ?_, fun hn => hn, fun x hx => ⟨x, hx⟩⟩
    cases n.update with
    | none => rfl
    | some u => exact onUpdate_of_suppressNetwork _ _ h
  | some d =>
    obtain ⟨w, sl, hy, h1, h2⟩ := onYTextEvent_remote s d
    refine ⟨L.toText s.doc, w, sl, ?_, h1, h2⟩
    simp only [hy]
    cases n.update with
    | none => rfl
    | some u => exact onUpdate_of_suppressNetwork _ _ h

theorem setValueSuppressed_eq (s : Session L) (w text : List Char) :
    setValueSuppressed s w text = { s with widget := some text, suppressLocal := false } := by
  unfold setValueSuppressed
  cases L.setValueEvent w text with
  | none => rfl
  | some e =>
    show ({ onDidChangeModelContent _ e with suppressLocal := false } : Session L) = _
    rw [onDidChangeModelContent_of_suppressLocal _ _ rfl]

/-- Handling of a `YJS_UPDATE` message with a non-empty payload, spelled out. -/
theorem handleMessage_update (cfg : Config) (s : Session L) (msg : Msg)
    (ht : msg.type = .str "YJS_UPDATE") (hp : msg.payloadB64.truthy = true) :
    handleMessage cfg s msg =
      match fromB64 msg.payloadB64 with
      | none => .error s
      | some update =>
        match L.applyUpdate s.doc update with
        | none => .error { s with suppressNetwork := true }
        | some r =>
          .ok { notify (onYTextEvent onDidChangeModelContent)
                  { s with suppressNetwork := true, doc := r.1 } r.2 false with
                suppressNetwork := false } := by
  unfold handleMessage
  have h1 : (JsVal.str "YJS_UPDATE").truthy = true := by decide
  have h2 : (JsVal.str "YJS_UPDATE").strictEq (.str "YJS_UPDATE") = true := by decide
  simp only [ht, h1, h2, hp, Bool.not_true, Bool.and_self, if_true, Bool.false_eq_true, if_false]

/-- Handling of a `YJS_SYNC` message with a non-empty payload, spelled out. -/
theorem handleMessage_sync (cfg : Config) (s : Session L) (msg : Msg)
    (ht : msg.type = .str "YJS_SYNC") (hp : msg.payloadB64.truthy = true) :
    handleMessage cfg s msg =
      match fromB64 msg.payloadB64 with
      | none => .error s
      | some snapshot =>
        match L.applyUpdate s.doc snapshot with
        | none => .error { s with suppressNetwork := true }
        | some r =>
          let s1 := { notify (onYTextEvent onDidChangeModelContent)
                        { s with suppressNetwork := true, doc := r.1 } r.2 false with
                      suppressNetwork := false, synced := true, status := "synced" }
          match s1.widget with
          | some w =>
            if w ≠ L.toText s1.doc then .ok (setValueSuppressed s1 w (L.toText s1.doc))
            else .ok s1
          | none => .ok s1 := by
  unfold handleMessage
  have h1 : (JsVal.str "YJS_SYNC").truthy = true := by decide
  have h2 : (JsVal.str "YJS_SYNC").strictEq (.str "YJS_UPDATE") = false := by decide
  have h3 : (JsVal.str "YJS_SYNC").strictEq (.str "YJS_SYNC") = true := by decide
  simp only [ht, h1, h2, h3, hp, Bool.not_true, Bool.and_self, if_true, Bool.false_eq_true,
    if_false, Bool.false_and]

/-- A `YJS_UPDATE` or `YJS_SYNC` message with an empty or absent payload is ignored. -/
theorem handleMessage_no_payload (cfg : Config) (s : Session L) (msg : Msg)
    (ht : msg.type = .str "YJS_UPDATE" ∨ msg.type = .str "YJS_SYNC")
    (hp : msg.payloadB64.truthy = false) : handleMessage cfg s msg = .ok s := by
  unfold handleMessage
  have h1 : (JsVal.str "YJS_SYNC").truthy = true := by decide
  have h2 : (JsVal.str "YJS_SYNC").strictEq (.str "YJS_UPDATE") = false := by decide
  have h3 : (JsVal.str "YJS_SYNC").strictEq (.str "ERROR") = false := by decide
  have h4 : (JsVal.str "YJS_SYNC").strictEq (.str "LEFT") = false := by decide
  have h5 : (JsVal.str "YJS_SYNC").strictEq (.str "PARTNER_CHAT") = false := by decide
  have g1 : (JsVal.str "YJS_UPDATE").truthy = true := by decide
  have g3 : (JsVal.str "YJS_UPDATE").strictEq (.str "ERROR") = false := by decide
  have g4 : (JsVal.str "YJS_UPDATE").strictEq (.str "LEFT") = false := by decide
  have g5 : (JsVal.str "YJS_UPDATE").strictEq (.str "PARTNER_CHAT") = false := by decide
  have g6 : (JsVal.str "YJS_UPDATE").strictEq (.str "YJS_SYNC") = false := by decide
  rcases ht with ht | ht
  · simp only [ht, hp, g1, g3, g4, g5, g6, Bool.not_true, Bool.and_false, Bool.false_and,
      if_false, Bool.false_eq_true]
  · simp only [ht, hp, h1, h2, h3, h4, h5, Bool.not_true, Bool.and_false, Bool.false_and,
      if_false, Bool.false_eq_true]

/-- State after a `YJS_UPDATE` message whose payload decodes and applies. -/
theorem onmessage_update_applied (cfg : Config) (s : Session L) (msg : Msg) (bytes : List Nat)
    (r : L.Doc × TxnNotice) (ht : msg.type = .str "YJS_UPDATE")
    (hp : msg.payloadB64.truthy = true) (hb : fromB64 msg.payloadB64 = some bytes)
    (ha : L.applyUpdate s.doc bytes = some r) :
    ∃ l w sl, onmessage cfg s (some msg) =
      { s with doc := r.1, lastText := l, widget := w, suppressLocal := sl,
               suppressNetwork := false } ∧
      (s.widget = none → w = none) ∧ (∀ x, s.widget = some x → ∃ y, w = some y) := by
  obtain ⟨l, w, sl, hn, h1, h2⟩ :=
    notify_remote ({ s with suppressNetwork := true, doc := r.1 } : Session L) r.2 rfl
  refine ⟨l, w, sl, ?_, h1, h2⟩
  unfold onmessage
  simp only [handleMessage_update cfg s msg ht hp, hb, ha, hn]

/-- State after a `YJS_SYNC` message whose payload decodes and applies. -/
theorem onmessage_sync_applied (cfg : Config) (s : Session L) (msg : Msg) (bytes : List Nat)
    (r : L.Doc × TxnNotice) (ht : msg.type = .str "YJS_SYNC")
    (hp : msg.payloadB64.truthy = true) (hb : fromB64 msg.payloadB64 = some bytes)
    (ha : L.applyUpdate s.doc bytes = some r) :
    ∃ l w sl, onmessage cfg s (some msg) =
      { s with doc := r.1, lastText := l, widget := w, suppressLocal := sl,
               suppressNetwork := false, synced := true, status := "synced" } ∧
      (s.widget = none → w = none) ∧ (∀ x, s.widget = some x → w = some (L.toText r.1)) := by
  obtain ⟨l, w, sl, hn, h1, h2⟩ :=
    notify_remote ({ s with suppressNetwork := true, doc := r.1 } : Session L) r.2 rfl
  unfold onmessage
  simp only [handleMessage_sync cfg s msg ht hp, hb, ha, hn]
  cases hw : w with
  | none =>
    refine ⟨l, none, sl, rfl, fun _ => rfl, fun x hx => ?_⟩
    obtain ⟨y, hy⟩ := h2 x hx
    rw [hw] at hy
    cases hy
  | some x =>
    have hs : s.widget ≠ none := fun hn0 => by
      have := h1 hn0
      rw [hw] at this
      cases this
    by_cases hx : x = L.toText r.1
    · refine ⟨l, some x, sl, ?_, fun hn0 => absurd hn0 hs, fun _ _ => by rw [hx]⟩
      simp [hx]
    · refine ⟨l, some (L.toText r.1), false, ?_, fun hn0 => absurd hn0 hs, fun _ _ => rfl⟩
      simp [hx, setValueSuppressed_eq]

/-- C3. Handling an inbound `YJS_UPDATE` or `YJS_SYNC` message sends nothing on the transport,
and the document afterwards is either the one before or the one the payload produced: the
update notification raised while the payload is applied is not forwarded, and the write-back
into the widget is not captured as a local change. -/
theorem inbound_update_sends_nothing (cfg : Config) (s : Session L) (msg : Msg)
    (ht : msg.type = .str "YJS_UPDATE" ∨ msg.type = .str "YJS_SYNC") :
    (onmessage cfg s (some msg)).sent = s.sent ∧
    ((onmessage cfg s (some msg)).doc = s.doc ∨
      ∃ bytes r, fromB64 msg.payloadB64 = some bytes ∧ L.applyUpdate s.doc bytes = some r ∧
        (onmessage cfg s (some msg)).doc = r.1) := by
  cases hp : msg.payloadB64.truthy with
  | false =>
    have h := handleMessage_no_payload cfg s msg ht hp
    simp [onmessage, h]
  | true =>
    cases hb : fromB64 msg.payloadB64 with
    | none =>
      rcases ht with ht | ht
      · simp [onmessage, handleMessage_update cfg s msg ht hp, hb]
      · simp [onmessage, handleMessage_sync cfg s msg ht hp, hb]
    | some bytes =>
      cases ha : L.applyUpdate s.doc bytes with
      | none =>
        rcases ht with ht | ht
        · simp [onmessage, handleMessage_update cfg s msg ht hp, hb, ha]
        · simp [onmessage, handleMessage_sync cfg s msg ht hp, hb, ha]
      | some r =>
        rcases ht with ht | ht
        · obtain ⟨l, w, sl, h, _⟩ := onmessage_update_applied cfg s msg bytes r ht hp hb ha
          rw [h]
          exact ⟨rfl, Or.inr ⟨bytes, r, rfl, ha, rfl⟩⟩
        · obtain ⟨l, w, sl, h, _⟩ := onmessage_sync_applied cfg s msg bytes r ht hp hb ha
          rw [h]
          exact ⟨rfl, Or.inr ⟨bytes, r, rfl, ha, rfl⟩⟩

theorem inbound_update_sends_nothing_witness :
    (demoUpdateMsg.type = .str "YJS_UPDATE" ∨ demoUpdateMsg.type = .str "YJS_SYNC") ∧
    (onmessage demoConfig demoSession (some demoUpdateMsg)).sent = demoSession.sent ∧
    ((onmessage demoConfig demoSession (some demoUpdateMsg)).doc = demoSession.doc ∨
      ∃ bytes r, fromB64 demoUpdateMsg.payloadB64 = some bytes ∧
        demoLib.applyUpdate demoSession.doc bytes = some r ∧
        (onmessage demoConfig demoSession (some demoUpdateMsg)).doc = r.1) :=
  ⟨Or.inl rfl, inbound_update_sends_nothing demoConfig demoSession demoUpdateMsg (Or.inl rfl)⟩


/-! ## Outbound updates -/

/-- C4. A widget edit event captured while the transport is open and neither suppression flag
is set, whose transaction changes the document and so raises the update `u`, sends exactly
one message: `YJS_UPDATE` with the base64 encoding of `u`. -/
theorem local_edit_sends_one_update (s : Session L) (changes : List Change) (u : List Nat)
    (hopen : s.wsOpen = true) (hn : s.suppressNetwork = false) (hl : s.suppressLocal = false)
    (hu : (L.transact s.doc (transactionOps changes)).2.update = some u) :
    (onDidChangeModelContent s changes).sent = s.sent ++ [OutMsg.yjsUpdate (toB64 u)] := by
  unfold onDidChangeModelContent notify
  simp only [hl, hu, Bool.false_eq_true, if_false]
  cases (L.transact s.doc (transactionOps changes)).2.delta with
  | none => simp [onUpdate, hopen, hn, hl]
  | some d => simp [onUpdate, onYTextEvent, hopen, hn, hl]

theorem local_edit_sends_one_update_witness :
    demoSession.wsOpen = true ∧ demoSession.suppressNetwork = false ∧
    demoSession.suppressLocal = false ∧
    (demoLib.transact demoSession.doc (transactionOps [⟨2, 0, "c".toList⟩])).2.update
      = some [1, 97, 98, 99] ∧
    (onDidChangeModelContent demoSession [⟨2, 0, "c".toList⟩]).sent
      = demoSession.sent ++ [OutMsg.yjsUpdate (toB64 [1, 97, 98, 99])] :=
  ⟨rfl, rfl, rfl, by decide,
    local_edit_sends_one_update demoSession [⟨2, 0, "c".toList⟩] [1, 97, 98, 99] rfl rfl rfl
      (by decide)⟩

/-! ## Malformed inbound payloads -/

/-- A message that is not valid JSON leaves the session as it was. -/
theorem onmessage_invalid_json (cfg : Config) (s : Session L) : onmessage cfg s none = s := rfl

/-- A `YJS_UPDATE` or `YJS_SYNC` message whose payload is not valid base64 leaves the session
as it was. -/
theorem onmessage_invalid_base64 (cfg : Config) (s : Session L) (msg : Msg)
    (ht : msg.type = .str "YJS_UPDATE" ∨ msg.type = .str "YJS_SYNC")
    (hb : fromB64 msg.payloadB64 = none) : onmessage cfg s (some msg) = s := by
  cases hp : msg.payloadB64.truthy with
  | false => simp [onmessage, handleMessage_no_payload cfg s msg ht hp]
  | true =>
    rcases ht with ht | ht
    · simp [onmessage, handleMessage_update cfg s msg ht hp, hb]
    · simp [onmessage, handleMessage_sync cfg s msg ht hp, hb]

/-- The state after a message whose payload decodes but is rejected by the document. -/
theorem rejected_payload_state (cfg : Config) (s : Session L) (msg : Msg)
    (bytes : List Nat) (ht : msg.type = .str "YJS_UPDATE" ∨ msg.type = .str "YJS_SYNC")
    (hp : msg.payloadB64.truthy = true) (hb : fromB64 msg.payloadB64 = some bytes)
    (ha : L.applyUpdate s.doc bytes = none) :
    onmessage cfg s (some msg) = { s with suppressNetwork := true } := by
  rcases ht with ht | ht
  · simp [onmessage, handleMessage_update cfg s msg ht hp, hb, ha]
  · simp [onmessage, handleMessage_sync cfg s msg ht hp, hb, ha]

/-- C5, the case of a payload that decodes but that the document rejects: the handler raises
nothing, but `suppressNetwork` has been set before `Y.applyUpdate` threw and is not reset, so
the session is left with `suppressNetwork` set and otherwise unchanged. -/
theorem rejected_payload_leaves_suppressNetwork_set (cfg : Config) (s : Session L) (msg : Msg)
    (bytes : List Nat) (ht : msg.type = .str "YJS_UPDATE" ∨ msg.type = .str "YJS_SYNC")
    (hp : msg.payloadB64.truthy = true) (hb : fromB64 msg.payloadB64 = some bytes)
    (ha : L.applyUpdate s.doc bytes = none) :
    onmessage cfg s (some msg) = { s with suppressNetwork := true } := by
  rcases ht with ht | ht
  · simp [onmessage, handleMessage_update cfg s msg ht hp, hb, ha]
  · simp [onmessage, handleMessage_sync cfg s msg ht hp, hb, ha]

theorem rejected_payload_leaves_suppressNetwork_set_witness :
    (demoRejectedMsg.type = .str "YJS_UPDATE" ∨ demoRejectedMsg.type = .str "YJS_SYNC") ∧
    demoRejectedMsg.payloadB64.truthy = true ∧
    fromB64 demoRejectedMsg.payloadB64 = some [0] ∧
    demoLib.applyUpdate demoSession.doc [0] = none ∧
    demoSession.suppressNetwork = false ∧
    (onmessage demoConfig demoSession (some demoRejectedMsg)).suppressNetwork = true :=
  ⟨Or.inl rfl, by decide, by decide, rfl, rfl,
    by rw [rejected_payload_leaves_suppressNetwork_set demoConfig demoSession demoRejectedMsg [0]
      (Or.inl rfl) (by decide) (by decide) rfl]⟩

/-- After the flag has been left set, a later local edit is not sent although the transport is
open. -/
theorem local_edit_not_sent_after_rejected_payload :
    (onDidChangeModelContent (onmessage demoConfig demoSession (some demoRejectedMsg))
      [⟨2, 0, "c".toList⟩]).sent = [] := by
  decide

/-! ## Snapshot reconciliation -/

/-- C6. After `ws.onmessage` has handled a `YJS_SYNC` message whose payload decodes and
applies, with the editor mounted, the synced flag is set, the status is `synced` and the
widget holds the text of the document, whatever it held before. -/
theorem snapshot_reconciles_widget (cfg : Config) (s : Session L) (msg : Msg)
    (bytes : List Nat) (r : L.Doc × TxnNotice) (w0 : List Char)
    (ht : msg.type = .str "YJS_SYNC") (hp : msg.payloadB64.truthy = true)
    (hb : fromB64 msg.payloadB64 = some bytes) (ha : L.applyUpdate s.doc bytes = some r)
    (hw : s.widget = some w0) :
    (onmessage cfg s (some msg)).synced = true ∧
    (onmessage cfg s (some msg)).status = "synced" ∧
    (onmessage cfg s (some msg)).doc = r.1 ∧
    (onmessage cfg s (some msg)).widget = some (L.toText (onmessage cfg s (some msg)).doc) := by
  obtain ⟨l, w, sl, h, _, h2⟩ := onmessage_sync_applied cfg s msg bytes r ht hp hb ha
  rw [h]
  exact ⟨rfl, rfl, rfl, h2 w0 hw⟩

theorem snapshot_reconciles_widget_witness :
    demoSyncMsg.type = .str "YJS_SYNC" ∧ demoSyncMsg.payloadB64.truthy = true ∧
    fromB64 demoSyncMsg.payloadB64 = some [1, 99] ∧
    demoLib.applyUpdate demoStaleSession.doc [1, 99] =
      some ("abc".toList, ⟨some [.retain 2, .insert "c".toList], some [1, 99]⟩) ∧
    demoStaleSession.widget = some "zzzz".toList ∧
    (onmessage demoConfig demoStaleSession (some demoSyncMsg)).synced = true ∧
    (onmessage demoConfig demoStaleSession (some demoSyncMsg)).status = "synced" ∧
    (onmessage demoConfig demoStaleSession (some demoSyncMsg)).doc = "abc".toList ∧
    (onmessage demoConfig demoStaleSession (some demoSyncMsg)).widget =
      some (demoLib.toText (onmessage demoConfig demoStaleSession (some demoSyncMsg)).doc) :=
  ⟨rfl, by decide, by decide, rfl, rfl,
    snapshot_reconciles_widget demoConfig demoStaleSession demoSyncMsg [1, 99]
      ("abc".toList, ⟨some [.retain 2, .insert "c".toList], some [1, 99]⟩) "zzzz".toList
      rfl (by decide) (by decide) rfl rfl⟩

/-! ## Partner chat: reconciliation of the authoritative echo -/

/-- The reducer when the message is an echo (sender is the local identity, `clientId` truthy)
and `i` is the first index whose entry has that `clientId`. -/
theorem partnerChatReducer_found (my : JsVal) (msg : Msg) (prev : List ChatEntry) (i : Nat)
    (e : ChatEntry) (hs : msg.senderId.strictEq my = true) (hc : msg.clientId.truthy = true)
    (hi : prev.findIdx? (fun entry => entry.clientId.strictEq msg.clientId) = some i)
    (he : prev[i]? = some e) :
    partnerChatReducer my msg prev = prev.set i (mergeEntry e (incomingEntry my msg)) := by
  unfold partnerChatReducer
  simp [hs, hc, hi, he]

/-- The reducer when no entry has the message's `clientId`, or the message is not an echo. -/
theorem partnerChatReducer_append (my : JsVal) (msg : Msg) (prev : List ChatEntry)
    (h : (msg.senderId.strictEq my && msg.clientId.truthy) = false ∨
      prev.findIdx? (fun entry => entry.clientId.strictEq msg.clientId) = none) :
    partnerChatReducer my msg prev = prev ++ [incomingEntry my msg] := by
  unfold partnerChatReducer
  rcases h with h | h
  · simp [h]
  · simp only [h]
    split <;> rfl

/-- C7, as the code behaves: when the echo of a pending entry is reconciled, the entry at
that place is marked delivered and keeps the `pending` flag of the entry it replaces; for a
pending entry the flag therefore stays set. -/
theorem echo_keeps_pending_flag (my : JsVal) (msg : Msg) (prev : List ChatEntry) (i : Nat)
    (e : ChatEntry) (hs : msg.senderId.strictEq my = true) (hc : msg.clientId.truthy = true)
    (hi : prev.findIdx? (fun entry => entry.clientId.strictEq msg.clientId) = some i)
    (he : prev[i]? = some e) (hp : e.pending = true) :
    ∃ e1, (partnerChatReducer my msg prev)[i]? = some e1 ∧ e1.delivered = true ∧
      e1.pending = true := by
  refine ⟨mergeEntry e (incomingEntry my msg), ?_, rfl, hp⟩
  rw [partnerChatReducer_found my msg prev i e hs hc hi he]
  have hlt : i < prev.length := by
    rcases Nat.lt_or_ge i prev.length with h | h
    · exact h
    · rw [List.getElem?_eq_none h] at he
      cases he
  exact List.getElem?_set_self hlt

theorem echo_keeps_pending_flag_witness :
    demoEchoMsg.senderId.strictEq (.str "u1") = true ∧ demoEchoMsg.clientId.truthy = true ∧
    demoPendingChat.findIdx? (fun entry => entry.clientId.strictEq demoEchoMsg.clientId)
      = some 0 ∧
    (∃ e, demoPendingChat[0]? = some e ∧ e.pending = true) ∧
    ∃ e1, (partnerChatReducer (.str "u1") demoEchoMsg demoPendingChat)[0]? = some e1 ∧
      e1.delivered = true ∧ e1.pending = true :=
  ⟨by decide, by decide, by decide, ⟨_, rfl, rfl⟩,
    echo_keeps_pending_flag (.str "u1") demoEchoMsg demoPendingChat 0 _ (by decide) (by decide)
      (by decide) rfl rfl⟩

/-- C8, amended: for an incoming `PARTNER_CHAT` whose sender is the local identity, the
identity not being `null`, and whose `clientId` is truthy and equals that of an entry of the
chat list, the reducer returns a list of the same length in which the first entry with that
`clientId` is replaced, at its index, by an entry carrying the payload's content, senderId and
sentAt, and every other index is unchanged. -/
theorem echo_replaces_first_match_in_place (my : JsVal) (msg : Msg) (prev : List ChatEntry)
    (_hid : my ≠ .null) (hs : msg.senderId.strictEq my = true)
    (hc : msg.clientId.truthy = true)
    (hex : ∃ e ∈ prev, e.clientId.strictEq msg.clientId = true) :
    ∃ (i : Nat) (e : ChatEntry), prev[i]? = some e ∧ e.clientId.strictEq msg.clientId = true ∧
      (∀ (j : Nat) (e2 : ChatEntry), j < i → prev[j]? = some e2 →
        e2.clientId.strictEq msg.clientId = false) ∧
      (partnerChatReducer my msg prev).length = prev.length ∧
      (∃ e1 : ChatEntry, (partnerChatReducer my msg prev)[i]? = some e1 ∧
        e1.content = msg.content ∧ e1.senderId = msg.senderId ∧ e1.sentAt = msg.sentAt) ∧
      ∀ j : Nat, j ≠ i → (partnerChatReducer my msg prev)[j]? = prev[j]? := by
  obtain ⟨x, hx, hpx⟩ := hex
  have hfind := List.findIdx?_eq_some_of_exists
    (p := fun entry : ChatEntry => entry.clientId.strictEq msg.clientId) ⟨x, hx, hpx⟩
  obtain ⟨hlt, hpi, hmin⟩ := List.findIdx?_eq_some_iff_getElem.mp hfind
  generalize List.findIdx (fun entry : ChatEntry => entry.clientId.strictEq msg.clientId) prev
    = i at hfind hlt hpi hmin
  have he : prev[i]? = some prev[i] := List.getElem?_eq_getElem hlt
  refine ⟨i, prev[i], he, hpi, ?_, ?_, ?_, ?_⟩
  · intro j e2 hj hj2
    have hjl : j < prev.length := Nat.lt_trans hj hlt
    rw [List.getElem?_eq_getElem hjl] at hj2
    cases hj2
    simpa using hmin j hj
  · rw [partnerChatReducer_found my msg prev i _ hs hc hfind he]
    exact List.length_set _ _ _
  · refine ⟨mergeEntry prev[i] (incomingEntry my msg), ?_, rfl, rfl, rfl⟩
    rw [partnerChatReducer_found my msg prev i _ hs hc hfind he]
    exact List.getElem?_set_self hlt
  · intro j hj
    rw [partnerChatReducer_found my msg prev i _ hs hc hfind he]
    exact List.getElem?_set_ne (Ne.symm hj)

theorem echo_replaces_first_match_in_place_witness :
    JsVal.str "u1" ≠ JsVal.null ∧
    demoEchoMsg.senderId.strictEq (.str "u1") = true ∧ demoEchoMsg.clientId.truthy = true ∧
    (∃ e ∈ demoPendingChat, e.clientId.strictEq demoEchoMsg.clientId = true) ∧
    ∃ (i : Nat) (e : ChatEntry), demoPendingChat[i]? = some e ∧
      e.clientId.strictEq demoEchoMsg.clientId = true ∧
      (∀ (j : Nat) (e2 : ChatEntry), j < i → demoPendingChat[j]? = some e2 →
        e2.clientId.strictEq demoEchoMsg.clientId = false) ∧
      (partnerChatReducer (.str "u1") demoEchoMsg demoPendingChat).length
        = demoPendingChat.length ∧
      (∃ e1 : ChatEntry,
        (partnerChatReducer (.str "u1") demoEchoMsg demoPendingChat)[i]? = some e1 ∧
        e1.content = demoEchoMsg.content ∧ e1.senderId = demoEchoMsg.senderId ∧
        e1.sentAt = demoEchoMsg.sentAt) ∧
      ∀ j : Nat, j ≠ i →
        (partnerChatReducer (.str "u1") demoEchoMsg demoPendingChat)[j]? = demoPendingChat[j]? :=
  ⟨by decide, by decide, by decide, by decide,
    echo_replaces_first_match_in_place (.str "u1") demoEchoMsg demoPendingChat (by decide)
      (by decide) (by decide) (by decide)⟩

/-- C8 as stated fails for a `clientId` that is not truthy: a message of the local identity
whose `clientId` is the empty string, equal to the `clientId` of an entry of the list, is
appended, so the list grows by one. -/
theorem echo_with_empty_clientId_is_appended :
    demoEmptyIdMsg.senderId.strictEq (.str "u1") = true ∧ JsVal.str "u1" ≠ JsVal.null ∧
    (∃ e ∈ demoEmptyIdChat, e.clientId.strictEq demoEmptyIdMsg.clientId = true) ∧
    (partnerChatReducer (.str "u1") demoEmptyIdMsg demoEmptyIdChat).length
      = demoEmptyIdChat.length + 1 ∧
    (partnerChatReducer (.str "u1") demoEmptyIdMsg demoEmptyIdChat).length
      ≠ demoEmptyIdChat.length := by
  decide

/-! ## Partner chat: degraded identity mode -/

/-- Handling of a `PARTNER_CHAT` message, spelled out. -/
theorem handleMessage_partnerChat (cfg : Config) (s : Session L) (msg : Msg)
    (ht : msg.type = .str "PARTNER_CHAT") :
    handleMessage cfg s msg = .ok (onPartnerChat cfg s msg) := by
  unfold handleMessage
  have h1 : (JsVal.str "PARTNER_CHAT").truthy = true := by decide
  have h2 : (JsVal.str "PARTNER_CHAT").strictEq (.str "YJS_UPDATE") = false := by decide
  have h3 : (JsVal.str "PARTNER_CHAT").strictEq (.str "YJS_SYNC") = false := by decide
  have h4 : (JsVal.str "PARTNER_CHAT").strictEq (.str "ERROR") = false := by decide
  have h5 : (JsVal.str "PARTNER_CHAT").strictEq (.str "LEFT") = false := by decide
  have h6 : (JsVal.str "PARTNER_CHAT").strictEq (.str "PARTNER_CHAT") = true := by decide
  simp only [ht, h1, h2, h3, h4, h5, h6, Bool.not_true, Bool.false_and, if_true, if_false,
    Bool.false_eq_true]

/-- A `PARTNER_CHAT` message is handled by the partner-chat branch. -/
theorem onmessage_partnerChat (cfg : Config) (s : Session L) (msg : Msg)
    (ht : msg.type = .str "PARTNER_CHAT") :
    onmessage cfg s (some msg) = onPartnerChat cfg s msg := by
  simp only [onmessage, handleMessage_partnerChat cfg s msg ht]

/-- The chat list after a `PARTNER_CHAT` message is the reducer applied to the list before. -/
theorem onmessage_partnerChat_chat (cfg : Config) (s : Session L) (msg : Msg)
    (ht : msg.type = .str "PARTNER_CHAT") :
    (onmessage cfg s (some msg)).chat = partnerChatReducer cfg.myUserId msg s.chat := by
  rw [onmessage_partnerChat cfg s msg ht]
  unfold onPartnerChat
  cases hs : msg.senderId.strictEq cfg.myUserId with
  | true => simp
  | false =>
    cases hr : s.noticeTimerRef with
    | none => simp [hr]
    | some t => simp [hr]

/-- In degraded identity mode a message whose `senderId` is not `null` (absent included) is
treated as peer-authored: it is appended with role partner and raises the notice. -/
theorem degraded_identity_other_sender (cfg : Config) (s : Session L) (msg : Msg)
    (hid : cfg.myUserId = .null) (ht : msg.type = .str "PARTNER_CHAT")
    (hs : msg.senderId ≠ .null) :
    (onmessage cfg s (some msg)).chat = s.chat ++
      [{ role := Role.partner, content := msg.content, senderId := msg.senderId,
         sentAt := msg.sentAt, clientId := msg.clientId }] ∧
    (onmessage cfg s (some msg)).partnerNotice
      = some { content := msg.content, sentAt := msg.sentAt } := by
  have hne : msg.senderId.strictEq cfg.myUserId = false := by
    rw [hid]
    cases h : msg.senderId <;> first | rfl | exact absurd h hs
  constructor
  · rw [onmessage_partnerChat_chat cfg s msg ht,
      partnerChatReducer_append _ _ _ (Or.inl (by simp [hne]))]
    simp [incomingEntry, hne]
  · rw [onmessage_partnerChat cfg s msg ht]
    unfold onPartnerChat
    cases hr : s.noticeTimerRef with
    | none => simp [hne, hr]
    | some t => simp [hne, hr]

/-- C10, the case of a `null` sender: in degraded identity mode (local identity `null`) a
`PARTNER_CHAT` message whose `senderId` is JSON `null` compares equal to the identity, so it
gets the self role, raises no notice, and with a truthy `clientId` found in the list it
replaces that entry instead of being appended. -/
theorem null_sender_taken_for_self (cfg : Config) (s : Session L) (msg : Msg)
    (hid : cfg.myUserId = .null) (ht : msg.type = .str "PARTNER_CHAT")
    (hs : msg.senderId = .null) :
    (incomingEntry cfg.myUserId msg).role = Role.partnerSelf ∧
    (onmessage cfg s (some msg)).partnerNotice = s.partnerNotice ∧
    ∀ (i : Nat) (e : ChatEntry), msg.clientId.truthy = true →
      s.chat.findIdx? (fun entry => entry.clientId.strictEq msg.clientId) = some i →
      s.chat[i]? = some e →
      (onmessage cfg s (some msg)).chat
        = s.chat.set i (mergeEntry e (incomingEntry cfg.myUserId msg)) := by
  have heq : msg.senderId.strictEq cfg.myUserId = true := by rw [hid, hs]; rfl
  refine ⟨by simp [incomingEntry, heq], ?_, ?_⟩
  · rw [onmessage_partnerChat cfg s msg ht]
    simp [onPartnerChat, heq]
  · intro i e hc hi he
    rw [onmessage_partnerChat_chat cfg s msg ht]
    exact partnerChatReducer_found _ msg s.chat i e heq hc hi he

theorem null_sender_taken_for_self_witness :
    demoNullConfig.myUserId = .null ∧ demoNullSenderMsg.type = .str "PARTNER_CHAT" ∧
    demoNullSenderMsg.senderId = .null ∧
    (incomingEntry demoNullConfig.myUserId demoNullSenderMsg).role = Role.partnerSelf ∧
    (onmessage demoNullConfig demoNullSession (some demoNullSenderMsg)).partnerNotice
      = demoNullSession.partnerNotice ∧
    ∀ (i : Nat) (e : ChatEntry), demoNullSenderMsg.clientId.truthy = true →
      demoNullSession.chat.findIdx?
        (fun entry => entry.clientId.strictEq demoNullSenderMsg.clientId) = some i →
      demoNullSession.chat[i]? = some e →
      (onmessage demoNullConfig demoNullSession (some demoNullSenderMsg)).chat
        = demoNullSession.chat.set i
            (mergeEntry e (incomingEntry demoNullConfig.myUserId demoNullSenderMsg)) :=
  ⟨rfl, rfl, rfl,
    null_sender_taken_for_self demoNullConfig demoNullSession demoNullSenderMsg rfl rfl rfl⟩

/-- In degraded identity mode, on the demo session: the pending local entry is overwritten by the
message with the `null` sender, nothing is appended and no notice is raised. -/
theorem null_sender_overwrites_pending_entry :
    (onmessage demoNullConfig demoNullSession (some demoNullSenderMsg)).chat =
      [{ role := Role.partnerSelf, content := .str "from the peer", senderId := .null,
         sentAt := .str "2025-01-01T00:00:02.000Z", clientId := .str "local-1700-k3x9qa",
         pending := true, delivered := true }] ∧
    (onmessage demoNullConfig demoNullSession (some demoNullSenderMsg)).partnerNotice = none := by
  decide

/-! ## Partner chat: correlation dedup -/

theorem strictEq_str_iff (a : JsVal) (c : String) :
    a.strictEq (.str c) = true ↔ a = .str c := by
  cases a <;> simp [JsVal.strictEq]

theorem newClientId_ne_empty (now : Nat) (rnd : String) : newClientId now rnd ≠ "" := by
  intro h
  have hl := congrArg String.length h
  simp only [newClientId, String.length_append] at hl
  have h6 : "local-".length = 6 := by decide
  have h0 : "".length = 0 := by decide
  omega

/-- The reducer on a non-empty list, for an echo with a string `clientId`. -/
theorem partnerChatReducer_cons (my : JsVal) (m : Msg) (c : String) (e : ChatEntry)
    (rest : List ChatEntry) (hs : m.senderId.strictEq my = true) (hc : m.clientId = .str c)
    (hne : c ≠ "") :
    partnerChatReducer my m (e :: rest) =
      if e.clientId = m.clientId then mergeEntry e (incomingEntry my m) :: rest
      else e :: partnerChatReducer my m rest := by
  have ht : m.clientId.truthy = true := by simp [hc, JsVal.truthy, hne]
  by_cases he : e.clientId = m.clientId
  · have hp : e.clientId.strictEq m.clientId = true := by
      rw [hc]; exact (strictEq_str_iff _ _).mpr (he.trans hc)
    rw [if_pos he]
    rw [partnerChatReducer_found my m (e :: rest) 0 e hs ht (by simp [hp]) (by simp)]
    rfl
  · have hp : e.clientId.strictEq m.clientId = false := by
      cases h : e.clientId.strictEq m.clientId with
      | false => rfl
      | true =>
        rw [hc] at h
        exact absurd (((strictEq_str_iff _ _).mp h).trans hc.symm) he
    rw [if_neg he]
    cases hf : rest.findIdx? (fun entry => entry.clientId.strictEq m.clientId) with
    | none =>
      rw [partnerChatReducer_append my m rest (Or.inr hf),
        partnerChatReducer_append my m (e :: rest) (Or.inr (by simp [hp, hf]))]
      rfl
    | some i =>
      obtain ⟨hlt, _, _⟩ := List.findIdx?_eq_some_iff_getElem.mp hf
      have hr : rest[i]? = some rest[i] := List.getElem?_eq_getElem hlt
      rw [partnerChatReducer_found my m rest i _ hs ht hf hr,
        partnerChatReducer_found my m (e :: rest) (i + 1) rest[i] hs ht
          (by simp [hp, hf]) (by simp [hr])]
      rfl

/-- With pairwise distinct `clientId`s, replacing the first entry that carries the echoed id is
the same as treating every entry with `applyEcho`. -/
theorem partnerChatReducer_eq_map (my : JsVal) (m : Msg) (c : String)
    (hs : m.senderId.strictEq my = true) (hc : m.clientId = .str c) (hne : c ≠ "") :
    ∀ entries : List ChatEntry, (entries.map (fun e => e.clientId)).Nodup →
      m.clientId ∈ entries.map (fun e => e.clientId) →
      partnerChatReducer my m entries = entries.map (applyEcho my m)
  | [], _, hmem => by simp at hmem
  | e :: rest, hnd, hmem => by
    rw [partnerChatReducer_cons my m c e rest hs hc hne]
    simp only [List.map_cons, List.nodup_cons] at hnd
    by_cases he : e.clientId = m.clientId
    · rw [if_pos he]
      have hrest : rest.map (applyEcho my m) = rest := by
        conv_rhs => rw [← List.map_id rest]
        refine List.map_congr_left (fun x hx => ?_)
        have : x.clientId ≠ m.clientId := fun hx2 =>
          hnd.1 (he ▸ hx2 ▸ List.mem_map_of_mem (fun e => e.clientId) hx)
        simp [applyEcho, this]
      simp [applyEcho, he, hrest]
    · rw [if_neg he]
      have hmem2 : m.clientId ∈ rest.map (fun e => e.clientId) := by
        simp only [List.map_cons, List.mem_cons] at hmem
        rcases hmem with h | h
        · exact absurd h.symm he
        · exact h
      rw [partnerChatReducer_eq_map my m c hs hc hne rest hnd.2 hmem2]
      simp [applyEcho, he]

/-- Entries in front of the list that do not carry the echoed id are passed over. -/
theorem partnerChatReducer_skip (my : JsVal) (m : Msg) (c : String)
    (hs : m.senderId.strictEq my = true) (hc : m.clientId = .str c) (hne : c ≠ "")
    (entries : List ChatEntry) :
    ∀ init : List ChatEntry, (∀ e ∈ init, e.clientId ≠ m.clientId) →
      partnerChatReducer my m (init ++ entries) = init ++ partnerChatReducer my m entries
  | [], _ => rfl
  | e :: init, h => by
    have he : e.clientId ≠ m.clientId := h e (List.mem_cons_self _ _)
    rw [List.cons_append, partnerChatReducer_cons my m c e _ hs hc hne, if_neg he,
      partnerChatReducer_skip my m c hs hc hne entries init
        (fun x hx => h x (List.mem_cons_of_mem _ hx))]
    rfl

theorem applyEcho_clientId (my : JsVal) (m : Msg) (e : ChatEntry) :
    (applyEcho my m e).clientId = e.clientId := by
  unfold applyEcho
  split
  · next h => exact h.symm
  · rfl

theorem applyEcho_role (my : JsVal) (m : Msg) (e : ChatEntry)
    (hs : m.senderId.strictEq my = true) (hr : e.role = Role.partnerSelf) :
    (applyEcho my m e).role = Role.partnerSelf := by
  unfold applyEcho
  split
  · simp [mergeEntry, incomingEntry, hs]
  · exact hr

theorem applyEcho_delivered (my : JsVal) (m : Msg) (e : ChatEntry)
    (h : e.delivered = true ∨ e.clientId = m.clientId) :
    (applyEcho my m e).delivered = true := by
  unfold applyEcho
  split
  · rfl
  · next hne =>
    rcases h with h | h
    · exact h
    · exact absurd h hne

/-- One entry after a list of echoes: its `clientId` is kept, the self role is kept, and it is
delivered as soon as one of the echoes carries its `clientId`. -/
theorem foldl_applyEcho (my : JsVal) :
    ∀ (es : List Msg) (e : ChatEntry), (∀ m ∈ es, m.senderId.strictEq my = true) →
      (es.foldl (fun e m => applyEcho my m e) e).clientId = e.clientId ∧
      (e.role = Role.partnerSelf →
        (es.foldl (fun e m => applyEcho my m e) e).role = Role.partnerSelf) ∧
      ((e.delivered = true ∨ ∃ m ∈ es, e.clientId = m.clientId) →
        (es.foldl (fun e m => applyEcho my m e) e).delivered = true)
  | [], e, _ => ⟨rfl, fun h => h, fun h => by
      rcases h with h | ⟨m, hm, _⟩
      · exact h
      · cases hm⟩
  | m :: es, e, hs => by
    have hm := hs m (List.mem_cons_self _ _)
    obtain ⟨h1, h2, h3⟩ := foldl_applyEcho my es (applyEcho my m e)
      (fun x hx => hs x (List.mem_cons_of_mem _ hx))
    simp only [List.foldl_cons]
    refine ⟨h1.trans (applyEcho_clientId my m e), fun hr => h2 (applyEcho_role my m e hm hr),
      fun hd => h3 ?_⟩
    rcases hd with hd | ⟨x, hx, hxe⟩
    · exact Or.inl (applyEcho_delivered my m e (Or.inl hd))
    · rcases List.mem_cons.mp hx with rfl | hx
      · exact Or.inl (applyEcho_delivered my x e (Or.inr hxe))
      · exact Or.inr ⟨x, hx, (applyEcho_clientId my m e).trans hxe⟩

/-- The chat list after a run of echoes: the entries in front, which carry none of the echoed
ids, are untouched, and each of the other entries is treated on its own. -/
theorem foldl_partnerChatReducer (my : JsVal) (init : List ChatEntry) :
    ∀ (es : List Msg) (entries : List ChatEntry),
      (∀ m ∈ es, m.senderId.strictEq my = true ∧
        (∃ c, c ≠ "" ∧ m.clientId = JsVal.str c) ∧
        m.clientId ∈ entries.map (fun e => e.clientId)) →
      (entries.map (fun e => e.clientId)).Nodup →
      (∀ e ∈ init, ∀ m ∈ es, e.clientId ≠ m.clientId) →
      es.foldl (fun chat m => partnerChatReducer my m chat) (init ++ entries)
        = init ++ entries.map (fun e => es.foldl (fun e m => applyEcho my m e) e)
  | [], entries, _, _, _ => by simp
  | m :: es, entries, hes, hnd, hinit => by
    obtain ⟨hs, ⟨c, hne, hc⟩, hmem⟩ := hes m (List.mem_cons_self _ _)
    have hmap : (entries.map (applyEcho my m)).map (fun e => e.clientId)
        = entries.map (fun e => e.clientId) := by
      rw [List.map_map]
      exact List.map_congr_left (fun x _ => applyEcho_clientId my m x)
    simp only [List.foldl_cons]
    rw [partnerChatReducer_skip my m c hs hc hne entries init
        (fun e he => hinit e he m (List.mem_cons_self _ _)),
      partnerChatReducer_eq_map my m c hs hc hne entries hnd hmem,
      foldl_partnerChatReducer my init es (entries.map (applyEcho my m))
        (fun x hx => by
          obtain ⟨h1, h2, h3⟩ := hes x (List.mem_cons_of_mem _ hx)
          exact ⟨h1, h2, hmap ▸ h3⟩)
        (hmap ▸ hnd)
        (fun e he x hx => hinit e he x (List.mem_cons_of_mem _ hx)),
      List.map_map]
    rfl

theorem sendPartnerMessage_open (cfg : Config) (s : Session L) (content : String) (now : Nat)
    (rnd iso : String) (hopen : s.wsOpen = true) :
    (sendPartnerMessage cfg s content now rnd iso).wsOpen = true ∧
    (sendPartnerMessage cfg s content now rnd iso).chat
      = s.chat ++ [pendingMessage cfg content now rnd iso] := by
  simp [sendPartnerMessage, hopen]

theorem sendAll_chat (cfg : Config) :
    ∀ (inputs : List PartnerSend) (s : Session L), s.wsOpen = true →
      (sendAll cfg s inputs).chat
        = s.chat ++ inputs.map (fun i => pendingMessage cfg i.content i.now i.rnd i.iso)
  | [], s, _ => by simp [sendAll]
  | i :: inputs, s, hopen => by
    obtain ⟨h1, h2⟩ := sendPartnerMessage_open cfg s i.content i.now i.rnd i.iso hopen
    have ih := sendAll_chat cfg inputs (sendPartnerMessage cfg s i.content i.now i.rnd i.iso) h1
    simp only [sendAll, List.foldl_cons] at ih ⊢
    rw [ih, h2]
    simp

theorem receiveAll_chat (cfg : Config) :
    ∀ (msgs : List Msg) (s : Session L), (∀ m ∈ msgs, m.type = .str "PARTNER_CHAT") →
      (receiveAll cfg s msgs).chat
        = msgs.foldl (fun chat m => partnerChatReducer cfg.myUserId m chat) s.chat
  | [], s, _ => rfl
  | m :: msgs, s, h => by
    have ih := receiveAll_chat cfg msgs (onmessage cfg s (some m))
      (fun x hx => h x (List.mem_cons_of_mem _ hx))
    simp only [receiveAll, List.foldl_cons] at ih ⊢
    rw [ih, onmessage_partnerChat_chat cfg s m (h m (List.mem_cons_self _ _))]

/-- C9. Sending N partner messages with pairwise distinct correlation ids on an open
transport, and then receiving their N echoes (sender the local identity, same `clientId`) in
any order, leaves the chat list equal to the list before followed by exactly N entries, one
per correlation id in sending order, each with the self-partner role and delivered. -/
theorem correlation_dedup (cfg : Config) (s : Session L) (inputs : List PartnerSend)
    (echoes : List Msg) (hopen : s.wsOpen = true)
    (hnodup : (inputs.map PartnerSend.clientId).Nodup)
    (hfresh : ∀ e ∈ s.chat, ∀ i ∈ inputs, e.clientId ≠ JsVal.str i.clientId)
    (hecho : ∀ m ∈ echoes,
      m.type = .str "PARTNER_CHAT" ∧ m.senderId.strictEq cfg.myUserId = true)
    (hperm : (echoes.map (fun m => m.clientId)).Perm
      (inputs.map (fun i => JsVal.str i.clientId))) :
    ∃ entries : List ChatEntry,
      (receiveAll cfg (sendAll cfg s inputs) echoes).chat = s.chat ++ entries ∧
      entries.length = inputs.length ∧
      entries.map (fun e => e.clientId) = inputs.map (fun i => JsVal.str i.clientId) ∧
      ∀ e ∈ entries, e.role = Role.partnerSelf ∧ e.delivered = true := by
  let pend := inputs.map (fun i => pendingMessage cfg i.content i.now i.rnd i.iso)
  have hids : pend.map (fun e => e.clientId) = inputs.map (fun i => JsVal.str i.clientId) := by
    simp only [pend, List.map_map]
    exact List.map_congr_left (fun i _ => rfl)
  have hnd : (pend.map (fun e => e.clientId)).Nodup := by
    rw [hids]
    have : inputs.map (fun i => JsVal.str i.clientId)
        = (inputs.map PartnerSend.clientId).map JsVal.str := by
      rw [List.map_map]; rfl
    rw [this]
    exact hnodup.map (fun a b h => by injection h)
  have hmemE : ∀ m ∈ echoes, m.clientId ∈ inputs.map (fun i => JsVal.str i.clientId) :=
    fun m hm => hperm.subset (List.mem_map_of_mem (fun m => m.clientId) hm)
  have hes : ∀ m ∈ echoes, m.senderId.strictEq cfg.myUserId = true ∧
      (∃ c, c ≠ "" ∧ m.clientId = JsVal.str c) ∧ m.clientId ∈ pend.map (fun e => e.clientId) := by
    intro m hm
    have h := hmemE m hm
    refine ⟨(hecho m hm).2, ?_, hids ▸ h⟩
    obtain ⟨i, _, hi⟩ := List.mem_map.mp h
    exact ⟨i.clientId, newClientId_ne_empty _ _, hi.symm⟩
  have hinit : ∀ e ∈ s.chat, ∀ m ∈ echoes, e.clientId ≠ m.clientId := by
    intro e he m hm
    obtain ⟨i, hi, hie⟩ := List.mem_map.mp (hmemE m hm)
    rw [← hie]
    exact hfresh e he i hi
  refine ⟨pend.map (fun e => echoes.foldl (fun e m => applyEcho cfg.myUserId m e) e), ?_, ?_,
    ?_, ?_⟩
  · rw [receiveAll_chat cfg echoes _ (fun m hm => (hecho m hm).1), sendAll_chat cfg inputs s hopen]
    exact foldl_partnerChatReducer cfg.myUserId s.chat echoes pend hes hnd hinit
  · simp [pend]
  · rw [List.map_map, ← hids]
    exact List.map_congr_left (fun e _ =>
      (foldl_applyEcho cfg.myUserId echoes e (fun m hm => (hecho m hm).2)).1)
  · intro e1 he1
    obtain ⟨e, he, rfl⟩ := List.mem_map.mp he1
    obtain ⟨_, h2, h3⟩ := foldl_applyEcho cfg.myUserId echoes e (fun m hm => (hecho m hm).2)
    have hrole : e.role = Role.partnerSelf := by
      obtain ⟨i, _, rfl⟩ := List.mem_map.mp he
      rfl
    refine ⟨h2 hrole, h3 (Or.inr ?_)⟩
    have hin : e.clientId ∈ echoes.map (fun m => m.clientId) := by
      refine hperm.symm.subset ?_
      rw [← hids]
      exact List.mem_map_of_mem (fun e => e.clientId) he
    obtain ⟨m, hm, hme⟩ := List.mem_map.mp hin
    exact ⟨m, hm, hme.symm⟩

theorem correlation_dedup_witness :
    demoSession.wsOpen = true ∧ (demoSends.map PartnerSend.clientId).Nodup ∧
    (∀ e ∈ demoSession.chat, ∀ i ∈ demoSends, e.clientId ≠ JsVal.str i.clientId) ∧
    (∀ m ∈ demoEchoes,
      m.type = .str "PARTNER_CHAT" ∧ m.senderId.strictEq demoConfig.myUserId = true) ∧
    (demoEchoes.map (fun m => m.clientId)).Perm
      (demoSends.map (fun i => JsVal.str i.clientId)) ∧
    ∃ entries : List ChatEntry,
      (receiveAll demoConfig (sendAll demoConfig demoSession demoSends) demoEchoes).chat
        = demoSession.chat ++ entries ∧
      entries.length = demoSends.length ∧
      entries.map (fun e => e.clientId) = demoSends.map (fun i => JsVal.str i.clientId) ∧
      ∀ e ∈ entries, e.role = Role.partnerSelf ∧ e.delivered = true :=
  ⟨rfl, by decide, by decide, by decide, by decide,
    correlation_dedup demoConfig demoSession demoSends demoEchoes rfl (by decide) (by decide)
      (by decide) (by decide)⟩

/-! ## Widget to document translation -/

/-- C2, as the code behaves: for the batch of the offset rebasing example the transaction
deletes 3 characters at offset 5 and then inserts `xy` at offset 2, because the shift of -3
left by the deletion is added to the offset 5 of the insertion; it does not insert at
offset 5. -/
theorem rebasing_example_inserts_at_offset_two :
    transactionOps rebasingBatch = [YOp.delete 5 3, YOp.insert 2 "xy".toList] ∧
    transactionOps rebasingBatch ≠ [YOp.delete 5 3, YOp.insert 5 "xy".toList] := by
  decide

/-- A single change that deletes 3 characters at offset 5 and puts `xy` there does delete at
offset 5 and insert at offset 5. -/
theorem single_change_deletes_and_inserts_at_offset :
    transactionOps [⟨5, 3, "xy".toList⟩] = [YOp.delete 5 3, YOp.insert 5 "xy".toList] := by
  decide

/-- With the two operations of the example in the other order the insertion lands at offset 5,
and the deletion is issued at offset 7. -/
theorem rebasing_example_other_order :
    transactionOps [⟨5, 0, "xy".toList⟩, ⟨5, 3, []⟩]
      = [YOp.insert 5 "xy".toList, YOp.delete 7 3] := by
  decide

/-- C1, at a batch whose ranges lie inside the text and do not overlap (the batch of the
offset rebasing example on the text `0123456789`): the shared text becomes `01xy23489`, while
the text with both ranges replaced at once is `01234xy89`. -/
theorem touching_batch_diverges :
    RangesInside "0123456789".toList rebasingBatch ∧ PairwiseDisjoint rebasingBatch ∧
    applyLocalChanges "0123456789".toList rebasingBatch = "01xy23489".toList ∧
    simultaneousReplace "0123456789".toList rebasingBatch = "01234xy89".toList ∧
    applyLocalChanges "0123456789".toList rebasingBatch
      ≠ simultaneousReplace "0123456789".toList rebasingBatch := by
  decide

/-! ### Batches whose ranges follow each other -/

theorem applyYOps_append (t : List Char) (a b : List YOp) :
    applyYOps t (a ++ b) = applyYOps (applyYOps t a) b := by
  simp [applyYOps, List.foldl_append]

/-- One round of the loop on a change whose range lies in the current text: the range is
replaced by the inserted text. -/
theorem applyYOps_round (t : List Char) (o len : Nat) (txt : List Char) (rest : List YOp)
    (ho : o + len ≤ t.length) :
    applyYOps t ((if len > 0 then [YOp.delete (o : Int) len] else []) ++
        (if txt.length > 0 then [YOp.insert (o : Int) txt] else []) ++ rest)
      = applyYOps (t.take o ++ txt ++ t.drop (o + len)) rest := by
  have hlen : (t.take o).length = o := by simp; omega
  have h1 : (t.take o ++ t.drop (o + len)).take o = t.take o := by
    rw [List.take_append_of_le_length (by omega), List.take_take]; simp
  have h2 : (t.take o ++ t.drop (o + len)).drop o = t.drop (o + len) := List.drop_left' hlen
  rw [applyYOps_append, applyYOps_append]
  congr 1
  by_cases hl : len > 0
  · by_cases hx : txt.length > 0
    · simp [hl, hx, applyYOps, applyYOp, h1, h2]
    · have : txt = [] := List.length_eq_zero.mp (by omega)
      simp [hl, this, applyYOps, applyYOp]
  · have hl0 : len = 0 := by omega
    by_cases hx : txt.length > 0
    · simp [hl0, hx, applyYOps, applyYOp]
    · have : txt = [] := List.length_eq_zero.mp (by omega)
      simp [hl0, this, applyYOps, applyYOp]

/-- The loop on a list in ascending order whose ranges follow each other, started on the text
`P ++ D.drop pos` with the shift `P.length - pos`: what is left of `D` is rewritten range by
range. -/
theorem loopOps_consecutive (D : List Char) :
    ∀ (cs : List Change) (P : List Char) (pos : Nat), Consecutive pos cs →
      (∀ c ∈ cs, c.rangeOffset + c.rangeLength ≤ D.length) →
      applyYOps (P ++ D.drop pos) (loopOps ((P.length : Int) - (pos : Int)) cs)
        = P ++ replaceRanges D pos cs
  | [], P, pos, _, _ => by simp [loopOps, applyYOps, replaceRanges]
  | c :: cs, P, pos, hcons, hin => by
    obtain ⟨hpos, htail⟩ := hcons
    have hc := hin c (List.mem_cons_self _ _)
    have hoff : (c.rangeOffset : Int) + ((P.length : Int) - (pos : Int))
        = ((P.length + (c.rangeOffset - pos) : Nat) : Int) := by omega
    have hk : ((D.drop pos).take (c.rangeOffset - pos)).length = c.rangeOffset - pos := by
      simp; omega
    have hshift :
        (if c.text.length > 0 then
          (if c.rangeLength > 0 then (P.length : Int) - (pos : Int) - (c.rangeLength : Int)
            else (P.length : Int) - (pos : Int)) + (c.text.length : Int)
         else
          (if c.rangeLength > 0 then (P.length : Int) - (pos : Int) - (c.rangeLength : Int)
            else (P.length : Int) - (pos : Int)))
        = (((P ++ (D.drop pos).take (c.rangeOffset - pos) ++ c.text).length : Nat) : Int)
            - ((c.rangeOffset + c.rangeLength : Nat) : Int) := by
      simp only [List.length_append, hk]
      split_ifs <;> omega
    have ih := loopOps_consecutive D cs (P ++ (D.drop pos).take (c.rangeOffset - pos) ++ c.text)
      (c.rangeOffset + c.rangeLength) htail (fun x hx => hin x (List.mem_cons_of_mem _ hx))
    simp only [loopOps]
    rw [hoff, hshift, applyYOps_round _ _ _ _ _ (by simp; omega), List.take_append,
      List.drop_append_eq_append_drop]
    have hd : List.drop (P.length + (c.rangeOffset - pos) + c.rangeLength - P.length)
        (List.drop pos D) = D.drop (c.rangeOffset + c.rangeLength) := by
      rw [List.drop_drop]; congr 1; omega
    have hp : List.drop (P.length + (c.rangeOffset - pos) + c.rangeLength) P = [] :=
      List.drop_eq_nil_of_le (by omega)
    rw [hd, hp, List.nil_append, ih]
    simp [replaceRanges, List.append_assoc]

theorem insertedAt_cons (c : Change) (cs : List Change) (i : Nat) :
    insertedAt (c :: cs) i = (if c.rangeOffset = i then c.text else []) ++ insertedAt cs i := by
  unfold insertedAt
  by_cases h : c.rangeOffset = i <;> simp [List.filter_cons, h]

theorem covered_cons (c : Change) (cs : List Change) (i : Nat) :
    covered (c :: cs) i =
      ((decide (c.rangeOffset ≤ i) && decide (i < c.rangeOffset + c.rangeLength)) ||
        covered cs i) := by
  simp [covered]

theorem insertedAt_orderedInsert (a : Change) (i : Nat) :
    ∀ l : List Change,
      insertedAt (l.orderedInsert (fun a b => a.rangeOffset ≤ b.rangeOffset) a) i
        = insertedAt (a :: l) i
  | [] => rfl
  | b :: l => by
    simp only [List.orderedInsert]
    split
    · rfl
    · next h =>
      rw [insertedAt_cons, insertedAt_orderedInsert a i l, insertedAt_cons, insertedAt_cons,
        insertedAt_cons]
      by_cases ha : a.rangeOffset = i
      · have hb : ¬ b.rangeOffset = i := by omega
        simp [ha, hb]
      · simp [ha]

theorem covered_orderedInsert (a : Change) (i : Nat) :
    ∀ l : List Change,
      covered (l.orderedInsert (fun a b => a.rangeOffset ≤ b.rangeOffset) a) i
        = covered (a :: l) i
  | [] => rfl
  | b :: l => by
    simp only [List.orderedInsert]
    split
    · rfl
    · rw [covered_cons, covered_orderedInsert a i l, covered_cons, covered_cons, covered_cons]
      simp only [← Bool.or_assoc]
      congr 1
      exact Bool.or_comm _ _

/-- The stable sort keeps, at every offset, the inserted texts in batch order. -/
theorem insertedAt_sortChanges (i : Nat) :
    ∀ cs : List Change, insertedAt (sortChanges cs) i = insertedAt cs i
  | [] => rfl
  | c :: cs => by
    have ih := insertedAt_sortChanges i cs
    unfold sortChanges at ih ⊢
    rw [List.insertionSort, insertedAt_orderedInsert, insertedAt_cons, ih, insertedAt_cons]

theorem covered_sortChanges (i : Nat) :
    ∀ cs : List Change, covered (sortChanges cs) i = covered cs i
  | [] => rfl
  | c :: cs => by
    have ih := covered_sortChanges i cs
    unfold sortChanges at ih ⊢
    rw [List.insertionSort, covered_orderedInsert, covered_cons, ih, covered_cons]

theorem replaceFrom_congr (a b : List Change) (h1 : ∀ i, insertedAt a i = insertedAt b i)
    (h2 : ∀ i, covered a i = covered b i) :
    ∀ (T : List Char) (i : Nat), replaceFrom a i T = replaceFrom b i T
  | [], i => h1 i
  | ch :: rest, i => by
    simp only [replaceFrom, h1 i, h2 i, replaceFrom_congr a b h1 h2 rest (i + 1)]

theorem simultaneousReplace_sortChanges (D : List Char) (cs : List Change) :
    simultaneousReplace D (sortChanges cs) = simultaneousReplace D cs :=
  replaceFrom_congr _ _ (fun i => insertedAt_sortChanges i cs)
    (fun i => covered_sortChanges i cs) D 0

theorem consecutive_le :
    ∀ (cs : List Change) (p : Nat), Consecutive p cs → ∀ c ∈ cs, p ≤ c.rangeOffset
  | [], _, _, _, hc => by cases hc
  | d :: cs, p, h, c, hc => by
    obtain ⟨h1, h2⟩ := h
    rcases List.mem_cons.mp hc with rfl | hc
    · exact h1
    · have := consecutive_le cs _ h2 c hc
      omega

theorem insertedAt_eq_nil (cs : List Change) (x : Nat) (h : ∀ c ∈ cs, c.rangeOffset ≠ x) :
    insertedAt cs x = [] := by
  unfold insertedAt
  have : cs.filter (fun c => decide (c.rangeOffset = x)) = [] :=
    List.filter_eq_nil_iff.mpr (fun c hc => by simpa using h c hc)
  rw [this]
  rfl

theorem covered_eq_false (cs : List Change) (x : Nat) (h : ∀ c ∈ cs, x < c.rangeOffset) :
    covered cs x = false := by
  unfold covered
  rw [List.any_eq_false]
  intro c hc
  have := h c hc
  simp
  omega

theorem replaceFrom_nil : ∀ (T : List Char) (i : Nat), replaceFrom [] i T = T
  | [], _ => rfl
  | ch :: rest, i => by
    simp [replaceFrom, insertedAt, covered, replaceFrom_nil rest (i + 1)]

theorem replaceFrom_congr_from (a b : List Change) :
    ∀ (T : List Char) (i : Nat), (∀ x, i ≤ x → insertedAt a x = insertedAt b x) →
      (∀ x, i ≤ x → covered a x = covered b x) → replaceFrom a i T = replaceFrom b i T
  | [], i, h1, _ => h1 i (Nat.le_refl i)
  | ch :: rest, i, h1, h2 => by
    have ih := replaceFrom_congr_from a b rest (i + 1) (fun x hx => h1 x (by omega))
      (fun x hx => h2 x (by omega))
    simp only [replaceFrom, h1 i (Nat.le_refl i), h2 i (Nat.le_refl i), ih]

/-- A change that ends at or before offset `i` and starts before it plays no part from `i`
on. -/
theorem replaceFrom_cons_behind (c : Change) (cs : List Change) (T : List Char) (i : Nat)
    (h1 : c.rangeOffset < i) (h2 : c.rangeOffset + c.rangeLength ≤ i) :
    replaceFrom (c :: cs) i T = replaceFrom cs i T := by
  refine replaceFrom_congr_from _ _ T i (fun x hx => ?_) (fun x hx => ?_)
  · have : ¬ c.rangeOffset = x := by omega
    simp [insertedAt_cons, this]
  · have : ¬ x < c.rangeOffset + c.rangeLength := by omega
    simp [covered_cons, this]

/-- Up to the first range the original text is kept. -/
theorem replaceFrom_skip (cs : List Change) (D : List Char) (j : Nat)
    (h : ∀ c ∈ cs, j ≤ c.rangeOffset) (hj : j ≤ D.length) :
    ∀ (n i : Nat), i + n = j →
      replaceFrom cs i (D.drop i) = (D.drop i).take n ++ replaceFrom cs j (D.drop j)
  | 0, i, hi => by
    have : i = j := by omega
    subst this
    simp
  | n + 1, i, hi => by
    have hlt : i < D.length := by omega
    have ih := replaceFrom_skip cs D j h hj n (i + 1) (by omega)
    have h1 : insertedAt cs i = [] :=
      insertedAt_eq_nil cs i (fun c hc => by have := h c hc; omega)
    have h2 : covered cs i = false :=
      covered_eq_false cs i (fun c hc => by have := h c hc; omega)
    rw [List.drop_eq_getElem_cons hlt]
    simp only [replaceFrom, h1, h2, ih, List.take_succ_cons, List.nil_append, List.cons_append,
      Bool.false_eq_true, if_false]

/-- Inside a replaced range nothing is produced. -/
theorem replaceFrom_inside (c : Change) (cs : List Change) (D : List Char)
    (h : ∀ d ∈ cs, c.rangeOffset + c.rangeLength ≤ d.rangeOffset)
    (hD : c.rangeOffset + c.rangeLength ≤ D.length) :
    ∀ (n x : Nat), x + n = c.rangeOffset + c.rangeLength → c.rangeOffset < x →
      replaceFrom (c :: cs) x (D.drop x)
        = replaceFrom (c :: cs) (c.rangeOffset + c.rangeLength)
            (D.drop (c.rangeOffset + c.rangeLength))
  | 0, x, hx, _ => by
    have : x = c.rangeOffset + c.rangeLength := by omega
    rw [this]
  | n + 1, x, hx, hlt => by
    have hxD : x < D.length := by omega
    have ih := replaceFrom_inside c cs D h hD n (x + 1) (by omega) (by omega)
    have h1 : insertedAt (c :: cs) x = [] :=
      insertedAt_eq_nil _ x (fun d hd => by
        rcases List.mem_cons.mp hd with rfl | hd
        · omega
        · have := h d hd; omega)
    have h2 : covered (c :: cs) x = true := by
      rw [covered_cons]
      have h3 : c.rangeOffset ≤ x := by omega
      have h4 : x < c.rangeOffset + c.rangeLength := by omega
      simp [h3, h4]
    rw [List.drop_eq_getElem_cons hxD]
    simp only [replaceFrom, h1, h2, ih, List.nil_append, if_true]

/-- At the start of the first range: its text is produced, and the walk resumes behind the
range with the remaining changes. -/
theorem replaceFrom_head (c : Change) (cs : List Change) (D : List Char)
    (h : ∀ d ∈ cs, c.rangeOffset + c.rangeLength ≤ d.rangeOffset)
    (hD : c.rangeOffset + c.rangeLength ≤ D.length) :
    replaceFrom (c :: cs) c.rangeOffset (D.drop c.rangeOffset)
      = c.text ++ replaceFrom cs (c.rangeOffset + c.rangeLength)
          (D.drop (c.rangeOffset + c.rangeLength)) := by
  by_cases hl : c.rangeLength = 0
  · rw [hl, Nat.add_zero]
    cases hT : D.drop c.rangeOffset with
    | nil => simp [replaceFrom, insertedAt_cons]
    | cons ch rest =>
      have hcov : covered (c :: cs) c.rangeOffset = covered cs c.rangeOffset := by
        rw [covered_cons]
        have : ¬ c.rangeOffset < c.rangeOffset + c.rangeLength := by omega
        simp [this]
      simp only [replaceFrom, insertedAt_cons, hcov, if_true,
        replaceFrom_cons_behind c cs rest (c.rangeOffset + 1) (by omega) (by omega),
        List.append_assoc]
  · have hlt : c.rangeOffset < D.length := by omega
    have h1 : insertedAt cs c.rangeOffset = [] :=
      insertedAt_eq_nil cs _ (fun d hd => by have := h d hd; omega)
    have h2 : covered (c :: cs) c.rangeOffset = true := by
      rw [covered_cons]
      have h4 : c.rangeOffset < c.rangeOffset + c.rangeLength := by omega
      simp [h4]
    rw [List.drop_eq_getElem_cons hlt]
    simp only [replaceFrom, insertedAt_cons, h1, h2, if_true, List.append_nil]
    rw [replaceFrom_inside c cs D h hD (c.rangeLength - 1) (c.rangeOffset + 1) (by omega)
        (by omega),
      replaceFrom_cons_behind c cs _ _ (by omega) (Nat.le_refl _)]

/-- For a list in ascending order whose ranges follow each other and lie inside `D`, the walk
range by range and the walk character by character give the same text. -/
theorem replaceRanges_eq_replaceFrom (D : List Char) :
    ∀ (cs : List Change) (pos : Nat), Consecutive pos cs →
      (∀ c ∈ cs, c.rangeOffset + c.rangeLength ≤ D.length) → pos ≤ D.length →
      replaceRanges D pos cs = replaceFrom cs pos (D.drop pos)
  | [], pos, _, _, _ => by simp [replaceRanges, replaceFrom_nil]
  | c :: cs, pos, hcons, hin, hpos => by
    have hc := hin c (List.mem_cons_self _ _)
    have hle := consecutive_le cs _ hcons.2
    have ih := replaceRanges_eq_replaceFrom D cs (c.rangeOffset + c.rangeLength) hcons.2
      (fun x hx => hin x (List.mem_cons_of_mem _ hx)) hc
    rw [replaceFrom_skip (c :: cs) D c.rangeOffset (consecutive_le _ _ ⟨Nat.le_refl _, hcons.2⟩)
        (by omega) (c.rangeOffset - pos) pos (by have := hcons.1; omega),
      replaceFrom_head c cs D hle hc]
    simp only [replaceRanges, ih, List.append_assoc]

/-- For every text `D` and every batch of changes whose ranges lie inside `D` and, taken in
ascending order of offset with equal offsets in batch order, each end where or before the next
one starts, the handler leaves the shared text equal to `D` with every range replaced at once
by its text. -/
theorem applyLocalChanges_of_consecutive (D : List Char) (changes : List Change)
    (hin : RangesInside D changes) (hcons : Consecutive 0 (sortChanges changes)) :
    applyLocalChanges D changes = simultaneousReplace D changes := by
  have hin2 : ∀ c ∈ sortChanges changes, c.rangeOffset + c.rangeLength ≤ D.length :=
    fun c hc => hin c ((List.perm_insertionSort _ changes).subset hc)
  have h := loopOps_consecutive D (sortChanges changes) [] 0 hcons hin2
  simp only [List.nil_append, List.drop_zero, List.length_nil, Nat.cast_zero, sub_self] at h
  rw [← simultaneousReplace_sortChanges]
  unfold applyLocalChanges transactionOps simultaneousReplace
  rw [h, replaceRanges_eq_replaceFrom D _ 0 hcons hin2 (Nat.zero_le _)]
  rfl

theorem applyLocalChanges_of_consecutive_witness :
    RangesInside "0123456789".toList
      [⟨7, 0, "x".toList⟩, ⟨2, 2, "AAA".toList⟩, ⟨7, 1, "B".toList⟩] ∧
    Consecutive 0 (sortChanges [⟨7, 0, "x".toList⟩, ⟨2, 2, "AAA".toList⟩, ⟨7, 1, "B".toList⟩]) ∧
    applyLocalChanges "0123456789".toList
        [⟨7, 0, "x".toList⟩, ⟨2, 2, "AAA".toList⟩, ⟨7, 1, "B".toList⟩]
      = simultaneousReplace "0123456789".toList
        [⟨7, 0, "x".toList⟩, ⟨2, 2, "AAA".toList⟩, ⟨7, 1, "B".toList⟩] :=
  ⟨by decide, by decide, applyLocalChanges_of_consecutive _ _ (by decide) (by decide)⟩


/-! ## Partner chat: peer messages, sending while disconnected, relay errors -/

/-- C12. For an incoming `PARTNER_CHAT` whose `senderId` differs from the local identity, the
chat list becomes the previous list with exactly one entry appended, of role partner and
carrying the payload's content, senderId, sentAt and clientId, and the partner notice becomes
the content and sentAt of that message, whatever notice was displayed before. -/
theorem peer_message_appended_with_notice (cfg : Config) (s : Session L) (msg : Msg)
    (ht : msg.type = .str "PARTNER_CHAT") (hs : msg.senderId.strictEq cfg.myUserId = false) :
    (onmessage cfg s (some msg)).chat = s.chat ++
      [{ role := Role.partner, content := msg.content, senderId := msg.senderId,
         sentAt := msg.sentAt, clientId := msg.clientId }] ∧
    (onmessage cfg s (some msg)).partnerNotice
      = some { content := msg.content, sentAt := msg.sentAt } := by
  constructor
  · rw [onmessage_partnerChat_chat cfg s msg ht,
      partnerChatReducer_append _ _ _ (Or.inl (by simp [hs]))]
    simp [incomingEntry, hs]
  · rw [onmessage_partnerChat cfg s msg ht]
    unfold onPartnerChat
    cases hr : s.noticeTimerRef with
    | none => simp [hs, hr]
    | some t => simp [hs, hr]

/-- C13. A partner message with non-empty content sent while the transport is absent or not
open: nothing is sent, no timer is scheduled, and the chat list is the previous list followed
by the optimistic pending entry and then a system entry. -/
theorem send_while_disconnected (cfg : Config) (s : Session L) (content : String) (now : Nat)
    (rnd iso : String) (_hc : content ≠ "") (hclosed : s.wsOpen = false) :
    (sendPartnerMessage cfg s content now rnd iso).sent = s.sent ∧
    (sendPartnerMessage cfg s content now rnd iso).timers = s.timers ∧
    (sendPartnerMessage cfg s content now rnd iso).chat = s.chat ++
      [pendingMessage cfg content now rnd iso,
       { role := Role.system,
         content := .str "Failed to send message to your partner. Please try again." }] := by
  simp [sendPartnerMessage, hclosed]

/-- C17. An inbound `ERROR` message with non-empty message text `m` sets the status to
`error: ` followed by `m` and changes nothing else: the transport stays as it was, and so do
the document, the widget, the chat list and the synced flag. -/
theorem relay_error_sets_status (cfg : Config) (s : Session L) (msg : Msg) (m : String)
    (ht : msg.type = .str "ERROR") (hm : msg.message = .str m) (hne : m ≠ "") :
    onmessage cfg s (some msg) = { s with status := "error: " ++ m } := by
  have h1 : (JsVal.str "ERROR").truthy = true := by decide
  have h2 : (JsVal.str "ERROR").strictEq (.str "YJS_UPDATE") = false := by decide
  have h3 : (JsVal.str "ERROR").strictEq (.str "YJS_SYNC") = false := by decide
  have h4 : (JsVal.str "ERROR").strictEq (.str "ERROR") = true := by decide
  have h5 : (JsVal.str m).truthy = true := by simp [JsVal.truthy, hne]
  simp only [onmessage, handleMessage, ht, hm, h1, h2, h3, h4, h5, Bool.not_true,
    Bool.false_and, Bool.and_self, if_true, if_false, Bool.false_eq_true, JsVal.toJsString]


theorem peer_message_appended_with_notice_witness :
    demoPeerMsg.type = .str "PARTNER_CHAT" ∧
    demoPeerMsg.senderId.strictEq demoConfig.myUserId = false ∧
    (onmessage demoConfig demoSession (some demoPeerMsg)).chat = demoSession.chat ++
      [{ role := Role.partner, content := demoPeerMsg.content, senderId := demoPeerMsg.senderId,
         sentAt := demoPeerMsg.sentAt, clientId := demoPeerMsg.clientId }] ∧
    (onmessage demoConfig demoSession (some demoPeerMsg)).partnerNotice
      = some { content := demoPeerMsg.content, sentAt := demoPeerMsg.sentAt } :=
  ⟨rfl, by decide, peer_message_appended_with_notice demoConfig demoSession demoPeerMsg rfl
    (by decide)⟩

theorem send_while_disconnected_witness :
    ("check case 3" : String) ≠ "" ∧ demoClosedSession.wsOpen = false ∧
    (sendPartnerMessage demoConfig demoClosedSession "check case 3" 1700 "k3x9qa"
      "2025-01-01T00:00:00.000Z").sent = demoClosedSession.sent ∧
    (sendPartnerMessage demoConfig demoClosedSession "check case 3" 1700 "k3x9qa"
      "2025-01-01T00:00:00.000Z").timers = demoClosedSession.timers ∧
    (sendPartnerMessage demoConfig demoClosedSession "check case 3" 1700 "k3x9qa"
      "2025-01-01T00:00:00.000Z").chat = demoClosedSession.chat ++
      [pendingMessage demoConfig "check case 3" 1700 "k3x9qa" "2025-01-01T00:00:00.000Z",
       { role := Role.system,
         content := .str "Failed to send message to your partner. Please try again." }] :=
  ⟨by decide, rfl,
    send_while_disconnected demoConfig demoClosedSession "check case 3" 1700 "k3x9qa"
      "2025-01-01T00:00:00.000Z" (by decide) rfl⟩

theorem relay_error_sets_status_witness :
    demoErrorMsg.type = .str "ERROR" ∧ demoErrorMsg.message = .str "room is full" ∧
    ("room is full" : String) ≠ "" ∧
    onmessage demoConfig demoSession (some demoErrorMsg)
      = { demoSession with status := "error: " ++ "room is full" } :=
  ⟨rfl, rfl, by decide,
    relay_error_sets_status demoConfig demoSession demoErrorMsg "room is full" rfl rfl
      (by decide)⟩


/-! ## Identity resolution -/

theorem jsOr_chain (sub userId uid id : JsVal) :
    jsOr (jsOr (jsOr (jsOr sub userId) uid) id) .null = firstTruthy [sub, userId, uid, id] := by
  unfold jsOr firstTruthy
  cases h1 : sub.truthy <;> cases h2 : userId.truthy <;> cases h3 : uid.truthy <;>
    cases h4 : id.truthy <;> simp [List.find?, h1, h2, h3, h4]


theorem truthy_of_payloadSegment (t : String) (seg : List Char)
    (h : payloadSegment t.toList = some seg) : (JsVal.str t).truthy = true := by
  have hne : t ≠ "" := by
    intro h0
    subst h0
    have h1 : payloadSegment "".toList = none := by decide
    rw [h1] at h
    cases h
  simp [JsVal.truthy, hne]

/-- The body of `myUserId` for a credential that is a non-empty string. -/
theorem myUserId_str (jsonParse : List Char → Option Parsed) (t : String)
    (htr : (JsVal.str t).truthy = true) :
    myUserId jsonParse (.str t) =
      match payloadSegment t.toList with
      | none => .null
      | some payload =>
        if payload.length = 0 then .null
        else
          match decodeSegment payload with
          | none => .null
          | some text =>
            match jsonParse text with
            | none => .null
            | some decoded =>
              match decoded.identifierProps with
              | none => .null
              | some (sub, userId, uid, id) =>
                jsOr (jsOr (jsOr (jsOr sub userId) uid) id) .null := by
  simp only [myUserId, htr, Bool.not_true, Bool.false_eq_true, if_false]

/-- Identity resolution, case by case.  The result is `null` when the credential is absent
(falsy) or not a string, when it has no second dot-separated segment or an empty one, when that
segment is not accepted by the base64 decoder after the URL alphabet has been translated, when
the decoded text is not valid JSON, when the decoded value is `null`, and when none of the four
property reads gives a truthy value; otherwise it is the first truthy of what the reads of
`sub`, `userId`, `uid`, `id` give, in that order. -/
theorem myUserId_cases (jsonParse : List Char → Option Parsed) (token : JsVal) :
    (token.truthy = false → myUserId jsonParse token = .null) ∧
    ((∀ t : String, token ≠ .str t) → myUserId jsonParse token = .null) ∧
    ∀ t : String, token = .str t →
      ((payloadSegment t.toList = none ∨ payloadSegment t.toList = some []) →
        myUserId jsonParse token = .null) ∧
      ∀ seg : List Char, payloadSegment t.toList = some seg →
        (decodeSegment seg = none → myUserId jsonParse token = .null) ∧
        ∀ text : List Char, decodeSegment seg = some text →
          (jsonParse text = none → myUserId jsonParse token = .null) ∧
          ∀ decoded : Parsed, jsonParse text = some decoded →
            (decoded.identifierProps = none → myUserId jsonParse token = .null) ∧
            ∀ sub userId uid id : JsVal,
              decoded.identifierProps = some (sub, userId, uid, id) →
              (firstTruthy [sub, userId, uid, id] = .null →
                myUserId jsonParse token = .null) ∧
              (seg ≠ [] → myUserId jsonParse token = firstTruthy [sub, userId, uid, id]) := by
  refine ⟨fun h => by simp [myUserId, h], fun h => ?_, fun t ht => ⟨fun h => ?_, fun seg hseg => ?_⟩⟩
  · unfold myUserId
    split
    · rfl
    · cases token <;> first | rfl | exact absurd rfl (h _)
  · subst ht
    cases htr : (JsVal.str t).truthy with
    | false => simp [myUserId, htr]
    | true =>
      rw [myUserId_str jsonParse t htr]
      rcases h with h | h <;> rw [h]
      rfl
  · subst ht
    have htr := truthy_of_payloadSegment t seg hseg
    have hbody := myUserId_str jsonParse t htr
    rw [hseg] at hbody
    refine ⟨fun hd => ?_, fun text htext => ⟨fun hp => ?_, fun decoded hp => ⟨fun hi => ?_, ?_⟩⟩⟩
    · simp only [hbody, hd]; split <;> rfl
    · simp only [hbody, htext, hp]; split <;> rfl
    · simp only [hbody, htext, hp, hi]; split <;> rfl
    · intro sub userId uid id hi
      have hb2 : myUserId jsonParse (.str t) =
          if seg.length = 0 then JsVal.null else firstTruthy [sub, userId, uid, id] := by
        simp only [hbody, htext, hp, hi, jsOr_chain]
      refine ⟨fun hnull => ?_, fun hne => ?_⟩
      · rw [hb2, hnull]; split <;> rfl
      · rw [hb2, if_neg (by simpa using hne)]

theorem myUserId_cases_witness :
    payloadSegment "hdr.eyJzdWIiOiJ1MSJ9.sig".toList = some "eyJzdWIiOiJ1MSJ9".toList ∧
    decodeSegment "eyJzdWIiOiJ1MSJ9".toList
      = some ([123, 34, 115, 117, 98, 34, 58, 34, 117, 49, 34, 125].map Char.ofNat) ∧
    demoJsonParse ([123, 34, 115, 117, 98, 34, 58, 34, 117, 49, 34, 125].map Char.ofNat)
      = some (.object (.str "u1") .undefined .undefined .undefined) ∧
    myUserId demoJsonParse demoToken
      = firstTruthy [.str "u1", .undefined, .undefined, .undefined] ∧
    myUserId demoJsonParse demoToken = .str "u1" :=
  ⟨by decide, by decide, by decide,
    (((((myUserId_cases demoJsonParse demoToken).2.2
      "hdr.eyJzdWIiOiJ1MSJ9.sig" rfl).2 "eyJzdWIiOiJ1MSJ9".toList (by decide)).2
      ([123, 34, 115, 117, 98, 34, 58, 34, 117, 49, 34, 125].map Char.ofNat)
      (by decide)).2 (.object (.str "u1") .undefined .undefined .undefined) (by decide)).2
      (.str "u1") .undefined .undefined .undefined rfl |>.2 (by decide),
    by decide⟩

/-- C11, the case of a payload that is a JSON string: when the second segment decodes to a text
that `JSON.parse` turns into a string, the read of `decoded.sub` gives the method every string
inherits, which is truthy, so the identity is that function and not `null`. -/
theorem string_payload_resolves_to_function (jsonParse : List Char → Option Parsed)
    (t : String) (seg text : List Char) (v : String)
    (hseg : payloadSegment t.toList = some seg) (hne : seg ≠ [])
    (hd : decodeSegment seg = some text) (hp : jsonParse text = some (.string v)) :
    myUserId jsonParse (.str t) = stringSubMethod ∧ myUserId jsonParse (.str t) ≠ .null := by
  have h := (((((myUserId_cases jsonParse (.str t)).2.2 t rfl).2 seg hseg).2 text hd).2
    (.string v) hp).2 stringSubMethod .undefined .undefined .undefined rfl |>.2 hne
  have h2 : firstTruthy [stringSubMethod, .undefined, .undefined, .undefined]
      = stringSubMethod := by decide
  rw [h, h2]
  exact ⟨rfl, by decide⟩

theorem string_payload_resolves_to_function_witness :
    payloadSegment "hdr.ImFiYyI.sig".toList = some "ImFiYyI".toList ∧
    "ImFiYyI".toList ≠ [] ∧
    decodeSegment "ImFiYyI".toList = some ([34, 97, 98, 99, 34].map Char.ofNat) ∧
    demoJsonParse ([34, 97, 98, 99, 34].map Char.ofNat) = some (.string "abc") ∧
    myUserId demoJsonParse demoStringToken = stringSubMethod ∧
    myUserId demoJsonParse demoStringToken ≠ .null :=
  ⟨by decide, by decide, by decide, by decide,
    string_payload_resolves_to_function demoJsonParse "hdr.ImFiYyI.sig" "ImFiYyI".toList
      ([34, 97, 98, 99, 34].map Char.ofNat) "abc" (by decide) (by decide) (by decide)
      (by decide)⟩


/-! ## What the editor handlers leave alone -/

theorem EditorOnly.refl (s : Session L) : EditorOnly s s := rfl

theorem EditorOnly.mk (s : Session L) (d : L.Doc) (w : Option (List Char)) (sl sn : Bool)
    (snt : List OutMsg) (lt : List Char) :
    EditorOnly s { s with doc := d, widget := w, suppressLocal := sl, suppressNetwork := sn,
                          sent := snt, lastText := lt } := rfl

theorem EditorOnly.trans {s t u : Session L} (h1 : EditorOnly s t) (h2 : EditorOnly t u) :
    EditorOnly s u := by
  unfold EditorOnly at *
  rw [h2, h1]

theorem editorOnly_onUpdate (s : Session L) (u : List Nat) : EditorOnly s (onUpdate s u) := by
  unfold onUpdate
  split
  · exact EditorOnly.refl s
  · split
    · exact EditorOnly.refl s
    · split
      · exact EditorOnly.refl s
      · exact EditorOnly.mk s s.doc s.widget s.suppressLocal s.suppressNetwork _ s.lastText

theorem editorOnly_onYTextEvent (k : Session L → List Change → Session L)
    (hk : ∀ s e, EditorOnly s (k s e)) (s : Session L) (isLocal : Bool)
    (delta : List DeltaOp) : EditorOnly s (onYTextEvent k s isLocal delta) := by
  have h0 : EditorOnly s ({ s with lastText := L.toText s.doc } : Session L) :=
    EditorOnly.mk s s.doc s.widget s.suppressLocal s.suppressNetwork s.sent _
  unfold onYTextEvent
  cases isLocal with
  | true => exact h0
  | false =>
    cases hw : s.widget with
    | none => simpa [hw] using h0
    | some w =>
      by_cases hd : delta.length = 0
      · simpa [hw, hd] using h0
      · by_cases he : (buildEdits w 0 delta).length > 0
        · simp only [hw, hd, he, if_true, if_false, Bool.false_eq_true]
          cases L.editsEvent w (buildEdits w 0 delta) with
          | none => exact EditorOnly.mk s s.doc _ false s.suppressNetwork s.sent _
          | some e =>
            have h1 := EditorOnly.mk s s.doc (some (L.executeEdits w (buildEdits w 0 delta)))
              true s.suppressNetwork s.sent (L.toText s.doc)
            exact (h1.trans (hk _ e)).trans (EditorOnly.mk _ _ _ false _ _ _)
        · simpa [hw, hd, he] using h0

theorem editorOnly_notify (obs : Session L → Bool → List DeltaOp → Session L)
    (hobs : ∀ s b d, EditorOnly s (obs s b d)) (s : Session L) (n : TxnNotice)
    (isLocal : Bool) : EditorOnly s (notify obs s n isLocal) := by
  unfold notify
  cases n.delta with
  | none =>
    cases n.update with
    | none => exact EditorOnly.refl s
    | some u => exact editorOnly_onUpdate s u
  | some d =>
    cases n.update with
    | none => exact hobs s isLocal d
    | some u => exact EditorOnly.trans (hobs s isLocal d) (editorOnly_onUpdate _ u)

theorem editorOnly_onDidChangeModelContent (s : Session L) (e : List Change) :
    EditorOnly s (onDidChangeModelContent s e) := by
  unfold onDidChangeModelContent
  split
  · exact EditorOnly.refl s
  · refine EditorOnly.trans ?_ (editorOnly_notify _
      (editorOnly_onYTextEvent _ (fun s _ => EditorOnly.refl s)) _ _ _)
    exact EditorOnly.mk s _ s.widget s.suppressLocal s.suppressNetwork s.sent s.lastText

theorem editorOnly_setValueSuppressed (s : Session L) (w text : List Char) :
    EditorOnly s (setValueSuppressed s w text) := by
  rw [setValueSuppressed_eq]
  exact EditorOnly.mk s s.doc _ false s.suppressNetwork s.sent s.lastText

theorem editorOnly_handleEditorDidMount (s : Session L) (content : List Char) :
    EditorOnly s (handleEditorDidMount s content) := by
  have h0 : EditorOnly s ({ s with widget := some content } : Session L) :=
    EditorOnly.mk s s.doc _ s.suppressLocal s.suppressNetwork s.sent s.lastText
  unfold handleEditorDidMount
  simp only []
  split_ifs
  · exact h0.trans (editorOnly_setValueSuppressed _ _ _)
  · exact h0
  · exact h0.trans (editorOnly_setValueSuppressed _ _ _)
  · exact h0

theorem editorOnly_seedTemplate (s : Session L) (lang : String) :
    EditorOnly s (seedTemplate s lang) := by
  unfold seedTemplate
  refine EditorOnly.trans ?_ (editorOnly_notify _
    (editorOnly_onYTextEvent _ (fun s _ => EditorOnly.refl s)) _ _ _)
  exact EditorOnly.mk s _ s.widget s.suppressLocal s.suppressNetwork s.sent s.lastText


/-! ## Template seeding -/

theorem getDefaultCode_ne_nil (lang : String) : getDefaultCode lang ≠ [] := by
  unfold getDefaultCode
  split_ifs <;> decide

theorem onUpdate_shape (s : Session L) (u : List Nat) :
    ∃ snt, onUpdate s u = { s with sent := snt } := by
  unfold onUpdate
  split
  · exact ⟨s.sent, rfl⟩
  · split
    · exact ⟨s.sent, rfl⟩
    · split
      · exact ⟨s.sent, rfl⟩
      · exact ⟨_, rfl⟩

/-- Delivery of what a local transaction raises changes only the mirror text and the messages
sent. -/
theorem notify_local (k : Session L → List Change → Session L) (s : Session L)
    (n : TxnNotice) :
    ∃ l snt, notify (onYTextEvent k) s n true = { s with lastText := l, sent := snt } := by
  unfold notify
  cases hd : n.delta with
  | none =>
    cases hu : n.update with
    | none => exact ⟨s.lastText, s.sent, rfl⟩
    | some u =>
      obtain ⟨snt, h⟩ := onUpdate_shape s u
      exact ⟨s.lastText, snt, h⟩
  | some d =>
    have hy : onYTextEvent k s true d = { s with lastText := L.toText s.doc } := by
      simp [onYTextEvent]
    cases hu : n.update with
    | none => exact ⟨_, s.sent, hy⟩
    | some u =>
      obtain ⟨snt, h⟩ := onUpdate_shape ({ s with lastText := L.toText s.doc } : Session L) u
      refine ⟨L.toText s.doc, snt, ?_⟩
      show onUpdate (onYTextEvent k s true d) u = _
      rw [hy, h]

/-- The seeding transaction changes, besides the document, only the mirror text and the
messages sent. -/
theorem seedTemplate_eq (s : Session L) (lang : String) :
    ∃ l snt, seedTemplate s lang =
      { s with doc := (L.transact s.doc [YOp.insert 0 (getDefaultCode lang)]).1,
               lastText := l, sent := snt } := by
  obtain ⟨l, snt, h⟩ := notify_local (fun s _ => s)
    ({ s with doc := (L.transact s.doc [YOp.insert 0 (getDefaultCode lang)]).1 } : Session L)
    (L.transact s.doc [YOp.insert 0 (getDefaultCode lang)]).2
  exact ⟨l, snt, h⟩

theorem seedTemplate_doc (s : Session L) (lang : String) :
    (seedTemplate s lang).doc = (L.transact s.doc [YOp.insert 0 (getDefaultCode lang)]).1 := by
  obtain ⟨l, snt, h⟩ := seedTemplate_eq s lang
  rw [h]

/-- The seeding effect inserts nothing unless the editor is mounted, the session is synced and
the document is empty. -/
theorem seedingEffect_gated (s : Session L)
    (h : s.widget = none ∨ s.synced = false ∨ L.toText s.doc ≠ []) : seedingEffect s = s := by
  unfold seedingEffect
  cases hw : s.widget with
  | none => rfl
  | some w =>
    rcases h with h | h | h
    · rw [hw] at h; cases h
    · simp [h]
    · have : (L.toText s.doc).length > 0 := List.length_pos.mpr h
      simp [this]

/-- C14, the language select: in a session that has not applied its first snapshot (synced flag
not set) and whose document is empty, `handleLanguageChange` runs the seeding transaction: the
document becomes the one left by inserting the template of the new language at offset 0. -/
theorem language_change_seeds_before_sync (s : Session L) (newLang : String)
    (hs : s.synced = false) (he : L.toText s.doc = []) :
    seedingEffect s = s ∧
    handleLanguageChange s newLang = seedTemplate { s with language := newLang } newLang ∧
    (handleLanguageChange s newLang).doc
      = (L.transact s.doc [YOp.insert 0 (getDefaultCode newLang)]).1 := by
  have h : handleLanguageChange s newLang = seedTemplate { s with language := newLang } newLang := by
    simp [handleLanguageChange, he]
  exact ⟨seedingEffect_gated s (Or.inr (Or.inl hs)), h, by rw [h, seedTemplate_doc]⟩

theorem language_change_seeds_before_sync_witness :
    demoUnsyncedSession.synced = false ∧ demoLib.toText demoUnsyncedSession.doc = [] ∧
    seedingEffect demoUnsyncedSession = demoUnsyncedSession ∧
    handleLanguageChange demoUnsyncedSession "java"
      = seedTemplate { demoUnsyncedSession with language := "java" } "java" ∧
    (handleLanguageChange demoUnsyncedSession "java").doc
      = (demoLib.transact demoUnsyncedSession.doc [YOp.insert 0 (getDefaultCode "java")]).1 :=
  ⟨rfl, rfl, language_change_seeds_before_sync demoUnsyncedSession "java" rfl rfl⟩

/-- On the demo session that has not been synced: after the language has been set to Java the
document holds the Java template and one update has been sent. -/
theorem language_change_seeds_before_sync_demo :
    (handleLanguageChange demoUnsyncedSession "java").synced = false ∧
    demoLib.toText (handleLanguageChange demoUnsyncedSession "java").doc
      = getDefaultCode "java" ∧
    (handleLanguageChange demoUnsyncedSession "java").sent.length = 1 := by
  decide

/-- A template is inserted only into an empty document.  After a seed has been inserted the
document is not empty, and as long as a document is not empty no run of the seeding effect and
no language change inserts a template: the effect changes nothing and the language change only
sets the language. -/
theorem no_template_into_nonempty_document
    (hlaw : ∀ d ops, L.toText (L.transact d ops).1 = applyYOps (L.toText d) ops)
    (s : Session L) (lang : String) :
    L.toText (seedTemplate s lang).doc ≠ [] ∧
    ∀ t : Session L, L.toText t.doc ≠ [] →
      seedingEffect t = t ∧
      ∀ newLang : String, handleLanguageChange t newLang = { t with language := newLang } := by
  constructor
  · rw [seedTemplate_doc, hlaw]
    simp [applyYOps, applyYOp, getDefaultCode_ne_nil]
  · intro t ht
    refine ⟨seedingEffect_gated t (Or.inr (Or.inr ht)), fun newLang => ?_⟩
    have : ¬ (L.toText t.doc).length = 0 := fun h => ht (List.length_eq_zero.mp h)
    simp [handleLanguageChange, this]

theorem no_template_into_nonempty_document_witness :
    (∀ d ops, demoLib.toText (demoLib.transact d ops).1 = applyYOps (demoLib.toText d) ops) ∧
    demoLib.toText (seedTemplate demoSyncedEmptySession "python").doc ≠ [] ∧
    ∀ t : Session demoLib, demoLib.toText t.doc ≠ [] →
      seedingEffect t = t ∧
      ∀ newLang : String, handleLanguageChange t newLang = { t with language := newLang } :=
  ⟨fun _ _ => rfl,
    no_template_into_nonempty_document (fun _ _ => rfl) demoSyncedEmptySession "python"⟩

/-- C15, as the code behaves: the language select keeps no record of an earlier seed.  In
every state in which the text of the document is empty, also one reached after a template has
been inserted and deleted again, a language change inserts the template of the new language,
although the seeding effect is commented `Initialize shared text only once`. -/
theorem template_inserted_twice
    (hlaw : ∀ d ops, L.toText (L.transact d ops).1 = applyYOps (L.toText d) ops)
    (t : Session L) (newLang : String) (he : L.toText t.doc = []) :
    L.toText (handleLanguageChange t newLang).doc = getDefaultCode newLang ∧
    getDefaultCode newLang ≠ [] := by
  refine ⟨?_, getDefaultCode_ne_nil newLang⟩
  have e : handleLanguageChange t newLang
      = seedTemplate { t with language := newLang } newLang := by
    unfold handleLanguageChange
    simp [he]
  rw [e, seedTemplate_doc, hlaw]
  show applyYOps (L.toText t.doc) [YOp.insert 0 (getDefaultCode newLang)] = _
  rw [he]
  simp [applyYOps, applyYOp]

theorem template_inserted_twice_witness :
    (∀ d ops, eraseLib.toText (eraseLib.transact d ops).1
      = applyYOps (eraseLib.toText d) ops) ∧
    fromB64 demoEraseAllMsg.payloadB64 = some [2, 103] ∧
    (run demoConfig demoSeedSession (demoReseedEvents.take 1)).widget = some [] ∧
    eraseLib.toText (run demoConfig demoSeedSession (demoReseedEvents.take 1)).doc
      = getDefaultCode "python" ∧
    (getDefaultCode "python").length = 103 ∧
    eraseLib.toText (run demoConfig demoSeedSession (demoReseedEvents.take 2)).doc = [] ∧
    eraseLib.toText (run demoConfig demoSeedSession demoReseedEvents).doc
      = getDefaultCode "java" ∧
    (eraseLib.toText (handleLanguageChange
        (run demoConfig demoSeedSession (demoReseedEvents.take 2)) "java").doc
      = getDefaultCode "java" ∧ getDefaultCode "java" ≠ []) :=
  ⟨fun _ _ => rfl, by decide, by decide, by decide, by decide, by decide, by decide,
    template_inserted_twice (fun _ _ => rfl)
      (run demoConfig demoSeedSession (demoReseedEvents.take 2)) "java" (by decide)⟩


/-! ## The shape of the state after an inbound message -/

theorem strictEq_str_false (a : JsVal) (c : String) (h : a ≠ .str c) :
    a.strictEq (.str c) = false := by
  cases hb : a.strictEq (.str c) with
  | false => rfl
  | true => exact absurd ((strictEq_str_iff a c).mp hb) h

/-- Handling of a message that is neither `YJS_UPDATE` nor `YJS_SYNC`, spelled out. -/
theorem handleMessage_other (cfg : Config) (s : Session L) (msg : Msg)
    (hU : msg.type ≠ .str "YJS_UPDATE") (hS : msg.type ≠ .str "YJS_SYNC") :
    handleMessage cfg s msg =
      if !msg.type.truthy then .ok s
      else if msg.type.strictEq (.str "ERROR") && msg.message.truthy then
        .ok { s with status := "error: " ++ msg.message.toJsString }
      else if msg.type.strictEq (.str "LEFT") then
        if !cfg.roomId.truthy || msg.roomId.strictEq cfg.roomId then
          .ok { s with peerLeftOpen := true }
        else .ok s
      else if msg.type.strictEq (.str "PARTNER_CHAT") then .ok (onPartnerChat cfg s msg)
      else .ok s := by
  unfold handleMessage
  simp only [strictEq_str_false _ _ hU, strictEq_str_false _ _ hS, Bool.false_and,
    Bool.false_eq_true, if_false]

/-- The state after an inbound message, by cases: only editor state has changed; or a snapshot
has been applied, and besides editor state the synced flag and the status are set; or the
status is an error text; or the peer-left dialog is opened; or the message is a partner chat
message, handled by its branch. -/
theorem onmessage_shape (cfg : Config) (s : Session L) (data : Option Msg) :
    EditorOnly s (onmessage cfg s data) ∨
    (AppliesSnapshot s (.message data) ∧
      ∃ t, EditorOnly s t ∧ onmessage cfg s data = { t with synced := true, status := "synced" }) ∨
    (∃ m : String, onmessage cfg s data = { s with status := "error: " ++ m }) ∨
    onmessage cfg s data = { s with peerLeftOpen := true } ∨
    (∃ msg, data = some msg ∧ msg.type = .str "PARTNER_CHAT" ∧
      onmessage cfg s data = onPartnerChat cfg s msg) := by
  cases data with
  | none => exact Or.inl (EditorOnly.refl s)
  | some msg =>
    by_cases hU : msg.type = .str "YJS_UPDATE"
    · left
      cases hp : msg.payloadB64.truthy with
      | false =>
        simp only [onmessage, handleMessage_no_payload cfg s msg (Or.inl hU) hp]
        exact EditorOnly.refl s
      | true =>
        cases hb : fromB64 msg.payloadB64 with
        | none =>
          rw [onmessage_invalid_base64 cfg s msg (Or.inl hU) hb]
          exact EditorOnly.refl s
        | some bytes =>
          cases ha : L.applyUpdate s.doc bytes with
          | none =>
            rw [rejected_payload_state cfg s msg bytes (Or.inl hU) hp hb ha]
            exact EditorOnly.mk s s.doc s.widget s.suppressLocal true s.sent s.lastText
          | some r =>
            obtain ⟨l, w, sl, h, _⟩ := onmessage_update_applied cfg s msg bytes r hU hp hb ha
            rw [h]
            exact EditorOnly.mk s r.1 w sl false s.sent l
    · by_cases hS : msg.type = .str "YJS_SYNC"
      · cases hp : msg.payloadB64.truthy with
        | false =>
          left
          simp only [onmessage, handleMessage_no_payload cfg s msg (Or.inr hS) hp]
          exact EditorOnly.refl s
        | true =>
          cases hb : fromB64 msg.payloadB64 with
          | none =>
            left
            rw [onmessage_invalid_base64 cfg s msg (Or.inr hS) hb]
            exact EditorOnly.refl s
          | some bytes =>
            cases ha : L.applyUpdate s.doc bytes with
            | none =>
              left
              rw [rejected_payload_state cfg s msg bytes (Or.inr hS) hp hb ha]
              exact EditorOnly.mk s s.doc s.widget s.suppressLocal true s.sent s.lastText
            | some r =>
              right; left
              obtain ⟨l, w, sl, h, _⟩ := onmessage_sync_applied cfg s msg bytes r hS hp hb ha
              refine ⟨⟨msg, bytes, r, rfl, hS, hp, hb, ha⟩,
                { s with doc := r.1, lastText := l, widget := w, suppressLocal := sl,
                         suppressNetwork := false },
                EditorOnly.mk s r.1 w sl false s.sent l, ?_⟩
              rw [h]
      · have hm := handleMessage_other cfg s msg hU hS
        by_cases h1 : msg.type.truthy = true
        · by_cases h2 : (msg.type.strictEq (.str "ERROR") && msg.message.truthy) = true
          · right; right; left
            refine ⟨msg.message.toJsString, ?_⟩
            simp only [onmessage, hm, h1, h2, Bool.not_true, Bool.false_eq_true, if_false, if_true]
          · by_cases h3 : msg.type.strictEq (.str "LEFT") = true
            · by_cases h4 : (!cfg.roomId.truthy || msg.roomId.strictEq cfg.roomId) = true
              · right; right; right; left
                simp only [onmessage, hm, h1, h2, h3, h4, Bool.not_true, Bool.false_eq_true,
                  if_false, if_true]
              · left
                simp only [onmessage, hm, h1, h2, h3, h4, Bool.not_true, Bool.false_eq_true,
                  if_false, if_true]
                exact EditorOnly.refl s
            · by_cases h5 : msg.type.strictEq (.str "PARTNER_CHAT") = true
              · right; right; right; right
                have ht := (strictEq_str_iff _ _).mp h5
                exact ⟨msg, rfl, ht, onmessage_partnerChat cfg s msg ht⟩
              · left
                simp only [onmessage, hm, h1, h2, h3, h5, Bool.not_true, Bool.false_eq_true,
                  if_false, if_true]
                exact EditorOnly.refl s
        · left
          have h1f : msg.type.truthy = false := by simpa using h1
          simp only [onmessage, hm, h1f, Bool.not_false, if_true]
          exact EditorOnly.refl s


/-! ## The notice timer -/

theorem sendPartnerMessage_shape (cfg : Config) (s : Session L) (content : String) (now : Nat)
    (rnd iso : String) :
    ∃ c snt, sendPartnerMessage cfg s content now rnd iso = { s with chat := c, sent := snt } := by
  cases hw : s.wsOpen with
  | true =>
    exact ⟨s.chat ++ [pendingMessage cfg content now rnd iso],
      s.sent ++ [OutMsg.partnerChat content (newClientId now rnd)],
      by simp [sendPartnerMessage, hw]⟩
  | false =>
    exact ⟨s.chat ++ [pendingMessage cfg content now rnd iso] ++
        [{ role := Role.system,
           content := .str "Failed to send message to your partner. Please try again." }],
      s.sent, by simp [sendPartnerMessage, hw]⟩

theorem handleLanguageChange_shape (s : Session L) (newLang : String) :
    ∃ t, EditorOnly s t ∧ handleLanguageChange s newLang = { t with language := newLang } := by
  by_cases hc : (L.toText s.doc).length = 0
  · obtain ⟨l, snt, h⟩ := seedTemplate_eq ({ s with language := newLang } : Session L) newLang
    refine ⟨{ s with doc := (L.transact s.doc [YOp.insert 0 (getDefaultCode newLang)]).1,
                     lastText := l, sent := snt },
      EditorOnly.mk s _ s.widget s.suppressLocal s.suppressNetwork snt l, ?_⟩
    simp only [handleLanguageChange, hc, if_true, h]
  · exact ⟨s, EditorOnly.refl s, by simp [handleLanguageChange, hc]⟩

theorem TimerDiscipline.of_same {s t : Session L} (h : TimerDiscipline s)
    (h1 : t.timers = s.timers) (h2 : t.noticeTimerRef = s.noticeTimerRef)
    (h3 : t.nextTimerId = s.nextTimerId) : TimerDiscipline t := by
  unfold TimerDiscipline at *
  rw [h1, h2, h3]
  exact h

theorem TimerDiscipline.of_editorOnly {s t : Session L} (h : TimerDiscipline s)
    (he : EditorOnly s t) : TimerDiscipline t := by
  unfold EditorOnly at he
  exact h.of_same (by rw [he]) (by rw [he]) (by rw [he])

theorem TimerDiscipline.of_timers_nil {t : Session L} (h : t.timers = []) :
    TimerDiscipline t := by
  unfold TimerDiscipline
  rw [h]
  exact ⟨Nat.zero_le _, fun x hx => by cases hx⟩

/-- Under the discipline, cancelling the timer held in the ref leaves no timer pending; with an
empty ref none is pending anyway. -/
theorem TimerDiscipline.cancel_ref {s : Session L} (h : TimerDiscipline s) :
    (match s.noticeTimerRef with
      | some t => s.timers.filter (fun p => p.1 ≠ t)
      | none => s.timers) = [] := by
  cases hr : s.noticeTimerRef with
  | none =>
    cases ht : s.timers with
    | nil => rfl
    | cons p ps =>
      have := (h.2 p (by rw [ht]; exact List.mem_cons_self _ _)).1
      rw [hr] at this
      cases this
  | some t =>
    refine List.filter_eq_nil_iff.mpr (fun p hp => ?_)
    have := (h.2 p hp).1
    rw [hr] at this
    injection this with this
    simp [this]

/-- The partner chat branch for a message of the peer: the timer held in the ref is cancelled
and a timer of 8000 ms is scheduled and put into the ref. -/
theorem onPartnerChat_peer_timers (cfg : Config) (s : Session L) (msg : Msg)
    (hs : msg.senderId.strictEq cfg.myUserId = false) :
    (onPartnerChat cfg s msg).timers =
      (match s.noticeTimerRef with
        | some t => s.timers.filter (fun p => p.1 ≠ t)
        | none => s.timers) ++ [(s.nextTimerId, 8000)] ∧
    (onPartnerChat cfg s msg).noticeTimerRef = some s.nextTimerId ∧
    (onPartnerChat cfg s msg).nextTimerId = s.nextTimerId + 1 := by
  unfold onPartnerChat
  cases hr : s.noticeTimerRef with
  | none => simp [hs, hr]
  | some t => simp [hs, hr]

theorem onPartnerChat_self (cfg : Config) (s : Session L) (msg : Msg)
    (hs : msg.senderId.strictEq cfg.myUserId = true) :
    onPartnerChat cfg s msg = { s with chat := partnerChatReducer cfg.myUserId msg s.chat } := by
  simp [onPartnerChat, hs]

theorem TimerDiscipline.onPartnerChat {s : Session L} (h : TimerDiscipline s) (cfg : Config)
    (msg : Msg) : TimerDiscipline (Collab.onPartnerChat cfg s msg) := by
  cases hs : msg.senderId.strictEq cfg.myUserId with
  | true =>
    rw [onPartnerChat_self cfg s msg hs]
    exact h.of_same rfl rfl rfl
  | false =>
    obtain ⟨h1, h2, h3⟩ := onPartnerChat_peer_timers cfg s msg hs
    rw [h.cancel_ref, List.nil_append] at h1
    unfold TimerDiscipline
    rw [h1, h2, h3]
    refine ⟨Nat.le_refl _, fun t ht => ?_⟩
    rw [List.mem_singleton] at ht
    subst ht
    exact ⟨rfl, rfl, rfl⟩

theorem dismissPartnerNotice_timers (s : Session L) :
    (dismissPartnerNotice s).timers =
      (match s.noticeTimerRef with
        | some t => s.timers.filter (fun p => p.1 ≠ t)
        | none => s.timers) ∧
    (dismissPartnerNotice s).partnerNotice = none := by
  unfold dismissPartnerNotice clearTimeout
  cases s.noticeTimerRef <;> exact ⟨rfl, rfl⟩

theorem TimerDiscipline.noticeTimerFires {s : Session L} (h : TimerDiscipline s) (id : Nat) :
    TimerDiscipline (Collab.noticeTimerFires s id) := by
  unfold Collab.noticeTimerFires
  split
  · unfold TimerDiscipline clearTimeout
    refine ⟨Nat.le_trans (List.length_filter_le _ _) h.1, fun t ht => ?_⟩
    exact h.2 t (List.mem_of_mem_filter ht)
  · exact h

/-- Every handler keeps the discipline of the notice timer. -/
theorem TimerDiscipline.step {s : Session L} (h : TimerDiscipline s) (cfg : Config)
    (e : Event) : TimerDiscipline (Collab.step cfg s e) := by
  cases e with
  | transportOpen => exact h.of_same rfl rfl rfl
  | message data =>
    rcases onmessage_shape cfg s data with he | ⟨_, t, he, heq⟩ | ⟨m, heq⟩ | heq |
      ⟨msg, _, _, heq⟩
    · exact h.of_editorOnly he
    · show TimerDiscipline (onmessage cfg s data)
      rw [heq]
      exact (h.of_editorOnly he).of_same rfl rfl rfl
    · show TimerDiscipline (onmessage cfg s data)
      rw [heq]
      exact h.of_same rfl rfl rfl
    · show TimerDiscipline (onmessage cfg s data)
      rw [heq]
      exact h.of_same rfl rfl rfl
    · show TimerDiscipline (onmessage cfg s data)
      rw [heq]
      exact h.onPartnerChat cfg msg
  | transportError => exact h.of_same rfl rfl rfl
  | transportClose => exact h.of_same rfl rfl rfl
  | editorMount content =>
    exact h.of_editorOnly (editorOnly_handleEditorDidMount s content)
  | widgetChange changes => exact h.of_editorOnly (editorOnly_onDidChangeModelContent s changes)
  | sendPartner content now rnd iso =>
    obtain ⟨c, snt, heq⟩ := sendPartnerMessage_shape cfg s content now rnd iso
    show TimerDiscipline (sendPartnerMessage cfg s content now rnd iso)
    rw [heq]
    exact h.of_same rfl rfl rfl
  | seedingEffect =>
    show TimerDiscipline (Collab.seedingEffect s)
    unfold Collab.seedingEffect
    split
    · exact h
    · split
      · exact h
      · split
        · exact h
        · exact h.of_editorOnly (editorOnly_seedTemplate s _)
  | languageChange newLang =>
    obtain ⟨t, he, heq⟩ := handleLanguageChange_shape s newLang
    show TimerDiscipline (handleLanguageChange s newLang)
    rw [heq]
    exact (h.of_editorOnly he).of_same rfl rfl rfl
  | dismissNotice =>
    refine TimerDiscipline.of_timers_nil ?_
    show (dismissPartnerNotice s).timers = []
    rw [(dismissPartnerNotice_timers s).1]
    exact h.cancel_ref
  | timerFires id => exact h.noticeTimerFires id

theorem TimerDiscipline.run (cfg : Config) :
    ∀ (events : List Event) (s : Session L), TimerDiscipline s →
      TimerDiscipline (Collab.run cfg s events)
  | [], _, h => h
  | e :: es, s, h => TimerDiscipline.run cfg es (Collab.step cfg s e) (h.step cfg e)

/-- C19. In every state reached from the initial state of a session, at most one
notice-expiry timer is pending, and it is the last one scheduled, held in the ref, with a delay
of 8000 ms.  Handling a message of the peer in such a state cancels the pending timer and
leaves exactly its own timer of 8000 ms pending; dismissing the notice leaves no timer
pending and no notice displayed. -/
theorem notice_timer_discipline (cfg : Config) (d : L.Doc) (events : List Event) :
    TimerDiscipline (run cfg (initialSession d) events) ∧
    (∀ msg : Msg, msg.type = .str "PARTNER_CHAT" →
      msg.senderId.strictEq cfg.myUserId = false →
      (onmessage cfg (run cfg (initialSession d) events) (some msg)).timers
        = [((run cfg (initialSession d) events).nextTimerId, 8000)]) ∧
    (dismissPartnerNotice (run cfg (initialSession d) events)).timers = [] ∧
    (dismissPartnerNotice (run cfg (initialSession d) events)).partnerNotice = none := by
  have h : TimerDiscipline (run cfg (initialSession d) events) :=
    TimerDiscipline.run cfg events _ (TimerDiscipline.of_timers_nil rfl)
  refine ⟨h, fun msg ht hs => ?_, ?_, (dismissPartnerNotice_timers _).2⟩
  · rw [onmessage_partnerChat cfg _ msg ht, (onPartnerChat_peer_timers cfg _ msg hs).1,
      h.cancel_ref, List.nil_append]
  · rw [(dismissPartnerNotice_timers _).1]
    exact h.cancel_ref


theorem notice_timer_discipline_witness :
    demoPeerMsg.type = .str "PARTNER_CHAT" ∧
    demoPeerMsg.senderId.strictEq demoConfig.myUserId = false ∧
    (run demoConfig demoInitial demoEvents).timers = [(1, 8000)] ∧
    (onmessage demoConfig (run demoConfig demoInitial demoEvents) (some demoPeerMsg)).timers
      = [((run demoConfig demoInitial demoEvents).nextTimerId, 8000)] ∧
    (run demoConfig demoInitial demoEvents).nextTimerId = 2 :=
  ⟨rfl, by decide, by decide,
    (notice_timer_discipline (L := demoLib) demoConfig "ab".toList demoEvents).2.1 demoPeerMsg
      rfl (by decide),
    by decide⟩

/-! ## Status transitions -/

theorem error_text_ne (m : String) : "error: " ++ m ≠ "connected" ∧ "error: " ++ m ≠ "synced" := by
  have hd : ("error: " ++ m).data.head? = some (Char.ofNat 101) := by
    rw [String.data_append]
    rfl
  constructor
  · intro h
    rw [h] at hd
    exact absurd hd (by decide)
  · intro h
    rw [h] at hd
    exact absurd hd (by decide)

theorem EditorOnly.status_eq {s t : Session L} (he : EditorOnly s t) : t.status = s.status := by
  unfold EditorOnly at he
  rw [he]

/-- C16, amended: when the status is neither `connected` nor `synced` (in particular when it is
an error status or `disconnected`), no event moves it to `connected` or `synced`, except the
opening of the transport and an inbound `YJS_SYNC` message whose snapshot is applied. -/
theorem status_recovers_only_by_open_or_snapshot (cfg : Config) (s : Session L) (e : Event)
    (h1 : s.status ≠ "connected") (h2 : s.status ≠ "synced") (ho : e ≠ .transportOpen)
    (hs : ¬ AppliesSnapshot s e) :
    (step cfg s e).status ≠ "connected" ∧ (step cfg s e).status ≠ "synced" := by
  have keep : ∀ t : Session L, t.status = s.status →
      t.status ≠ "connected" ∧ t.status ≠ "synced" := fun t ht => by rw [ht]; exact ⟨h1, h2⟩
  cases e with
  | transportOpen => exact absurd rfl ho
  | message data =>
    show (onmessage cfg s data).status ≠ "connected" ∧ (onmessage cfg s data).status ≠ "synced"
    rcases onmessage_shape cfg s data with he | ⟨ha, _⟩ | ⟨m, heq⟩ | heq | ⟨msg, _, _, heq⟩
    · exact keep _ he.status_eq
    · exact absurd ha hs
    · rw [heq]
      exact error_text_ne m
    · rw [heq]
      exact ⟨h1, h2⟩
    · rw [heq]
      refine keep _ ?_
      cases hse : msg.senderId.strictEq cfg.myUserId with
      | true => rw [onPartnerChat_self cfg s msg hse]
      | false =>
        unfold onPartnerChat
        cases hr : s.noticeTimerRef with
        | none => simp [hse, hr]
        | some t => simp [hse, hr, clearTimeout]
  | transportError =>
    show ("error" : String) ≠ "connected" ∧ ("error" : String) ≠ "synced"
    exact ⟨by decide, by decide⟩
  | transportClose =>
    show ("disconnected" : String) ≠ "connected" ∧ ("disconnected" : String) ≠ "synced"
    exact ⟨by decide, by decide⟩
  | editorMount content => exact keep _ (editorOnly_handleEditorDidMount s content).status_eq
  | widgetChange changes => exact keep _ (editorOnly_onDidChangeModelContent s changes).status_eq
  | sendPartner content now rnd iso =>
    obtain ⟨c, snt, heq⟩ := sendPartnerMessage_shape cfg s content now rnd iso
    show (sendPartnerMessage cfg s content now rnd iso).status ≠ "connected" ∧
      (sendPartnerMessage cfg s content now rnd iso).status ≠ "synced"
    rw [heq]
    exact ⟨h1, h2⟩
  | seedingEffect =>
    refine keep _ ?_
    show (Collab.seedingEffect s).status = s.status
    unfold Collab.seedingEffect
    split
    · rfl
    · split
      · rfl
      · split
        · rfl
        · exact (editorOnly_seedTemplate s _).status_eq
  | languageChange newLang =>
    obtain ⟨t, he, heq⟩ := handleLanguageChange_shape s newLang
    show (handleLanguageChange s newLang).status ≠ "connected" ∧
      (handleLanguageChange s newLang).status ≠ "synced"
    rw [heq]
    exact keep t he.status_eq
  | dismissNotice =>
    refine keep _ ?_
    show (dismissPartnerNotice s).status = s.status
    unfold dismissPartnerNotice clearTimeout
    cases s.noticeTimerRef <;> rfl
  | timerFires id =>
    refine keep _ ?_
    show (noticeTimerFires s id).status = s.status
    unfold noticeTimerFires
    split <;> rfl

/-- C16 as stated fails: the relay reports an error, the connection stays open, and the
snapshot that arrives afterwards moves the status from the error text to `synced`. -/
theorem status_leaves_error_on_snapshot :
    (run demoConfig demoInitial [.transportOpen, .message (some demoErrorMsg)]).status
      = "error: room is full" ∧
    (run demoConfig demoInitial demoErrorThenSync).status = "synced" := by
  decide


theorem status_recovers_only_by_open_or_snapshot_witness :
    demoErrorState.status ≠ "connected" ∧ demoErrorState.status ≠ "synced" ∧
    Event.message (some demoUpdateMsg) ≠ Event.transportOpen ∧
    ¬ AppliesSnapshot demoErrorState (.message (some demoUpdateMsg)) ∧
    (step demoConfig demoErrorState (.message (some demoUpdateMsg))).status ≠ "connected" ∧
    (step demoConfig demoErrorState (.message (some demoUpdateMsg))).status ≠ "synced" :=
  have hs : ¬ AppliesSnapshot demoErrorState (.message (some demoUpdateMsg)) :=
    fun ⟨_, _, _, he, ht, _⟩ => by
      cases he
      exact absurd ht (by decide)
  ⟨by decide, by decide, (fun h => by cases h), hs,
    status_recovers_only_by_open_or_snapshot demoConfig demoErrorState
      (.message (some demoUpdateMsg)) (by decide) (by decide) (fun h => by cases h) hs⟩

/-! ## Payload encoding round trip -/

theorem b64Value_b64Digit : ∀ n, n < 64 → b64Value (b64Digit n) = some n := by
  decide

theorem b64Digit_ne_pad : ∀ n, n < 64 → b64Digit n ≠ '=' := by
  decide

theorem b64Digit_not_whitespace : ∀ n, n < 64 → isAsciiWhitespace (b64Digit n) = false := by
  decide


theorem toB64_eq : ∀ u : List Nat,
    toB64 u = (toSextets u).map b64Digit ++ List.replicate (padLength u) '='
  | [] => rfl
  | [_] => rfl
  | [_, _] => rfl
  | a :: b :: c :: rest => by
    simp only [toB64, toSextets, padLength, List.map_cons, List.cons_append, toB64_eq rest]

theorem toSextets_lt : ∀ u : List Nat, (∀ b ∈ u, b < 256) → ∀ x ∈ toSextets u, x < 64
  | [], _, x, hx => by cases hx
  | [a], h, x, hx => by
    have ha := h a (by simp)
    simp only [toSextets, List.mem_cons, List.mem_singleton, List.not_mem_nil, or_false] at hx
    rcases hx with rfl | rfl <;> omega
  | [a, b], h, x, hx => by
    have ha := h a (by simp)
    have hb := h b (by simp)
    simp only [toSextets, List.mem_cons, List.mem_singleton, List.not_mem_nil, or_false] at hx
    rcases hx with rfl | rfl | rfl <;> omega
  | a :: b :: c :: rest, h, x, hx => by
    have ha := h a (by simp)
    have hb := h b (by simp)
    have hc := h c (by simp)
    simp only [toSextets, List.mem_cons] at hx
    rcases hx with rfl | rfl | rfl | rfl | hx
    · omega
    · omega
    · omega
    · omega
    · exact toSextets_lt rest (fun y hy => h y (by simp [hy])) x hx

theorem decodeSextets_toSextets : ∀ u : List Nat, (∀ b ∈ u, b < 256) →
    decodeSextets (toSextets u) = u
  | [], _ => rfl
  | [a], h => by
    have ha := h a (by simp)
    simp only [toSextets, decodeSextets]
    congr 1
    omega
  | [a, b], h => by
    have ha := h a (by simp)
    have hb := h b (by simp)
    simp only [toSextets, decodeSextets]
    congr 1
    · omega
    · congr 1
      omega
  | a :: b :: c :: rest, h => by
    have ha := h a (by simp)
    have hb := h b (by simp)
    have hc := h c (by simp)
    simp only [toSextets, decodeSextets,
      decodeSextets_toSextets rest (fun y hy => h y (by simp [hy]))]
    congr 1
    · omega
    · congr 1
      · omega
      · congr 1
        omega

/-- The number of six-bit values and of padding characters written by `toB64`. -/
theorem toSextets_length : ∀ u : List Nat,
    ((toSextets u).length + padLength u) % 4 = 0 ∧ padLength u ≤ 2 ∧
      (toSextets u).length % 4 ≠ 1 ∧ (padLength u ≠ 0 → toSextets u ≠ [])
  | [] => by simp [toSextets, padLength]
  | [_] => by simp [toSextets, padLength]
  | [_, _] => by simp [toSextets, padLength]
  | _ :: _ :: _ :: rest => by
    obtain ⟨h1, h2, h3, h4⟩ := toSextets_length rest
    simp only [toSextets, padLength, List.length_cons]
    refine ⟨by omega, h2, by omega, fun _ => by simp⟩


theorem stripPadding_text (X : List Char) (p : Nat) (hX : ∀ c ∈ X, c ≠ '=') (hp : p ≤ 2)
    (hlen : (X.length + p) % 4 = 0) (hne : p ≠ 0 → X ≠ []) :
    stripPadding (X ++ List.replicate p '=') = X := by
  have hrev : ∀ c r, X.reverse = c :: r → c ≠ '=' := fun c r h =>
    hX c (List.mem_reverse.mp (by rw [h]; exact List.mem_cons_self _ _))
  unfold stripPadding
  have hl : (X ++ List.replicate p '=').length % 4 = 0 := by simpa using hlen
  rw [if_pos hl]
  match p, hp with
  | 0, _ =>
    simp only [List.replicate, List.append_nil]
    split
    · next r h => exact absurd rfl (hrev _ _ h)
    · next r _ h => exact absurd rfl (hrev _ _ h)
    · rfl
  | 1, _ =>
    have hXne := hne (by decide)
    cases hr : X.reverse with
    | nil => exact absurd (List.reverse_eq_nil_iff.mp hr) hXne
    | cons c r =>
      have hc := hrev c r hr
      have hxr : X = (c :: r).reverse := by rw [← hr, List.reverse_reverse]
      simp only [List.replicate, List.reverse_append, List.reverse_cons, List.reverse_nil,
        List.nil_append, List.singleton_append, hr]
      split
      · next r2 h =>
        injection h with _ h2
        injection h2 with h3 _
        exact absurd h3 hc
      · next r2 _ h =>
        injection h with _ h2
        rw [← h2, hxr]
      · next h1 h2 => exact absurd rfl (h2 _)
  | 2, _ =>
    simp only [List.replicate, List.reverse_append, List.reverse_cons, List.reverse_nil,
      List.nil_append, List.singleton_append, List.cons_append]
    exact List.reverse_reverse X


theorem mapM_loop_b64Value : ∀ (X acc : List Nat), (∀ x ∈ X, x < 64) →
    List.mapM.loop b64Value (X.map b64Digit) acc = some (acc.reverse ++ X)
  | [], acc, _ => by simp [List.mapM.loop]
  | x :: X, acc, h => by
    have hx := b64Value_b64Digit x (h x (List.mem_cons_self _ _))
    have ih := mapM_loop_b64Value X (x :: acc) (fun y hy => h y (List.mem_cons_of_mem _ hy))
    simp only [List.map_cons, List.mapM.loop, hx, Option.bind_eq_bind, Option.some_bind, ih]
    simp

theorem mapM_b64Value (X : List Nat) (h : ∀ x ∈ X, x < 64) :
    (X.map b64Digit).mapM b64Value = some X := by
  unfold List.mapM
  rw [mapM_loop_b64Value X [] h]
  rfl

theorem filter_whitespace_toB64 (u : List Nat) (h : ∀ b ∈ u, b < 256) :
    (toB64 u).filter (fun c => !isAsciiWhitespace c) = toB64 u := by
  rw [List.filter_eq_self]
  intro c hc
  rw [toB64_eq, List.mem_append] at hc
  rcases hc with hc | hc
  · obtain ⟨x, hx, rfl⟩ := List.mem_map.mp hc
    simp [b64Digit_not_whitespace x (toSextets_lt u h x hx)]
  · rw [List.eq_of_mem_replicate hc]
    decide

/-- The browser decoder gives back the bytes that `toB64` has encoded. -/
theorem atobBytes_toB64 (u : List Nat) (h : ∀ b ∈ u, b < 256) :
    atobBytes (toB64 u) = some u := by
  obtain ⟨h1, h2, h3, h4⟩ := toSextets_length u
  have hstrip : stripPadding (toB64 u) = (toSextets u).map b64Digit := by
    rw [toB64_eq]
    refine stripPadding_text _ _ (fun c hc => ?_) h2 (by simpa using h1) (fun hp => ?_)
    · obtain ⟨x, hx, rfl⟩ := List.mem_map.mp hc
      exact b64Digit_ne_pad x (toSextets_lt u h x hx)
    · simpa using h4 hp
  unfold atobBytes
  simp only [filter_whitespace_toB64 u h, hstrip, List.length_map]
  rw [if_neg h3, mapM_b64Value _ (toSextets_lt u h), Option.map_some', decodeSextets_toSextets u h]

/-- C18. For every byte sequence `u` (every element below 256), decoding the text that `toB64`
gives for `u` with `fromB64` gives `u` again. -/
theorem payload_round_trip (u : List Nat) (h : ∀ b ∈ u, b < 256) :
    fromB64 (.str (String.mk (toB64 u))) = some u := by
  unfold fromB64
  exact atobBytes_toB64 u h

theorem payload_round_trip_witness :
    (∀ b ∈ [0, 255, 16, 1, 99], b < 256) ∧
    toB64 [0, 255, 16, 1, 99] = "AP8QAWM=".toList ∧
    fromB64 (.str (String.mk (toB64 [0, 255, 16, 1, 99]))) = some [0, 255, 16, 1, 99] :=
  ⟨by decide, by decide, payload_round_trip [0, 255, 16, 1, 99] (by decide)⟩


/-! ## Convergence of two replicas -/

theorem onYTextEvent_remote_suppressLocal (s : Session L) (delta : List DeltaOp)
    (hl : s.suppressLocal = false) :
    (onYTextEvent onDidChangeModelContent s false delta).suppressLocal = false ∧
    (onYTextEvent onDidChangeModelContent s false delta).suppressNetwork = s.suppressNetwork := by
  obtain ⟨w, sl, hy, _, _⟩ := onYTextEvent_remote s delta
  refine ⟨?_, by rw [hy]⟩
  unfold onYTextEvent
  cases hw : s.widget with
  | none => simpa [hw] using hl
  | some x =>
    by_cases hd : delta.length = 0
    · simpa [hw, hd] using hl
    · by_cases he : (buildEdits x 0 delta).length > 0
      · simp only [hw, hd, he, if_true, if_false, Bool.false_eq_true]
      · simpa [hw, hd, he] using hl

theorem notify_remote_suppressLocal (s : Session L) (n : TxnNotice)
    (h : s.suppressNetwork = true) (hl : s.suppressLocal = false) :
    (notify (onYTextEvent onDidChangeModelContent) s n false).suppressLocal = false := by
  unfold notify
  cases hd : n.delta with
  | none =>
    cases n.update with
    | none => exact hl
    | some u =>
      show (onUpdate s u).suppressLocal = false
      rw [onUpdate_of_suppressNetwork _ _ h]
      exact hl
  | some d =>
    obtain ⟨h1, h2⟩ := onYTextEvent_remote_suppressLocal s d hl
    cases n.update with
    | none => exact h1
    | some u =>
      show (onUpdate (onYTextEvent onDidChangeModelContent s false d) u).suppressLocal = false
      rw [onUpdate_of_suppressNetwork _ _ (h2.trans h)]
      exact h1

/-- A widget change in steady state: the document is the one the transaction leaves, and the
update the transaction raises, if any, is sent as one message. -/
theorem onDidChangeModelContent_steady (s : Session L) (changes : List Change)
    (hs : Steady s) :
    ∃ l, onDidChangeModelContent s changes =
      { s with doc := (L.transact s.doc (transactionOps changes)).1, lastText := l,
               sent := s.sent ++ match (L.transact s.doc (transactionOps changes)).2.update with
                 | some u => [updateMessage u]
                 | none => [] } := by
  obtain ⟨ho, hl, hn⟩ := hs
  unfold onDidChangeModelContent notify
  simp only [hl, Bool.false_eq_true, if_false]
  cases hd : (L.transact s.doc (transactionOps changes)).2.delta with
  | none =>
    cases hu : (L.transact s.doc (transactionOps changes)).2.update with
    | none => exact ⟨s.lastText, by simp⟩
    | some u => exact ⟨s.lastText, by simp [onUpdate, ho, hl, hn, updateMessage]⟩
  | some d =>
    cases hu : (L.transact s.doc (transactionOps changes)).2.update with
    | none =>
      exact ⟨L.toText (L.transact s.doc (transactionOps changes)).1, by simp [onYTextEvent]⟩
    | some u =>
      exact ⟨L.toText (L.transact s.doc (transactionOps changes)).1,
        by simp [onUpdate, onYTextEvent, ho, hl, hn, updateMessage]⟩


theorem toB64_ne_nil : ∀ u : List Nat, u ≠ [] → toB64 u ≠ []
  | [], h => absurd rfl h
  | [_], _ => by simp [toB64]
  | [_, _], _ => by simp [toB64]
  | _ :: _ :: _ :: _, _ => by simp [toB64]

/-- The inbound message that the relay makes of an encoded update, and how the handler reads
it. -/
theorem relayForward_updateMessage (M : MergeLaws L) (u : List Nat) (hv : M.valid u) :
    ∃ msg, relayForward (updateMessage u) = some msg ∧ msg.type = .str "YJS_UPDATE" ∧
      msg.payloadB64.truthy = true ∧ fromB64 msg.payloadB64 = some u := by
  obtain ⟨hne, hb⟩ := M.valid_bytes u hv
  refine ⟨_, rfl, rfl, ?_, ?_⟩
  · have h : String.mk (toB64 u) ≠ "" := fun h => toB64_ne_nil u hne (congrArg String.data h)
    simp [JsVal.truthy, h]
  · show atobBytes (toB64 u) = some u
    exact atobBytes_toB64 u hb

/-- Delivery of an encoded update integrates it into the document. -/
theorem deliver_doc (M : MergeLaws L) (cfg : Config) (s : Session L) (u : List Nat)
    (hv : M.valid u) : (deliver cfg s (updateMessage u)).doc = M.merge s.doc u := by
  obtain ⟨msg, hr, ht, hp, hb⟩ := relayForward_updateMessage M u hv
  obtain ⟨n, ha⟩ := M.applyUpdate_valid s.doc u hv
  obtain ⟨l, w, sl, h, _, _⟩ := onmessage_update_applied cfg s msg u _ ht hp hb ha
  unfold deliver
  rw [hr]
  show (onmessage cfg s (some msg)).doc = _
  rw [h]

/-- Delivery of an encoded update leaves a session in steady state. -/
theorem deliver_steady (M : MergeLaws L) (cfg : Config) (s : Session L) (u : List Nat)
    (hv : M.valid u) (hs : Steady s) : Steady (deliver cfg s (updateMessage u)) := by
  obtain ⟨msg, hr, ht, hp, hb⟩ := relayForward_updateMessage M u hv
  obtain ⟨n, ha⟩ := M.applyUpdate_valid s.doc u hv
  obtain ⟨l, w, sl, h, _, _⟩ := onmessage_update_applied cfg s msg u _ ht hp hb ha
  obtain ⟨ho, hl, _⟩ := hs
  have hsl : (onmessage cfg s (some msg)).suppressLocal = false := by
    unfold onmessage
    simp only [handleMessage_update cfg s msg ht hp, hb, ha]
    exact notify_remote_suppressLocal _ _ rfl hl
  unfold deliver
  rw [hr]
  refine ⟨?_, hsl, ?_⟩
  · show (onmessage cfg s (some msg)).wsOpen = true
    rw [h]
    exact ho
  · show (onmessage cfg s (some msg)).suppressNetwork = false
    rw [h]


/-- A widget change in steady state, seen from the room: the session stays in steady state,
and the updates it sends are the ones integrated into its own document. -/
theorem edit_exchanged (M : MergeLaws L) (s : Session L) (changes : List Change)
    (hs : Steady s) (d0 : L.Doc) (la : List (List Nat)) (hd : s.doc = la.foldl M.merge d0) :
    Steady (onDidChangeModelContent s changes) ∧
    ∃ us : List (List Nat),
      (onDidChangeModelContent s changes).sent.drop s.sent.length = us.map updateMessage ∧
      (onDidChangeModelContent s changes).doc = (la ++ us).foldl M.merge d0 ∧
      ∀ u ∈ us, M.valid u := by
  obtain ⟨l, hc⟩ := onDidChangeModelContent_steady s changes hs
  obtain ⟨ho, hl, hn⟩ := hs
  refine ⟨⟨by rw [hc]; exact ho, by rw [hc]; exact hl, by rw [hc]; exact hn⟩, ?_⟩
  cases hu : (L.transact s.doc (transactionOps changes)).2.update with
  | none =>
    refine ⟨[], ?_, ?_, by simp⟩
    · rw [hc]
      simp [hu]
    · rw [hc]
      simp only [List.append_nil]
      rw [M.transact_quiet _ _ hu, hd]
  | some u =>
    obtain ⟨hv, hm⟩ := M.transact_update _ _ _ hu
    refine ⟨[u], ?_, ?_, by simpa using hv⟩
    · rw [hc]
      simp [hu]
    · rw [hc]
      simp only [List.foldl_append, List.foldl_cons, List.foldl_nil]
      rw [hm, hd]

/-- Every event of the room keeps the replicas related. -/
theorem Exchanged.after_step (M : MergeLaws L) (cfgA cfgB : Config) (d0 : L.Doc) (p : Pair L)
    (e : PairEvent) (h : Exchanged M d0 p) : Exchanged M d0 (Pair.step cfgA cfgB p e) := by
  obtain ⟨la, lb, qa, qb, ha, hb, hqa, hqb, hperm, hvalid, hsa, hsb⟩ := h
  have hvalid2 : ∀ u ∈ lb ++ qb, M.valid u := fun u hu => hvalid u (hperm.symm.subset hu)
  cases e with
  | editA changes =>
    obtain ⟨hs, us, h1, h2, h3⟩ := edit_exchanged M p.a changes hsa d0 la ha
    refine ⟨la ++ us, lb, qa, qb ++ us, h2, hb, hqa, ?_, ?_, ?_, hs, hsb⟩
    · show p.toB ++ (onDidChangeModelContent p.a changes).sent.drop p.a.sent.length = _
      rw [h1, hqb, List.map_append]
    · have e1 : (la ++ us ++ qa).Perm (la ++ qa ++ us) := by
        rw [List.append_assoc, List.append_assoc]
        exact List.Perm.append_left la List.perm_append_comm
      rw [← List.append_assoc]
      exact e1.trans (hperm.append_right us)
    · intro u hu
      simp only [List.mem_append] at hu
      rcases hu with (hu | hu) | hu
      · exact hvalid u (List.mem_append_left _ hu)
      · exact h3 u hu
      · exact hvalid u (List.mem_append_right _ hu)
  | editB changes =>
    obtain ⟨hs, us, h1, h2, h3⟩ := edit_exchanged M p.b changes hsb d0 lb hb
    refine ⟨la, lb ++ us, qa ++ us, qb, ha, h2, ?_, hqb, ?_, ?_, hsa, hs⟩
    · show p.toA ++ (onDidChangeModelContent p.b changes).sent.drop p.b.sent.length = _
      rw [h1, hqa, List.map_append]
    · have e1 : (lb ++ us ++ qb).Perm (lb ++ qb ++ us) := by
        rw [List.append_assoc, List.append_assoc]
        exact List.Perm.append_left lb List.perm_append_comm
      rw [← List.append_assoc]
      exact (hperm.append_right us).trans e1.symm
    · intro u hu
      simp only [List.mem_append] at hu
      rcases hu with hu | hu | hu
      · exact hvalid u (List.mem_append_left _ hu)
      · exact hvalid u (List.mem_append_right _ hu)
      · exact h3 u hu
  | deliverA =>
    cases qa with
    | nil =>
      have : Pair.step cfgA cfgB p PairEvent.deliverA = p := by
        simp [Pair.step, hqa]
      rw [this]
      exact ⟨la, lb, [], qb, ha, hb, hqa, hqb, hperm, hvalid, hsa, hsb⟩
    | cons u qa =>
      have hv : M.valid u := hvalid u (by simp)
      have hst : Pair.step cfgA cfgB p PairEvent.deliverA
          = { p with a := deliver cfgA p.a (updateMessage u), toA := qa.map updateMessage } := by
        simp [Pair.step, hqa]
      rw [hst]
      refine ⟨la ++ [u], lb, qa, qb, ?_, hb, rfl, hqb, ?_, ?_, deliver_steady M cfgA p.a u hv hsa,
        hsb⟩
      · show (deliver cfgA p.a (updateMessage u)).doc = _
        rw [deliver_doc M cfgA p.a u hv, ha, List.foldl_append]
        rfl
      · simpa using hperm
      · simpa using hvalid
  | deliverB =>
    cases qb with
    | nil =>
      have : Pair.step cfgA cfgB p PairEvent.deliverB = p := by
        simp [Pair.step, hqb]
      rw [this]
      exact ⟨la, lb, qa, [], ha, hb, hqa, hqb, hperm, hvalid, hsa, hsb⟩
    | cons u qb =>
      have hv : M.valid u := hvalid2 u (by simp)
      have hst : Pair.step cfgA cfgB p PairEvent.deliverB
          = { p with b := deliver cfgB p.b (updateMessage u), toB := qb.map updateMessage } := by
        simp [Pair.step, hqb]
      rw [hst]
      refine ⟨la, lb ++ [u], qa, qb, ha, ?_, hqa, rfl, ?_, hvalid, hsa,
        deliver_steady M cfgB p.b u hv hsb⟩
      · show (deliver cfgB p.b (updateMessage u)).doc = _
        rw [deliver_doc M cfgB p.b u hv, hb, List.foldl_append]
        rfl
      · simpa using hperm

theorem Exchanged.after_run (M : MergeLaws L) (cfgA cfgB : Config) (d0 : L.Doc)
    (events : List PairEvent) :
    ∀ p : Pair L, Exchanged M d0 p → Exchanged M d0 (Pair.run cfgA cfgB p events) := by
  induction events with
  | nil => exact fun p h => h
  | cons e es ih => exact fun p h => ih _ (Exchanged.after_step M cfgA cfgB d0 p e h)

/-- Two documents that integrate the same updates in whatever order are the same. -/
theorem foldl_merge_perm (M : MergeLaws L) (d0 : L.Doc) (la lb : List (List Nat))
    (hp : la.Perm lb) (hv : ∀ u ∈ la, M.valid u) :
    la.foldl M.merge d0 = lb.foldl M.merge d0 :=
  hp.foldl_eq' (fun x hx y hy z => M.merge_comm z x y (hv x hx) (hv y hy)) d0


/-- C20. Two peers in steady state start from the same document with nothing in transit; the
widget changes of each are sent as updates and the relay delivers them to the other in the
order sent.  Under any interleaving of edits and deliveries, once nothing is in transit both
documents, and so their texts, are equal.  Delivering the same update twice leaves the document
that delivering it once leaves, and two updates delivered in either order leave the same
document. -/
theorem replicas_converge (M : MergeLaws L) (cfgA cfgB : Config) (p : Pair L)
    (events : List PairEvent) (hsa : Steady p.a) (hsb : Steady p.b) (hdoc : p.a.doc = p.b.doc)
    (hqa : p.toA = []) (hqb : p.toB = [])
    (hdone : (Pair.run cfgA cfgB p events).toA = [] ∧ (Pair.run cfgA cfgB p events).toB = []) :
    ((Pair.run cfgA cfgB p events).a.doc = (Pair.run cfgA cfgB p events).b.doc ∧
      L.toText (Pair.run cfgA cfgB p events).a.doc
        = L.toText (Pair.run cfgA cfgB p events).b.doc) ∧
    ∀ (cfg : Config) (s : Session L) (u v : List Nat), M.valid u → M.valid v →
      (deliver cfg (deliver cfg s (updateMessage u)) (updateMessage u)).doc
        = (deliver cfg s (updateMessage u)).doc ∧
      (deliver cfg (deliver cfg s (updateMessage u)) (updateMessage v)).doc
        = (deliver cfg (deliver cfg s (updateMessage v)) (updateMessage u)).doc := by
  constructor
  · have h0 : Exchanged M p.a.doc p :=
      ⟨[], [], [], [], rfl, hdoc.symm, hqa, hqb, List.Perm.refl _, by simp, hsa, hsb⟩
    obtain ⟨la, lb, qa, qb, ha, hb, h1, h2, hperm, hvalid, _, _⟩ :=
      Exchanged.after_run M cfgA cfgB p.a.doc events p h0
    rw [hdone.1] at h1
    rw [hdone.2] at h2
    have e1 : qa = [] := List.map_eq_nil_iff.mp h1.symm
    have e2 : qb = [] := List.map_eq_nil_iff.mp h2.symm
    subst e1 e2
    simp only [List.append_nil] at hperm hvalid
    have hd : (Pair.run cfgA cfgB p events).a.doc = (Pair.run cfgA cfgB p events).b.doc := by
      rw [ha, hb]
      exact foldl_merge_perm M p.a.doc la lb hperm hvalid
    exact ⟨hd, by rw [hd]⟩
  · intro cfg s u v hu hv
    constructor
    · rw [deliver_doc M cfg _ u hu, deliver_doc M cfg s u hu]
      exact M.merge_idem s.doc u hu
    · rw [deliver_doc M cfg _ v hv, deliver_doc M cfg s u hu, deliver_doc M cfg _ u hu,
        deliver_doc M cfg s v hv]
      exact M.merge_comm s.doc u v hu hv

theorem replicas_converge_witness :
    (Pair.run demoConfig demoNullConfig demoPair demoPairEvents).toA = [] ∧
    (Pair.run demoConfig demoNullConfig demoPair demoPairEvents).toB = [] ∧
    (Pair.run demoConfig demoNullConfig demoPair (demoPairEvents.take 3)).a.doc = (1 : Nat) ∧
    (Pair.run demoConfig demoNullConfig demoPair (demoPairEvents.take 3)).b.doc = (2 : Nat) ∧
    growLib.toText (Pair.run demoConfig demoNullConfig demoPair demoPairEvents).a.doc
      = ['x', 'x'] ∧
    ((Pair.run demoConfig demoNullConfig demoPair demoPairEvents).a.doc
        = (Pair.run demoConfig demoNullConfig demoPair demoPairEvents).b.doc ∧
      growLib.toText (Pair.run demoConfig demoNullConfig demoPair demoPairEvents).a.doc
        = growLib.toText (Pair.run demoConfig demoNullConfig demoPair demoPairEvents).b.doc) ∧
    ∀ (cfg : Config) (s : Session growLib) (u v : List Nat),
      growLaws.valid u → growLaws.valid v →
      (deliver cfg (deliver cfg s (updateMessage u)) (updateMessage u)).doc
        = (deliver cfg s (updateMessage u)).doc ∧
      (deliver cfg (deliver cfg s (updateMessage u)) (updateMessage v)).doc
        = (deliver cfg (deliver cfg s (updateMessage v)) (updateMessage u)).doc :=
  ⟨by decide, by decide, rfl, rfl, by decide,
    replicas_converge growLaws demoConfig demoNullConfig demoPair demoPairEvents
      ⟨rfl, rfl, rfl⟩ ⟨rfl, rfl, rfl⟩ rfl rfl rfl ⟨by decide, by decide⟩⟩


/-! ## A snapshot handled twice -/

/-- C21. Handling the same `YJS_SYNC` message a second time leaves the text of the document and
the content of the widget as they are after the first time, in a fresh session and in any
other, provided the document integrates an update it already holds without throwing and without
a change of its text (the idempotence of the replicated document). -/
theorem snapshot_twice_same_content (cfg : Config) (s : Session L) (msg : Msg)
    (ht : msg.type = .str "YJS_SYNC")
    (hidem : ∀ bytes r, fromB64 msg.payloadB64 = some bytes →
      L.applyUpdate s.doc bytes = some r →
      ∃ r2, L.applyUpdate r.1 bytes = some r2 ∧ L.toText r2.1 = L.toText r.1) :
    L.toText (onmessage cfg (onmessage cfg s (some msg)) (some msg)).doc
      = L.toText (onmessage cfg s (some msg)).doc ∧
    (onmessage cfg (onmessage cfg s (some msg)) (some msg)).widget
      = (onmessage cfg s (some msg)).widget := by
  cases hp : msg.payloadB64.truthy with
  | false =>
    have h : ∀ t : Session L, onmessage cfg t (some msg) = t := fun t => by
      simp [onmessage, handleMessage_no_payload cfg t msg (Or.inr ht) hp]
    rw [h s, h s]
    exact ⟨rfl, rfl⟩
  | true =>
    cases hb : fromB64 msg.payloadB64 with
    | none =>
      rw [onmessage_invalid_base64 cfg s msg (Or.inr ht) hb,
        onmessage_invalid_base64 cfg s msg (Or.inr ht) hb]
      exact ⟨rfl, rfl⟩
    | some bytes =>
      cases ha : L.applyUpdate s.doc bytes with
      | none =>
        rw [rejected_payload_state cfg s msg bytes (Or.inr ht) hp hb ha,
          rejected_payload_state cfg ({ s with suppressNetwork := true } : Session L) msg bytes
            (Or.inr ht) hp hb ha]
        exact ⟨rfl, rfl⟩
      | some r =>
        obtain ⟨r2, ha2, htext⟩ := hidem bytes r hb ha
        obtain ⟨l, w, sl, h1, hn1, hs1⟩ := onmessage_sync_applied cfg s msg bytes r ht hp hb ha
        rw [h1]
        obtain ⟨l2, w2, sl2, h2, hn2, hs2⟩ := onmessage_sync_applied cfg
          ({ s with doc := r.1, lastText := l, widget := w, suppressLocal := sl,
                    suppressNetwork := false, synced := true, status := "synced" } : Session L)
          msg bytes r2 ht hp hb ha2
        rw [h2]
        refine ⟨htext, ?_⟩
        show w2 = w
        cases hw : s.widget with
        | none =>
          have e1 : w = none := hn1 hw
          rw [hn2 e1, e1]
        | some x =>
          have e1 : w = some (L.toText r.1) := hs1 x hw
          rw [hs2 (L.toText r.1) e1, e1, htext]

theorem snapshot_twice_same_content_witness :
    (onmessage demoConfig demoFreshSession (some demoGrowSyncMsg)).widget = some ['x', 'x'] ∧
    growLib.toText (onmessage demoConfig (onmessage demoConfig demoFreshSession
        (some demoGrowSyncMsg)) (some demoGrowSyncMsg)).doc
      = growLib.toText (onmessage demoConfig demoFreshSession (some demoGrowSyncMsg)).doc ∧
    (onmessage demoConfig (onmessage demoConfig demoFreshSession (some demoGrowSyncMsg))
        (some demoGrowSyncMsg)).widget
      = (onmessage demoConfig demoFreshSession (some demoGrowSyncMsg)).widget :=
  ⟨by decide,
    snapshot_twice_same_content demoConfig demoFreshSession demoGrowSyncMsg rfl
      (fun bytes r hb ha => by
        have e : fromB64 demoGrowSyncMsg.payloadB64 = some [1, 1] := by decide
        rw [e] at hb
        cases hb
        cases ha
        exact ⟨_, rfl, rfl⟩)⟩


/-! ## Remote changes: the edits built for the widget -/

/-- Every edit built from a change notification is either an insertion at a zero-length range
or a deletion with empty text. -/
theorem buildEdits_shape (w : List Char) : ∀ (delta : List DeltaOp) (index : Nat),
    ∀ e ∈ buildEdits w index delta,
      (e.startOffset = e.endOffset ∧ e.text ≠ []) ∨ (e.text = [] ∧ e.startOffset ≤ e.endOffset)
  | [], _ => by simp [buildEdits]
  | .retain n :: ops, index => by
    unfold buildEdits
    split
    · exact buildEdits_shape w ops _
    · exact buildEdits_shape w ops _
  | .insert ins :: ops, index => by
    unfold buildEdits
    split
    · intro e he
      rcases List.mem_cons.mp he with rfl | he
      · exact Or.inl ⟨rfl, fun h => by simp_all⟩
      · exact buildEdits_shape w ops _ e he
    · exact buildEdits_shape w ops _
  | .delete n :: ops, index => by
    unfold buildEdits
    split
    · intro e he
      rcases List.mem_cons.mp he with rfl | he
      · refine Or.inr ⟨rfl, ?_⟩
        show min index w.length ≤ min (index + n) w.length
        omega
      · exact buildEdits_shape w ops _ e he
    · exact buildEdits_shape w ops _

/-- C22, as the code behaves: the running cursor is advanced by the length of an inserted text.
The edit built for a deletion that follows an insertion therefore starts behind the offset the
deletion has in the text before the change, by the length of the inserted text, and so do all
edits after it. -/
theorem delete_after_insert_starts_behind (w : List Char) (index n : Nat) (ins : List Char)
    (rest : List DeltaOp) (hi : ins ≠ []) (hn : 0 < n) :
    buildEdits w index (.insert ins :: .delete n :: rest) =
      { startOffset := getPositionAt w index, endOffset := getPositionAt w index, text := ins } ::
      { startOffset := getPositionAt w (index + ins.length),
        endOffset := getPositionAt w (index + ins.length + n), text := [] } ::
      buildEdits w (index + ins.length) rest := by
  have h : ins.length > 0 := List.length_pos.mpr hi
  simp [buildEdits, h, hn]

theorem delete_after_insert_starts_behind_witness :
    buildEdits demoMirrorText 0 demoReplaceDelta
      = [⟨6, 6, "there".toList⟩, ⟨11, 16, []⟩] ∧
    originalOffsetEdits 0 demoReplaceDelta = [⟨6, 6, "there".toList⟩, ⟨6, 11, []⟩] ∧
    buildEdits demoMirrorText 6 [.insert "there".toList, .delete 5] =
      [⟨getPositionAt demoMirrorText 6, getPositionAt demoMirrorText 6, "there".toList⟩,
       ⟨getPositionAt demoMirrorText (6 + "there".toList.length),
        getPositionAt demoMirrorText (6 + "there".toList.length + 5), []⟩] :=
  ⟨by decide, by decide,
    delete_after_insert_starts_behind demoMirrorText 6 5 "there".toList [] (by decide)
      (by decide)⟩

/-- C26, as the code behaves on a replacement made by the peer: the widget and the document
hold `hello world, bye`, the peer replaces `world` by `there`, and after the observer has run
the widget holds `hello thereworld`, although the change describes `hello there, bye`, the new
text of the document, which the edits in offsets of the old text would give. -/
theorem replace_delta_breaks_mirror :
    applyDelta demoMirrorText demoReplaceDelta = "hello there, bye".toList ∧
    executeBatch demoMirrorText (originalOffsetEdits 0 demoReplaceDelta)
      = "hello there, bye".toList ∧
    (onYTextEvent onDidChangeModelContent demoMirrorSession false demoReplaceDelta).widget
      = some "hello thereworld".toList := by
  refine ⟨by decide, by decide, ?_⟩
  decide


/-- The widget after the observer has run on a remote change: the edits built are executed as
one batch when there are any. -/
theorem onYTextEvent_remote_widget (s : Session L) (T : List Char) (delta : List DeltaOp)
    (hw : s.widget = some T) :
    (onYTextEvent onDidChangeModelContent s false delta).widget =
      if (buildEdits T 0 delta).length > 0 then some (L.executeEdits T (buildEdits T 0 delta))
      else some T := by
  unfold onYTextEvent
  by_cases hd : delta.length = 0
  · have e : delta = [] := List.length_eq_zero.mp hd
    subst e
    simp [hw, buildEdits]
  · by_cases he : (buildEdits T 0 delta).length > 0
    · simp only [hw, hd, he, if_true, if_false, Bool.false_eq_true]
      cases L.editsEvent T (buildEdits T 0 delta) with
      | none => rfl
      | some e => simp [onDidChangeModelContent_of_suppressLocal]
    · simp [hw, hd, he]

/-- C27. The widget holds the text `T` and executes a single edit as the replacement of its
range.  After a remote change that is an optional `retain n` followed by one insertion of `ins`
(`n` within `T`), the widget holds `T` with `ins` inserted at offset `n`; after an optional
`retain n` followed by one deletion of `k` characters (`n + k` within `T`), it holds `T`
without the `k` characters at offset `n`.  In both cases this is the text the change
describes. -/
theorem single_remote_op_mirrored
    (hexec : ∀ (w : List Char) (e : Edit), e.startOffset ≤ e.endOffset →
      e.endOffset ≤ w.length →
      L.executeEdits w [e] = w.take e.startOffset ++ e.text ++ w.drop e.endOffset)
    (s : Session L) (T : List Char) (hw : s.widget = some T) (n k : Nat) (ins : List Char) :
    (n ≤ T.length →
      (onYTextEvent onDidChangeModelContent s false [.retain n, .insert ins]).widget
        = some (T.take n ++ ins ++ T.drop n) ∧
      applyDelta T [.retain n, .insert ins] = T.take n ++ ins ++ T.drop n) ∧
    ((onYTextEvent onDidChangeModelContent s false [.insert ins]).widget = some (ins ++ T) ∧
      applyDelta T [.insert ins] = ins ++ T) ∧
    (n + k ≤ T.length →
      (onYTextEvent onDidChangeModelContent s false [.retain n, .delete k]).widget
        = some (T.take n ++ T.drop (n + k)) ∧
      applyDelta T [.retain n, .delete k] = T.take n ++ T.drop (n + k)) ∧
    (k ≤ T.length →
      (onYTextEvent onDidChangeModelContent s false [.delete k]).widget = some (T.drop k) ∧
      applyDelta T [.delete k] = T.drop k) := by
  have hins : ∀ i, i ≤ T.length →
      (if (buildEdits T i [.insert ins]).length > 0
        then some (L.executeEdits T (buildEdits T i [.insert ins])) else some T)
        = some (T.take i ++ ins ++ T.drop i) := by
    intro i hi
    by_cases h : ins.length > 0
    · have hb : buildEdits T i [.insert ins] = [⟨i, i, ins⟩] := by
        simp [buildEdits, h, getPositionAt, Nat.min_eq_left hi]
      rw [hb, if_pos (by simp), hexec T ⟨i, i, ins⟩ (Nat.le_refl _) hi]
    · have e : ins = [] := List.length_eq_zero.mp (by omega)
      subst e
      simp [buildEdits]
  have hdel : ∀ i, i + k ≤ T.length →
      (if (buildEdits T i [.delete k]).length > 0
        then some (L.executeEdits T (buildEdits T i [.delete k])) else some T)
        = some (T.take i ++ T.drop (i + k)) := by
    intro i hi
    by_cases h : k > 0
    · have hb : buildEdits T i [.delete k] = [⟨i, i + k, []⟩] := by
        simp [buildEdits, h, getPositionAt, Nat.min_eq_left hi,
          Nat.min_eq_left (show i ≤ T.length by omega)]
      rw [hb, if_pos (by simp), hexec T ⟨i, i + k, []⟩ (Nat.le_add_right _ _) hi]
      simp
    · have e : k = 0 := by omega
      subst e
      simp [buildEdits]
  have hret : ∀ ops, buildEdits T 0 (.retain n :: ops) = buildEdits T n ops := by
    intro ops
    by_cases h : n > 0
    · simp [buildEdits, h]
    · have e : n = 0 := by omega
      subst e
      simp [buildEdits]
  refine ⟨fun hn => ⟨?_, ?_⟩, ⟨?_, ?_⟩, fun hk => ⟨?_, ?_⟩, fun hk => ⟨?_, ?_⟩⟩
  · rw [onYTextEvent_remote_widget s T _ hw, hret]
    exact hins n hn
  · simp [applyDelta]
  · rw [onYTextEvent_remote_widget s T _ hw]
    simpa using hins 0 (Nat.zero_le _)
  · simp [applyDelta]
  · rw [onYTextEvent_remote_widget s T _ hw, hret]
    exact hdel n hk
  · simp [applyDelta, List.drop_drop, Nat.add_comm]
  · rw [onYTextEvent_remote_widget s T _ hw]
    simpa using hdel 0 (by omega)
  · simp [applyDelta]

theorem single_remote_op_mirrored_witness :
    2 ≤ "abcdef".toList.length ∧
    ((onYTextEvent onDidChangeModelContent
          ({ doc := "abXYcdef".toList, widget := some "abcdef".toList } : Session demoLib) false
          [.retain 2, .insert "XY".toList]).widget
        = some ("abcdef".toList.take 2 ++ "XY".toList ++ "abcdef".toList.drop 2) ∧
      applyDelta "abcdef".toList [.retain 2, .insert "XY".toList]
        = "abcdef".toList.take 2 ++ "XY".toList ++ "abcdef".toList.drop 2) ∧
    "abcdef".toList.take 2 ++ "XY".toList ++ "abcdef".toList.drop 2 = "abXYcdef".toList :=
  ⟨by decide, (single_remote_op_mirrored (fun _ _ _ _ => rfl)
      ({ doc := "abXYcdef".toList, widget := some "abcdef".toList } : Session demoLib)
      "abcdef".toList rfl 2 3 "XY".toList).1 (by decide), by decide⟩


/-! ## Operations outside the text, empty batches -/

theorem clampOp_inBounds (t : List Char) (op : YOp) : (clampOp t op).InBounds t := by
  cases op with
  | delete index length =>
    refine ⟨Int.ofNat_nonneg _, ?_⟩
    show ((min index.toNat t.length : Nat) : Int).toNat
      + min length (t.length - min index.toNat t.length) ≤ t.length
    rw [Int.toNat_ofNat]
    omega
  | insert index text =>
    refine ⟨Int.ofNat_nonneg _, ?_⟩
    show ((min index.toNat t.length : Nat) : Int).toNat ≤ t.length
    rw [Int.toNat_ofNat]
    omega

/-- On the shared text an operation acts as the operation brought into the bounds. -/
theorem applyYOp_clampOp (t : List Char) (op : YOp) :
    applyYOp t op = applyYOp t (clampOp t op) := by
  cases op with
  | delete index length =>
    show t.take index.toNat ++ t.drop (index.toNat + length)
      = t.take ((min index.toNat t.length : Nat) : Int).toNat
        ++ t.drop (((min index.toNat t.length : Nat) : Int).toNat
          + min length (t.length - min index.toNat t.length))
    rw [Int.toNat_ofNat]
    by_cases h : index.toNat ≤ t.length
    · rw [Nat.min_eq_left h]
      by_cases h2 : length ≤ t.length - index.toNat
      · rw [Nat.min_eq_left h2]
      · rw [Nat.min_eq_right (by omega), List.drop_of_length_le (by omega),
          List.drop_of_length_le (by omega)]
    · rw [Nat.min_eq_right (by omega), List.take_of_length_le (by omega), List.take_length,
        List.drop_of_length_le (by omega), List.drop_of_length_le (by omega)]
  | insert index text =>
    show t.take index.toNat ++ text ++ t.drop index.toNat
      = t.take ((min index.toNat t.length : Nat) : Int).toNat ++ text
        ++ t.drop ((min index.toNat t.length : Nat) : Int).toNat
    rw [Int.toNat_ofNat]
    by_cases h : index.toNat ≤ t.length
    · rw [Nat.min_eq_left h]
    · rw [Nat.min_eq_right (by omega), List.take_of_length_le (by omega), List.take_length,
        List.drop_of_length_le (by omega), List.drop_length]

theorem applyYOps_eq_applyClampedOps (ops : List YOp) :
    ∀ t : List Char, applyYOps t ops = applyClampedOps t ops := by
  induction ops with
  | nil => exact fun _ => rfl
  | cons op ops ih =>
    intro t
    show applyYOps (applyYOp t op) ops = applyClampedOps (applyYOp t (clampOp t op)) ops
    rw [← applyYOp_clampOp, ih]

/-- The offsets of the listener are computed from the change list alone: the running shift
after a list of changes is the sum of their net length changes, whatever the document holds. -/
theorem loopOps_cons (shift : Int) (c : Change) (cs : List Change) :
    loopOps shift (c :: cs)
      = changeOps ((c.rangeOffset : Int) + shift) c ++ loopOps (shift + netShift [c]) cs := by
  have e : ∀ a b : Int, a - b + 0 = a - b := fun a b => by omega
  by_cases hd : c.rangeLength > 0 <;> by_cases hi : c.text.length > 0
  · simp only [loopOps, changeOps, netShift, hd, hi, if_true, List.append_assoc, e]
    rw [show shift - (c.rangeLength : Int) + (c.text.length : Int)
      = shift + ((c.text.length : Int) - (c.rangeLength : Int)) by omega]
  · have h0 : c.text.length = 0 := by omega
    simp only [loopOps, changeOps, netShift, hd, hi, if_true, if_false, List.append_assoc, e]
    rw [show shift - (c.rangeLength : Int)
      = shift + ((c.text.length : Int) - (c.rangeLength : Int)) by omega]
  · have h0 : c.rangeLength = 0 := by omega
    simp only [loopOps, changeOps, netShift, hd, hi, if_true, if_false, List.append_assoc, e]
    rw [show shift + (c.text.length : Int)
      = shift + ((c.text.length : Int) - (c.rangeLength : Int)) by omega]
  · have h0 : c.rangeLength = 0 := by omega
    have h1 : c.text.length = 0 := by omega
    simp only [loopOps, changeOps, netShift, hd, hi, if_false, List.append_assoc, e]
    rw [show shift = shift + ((c.text.length : Int) - (c.rangeLength : Int)) by omega]
    simp [h0, h1]

theorem netShift_append (pre post : List Change) :
    netShift (pre ++ post) = netShift pre + netShift post := by
  induction pre with
  | nil => simp [netShift]
  | cons c cs ih =>
    show (c.text.length : Int) - (c.rangeLength : Int) + netShift (cs ++ post)
      = (c.text.length : Int) - (c.rangeLength : Int) + netShift cs + netShift post
    rw [ih]
    omega

theorem loopOps_append (pre : List Change) :
    ∀ (shift : Int) (post : List Change),
      loopOps shift (pre ++ post) = loopOps shift pre ++ loopOps (shift + netShift pre) post := by
  induction pre with
  | nil => intro shift post; simp [loopOps, netShift]
  | cons c cs ih =>
    intro shift post
    rw [List.cons_append, loopOps_cons, loopOps_cons, ih, List.append_assoc]
    have e : shift + netShift [c] + netShift cs = shift + netShift (c :: cs) := by
      simp only [netShift]
      omega
    rw [e]

/-- The text of the document after the widget listener, when the shared text takes every
operation as its walk from the start of the text finds it. -/
theorem onDidChangeModelContent_text_clamped
    (hlaw : ∀ d ops, L.toText (L.transact d ops).1 = applyYOps (L.toText d) ops)
    (s : Session L) (changes : List Change) (hs : s.suppressLocal = false) :
    L.toText (onDidChangeModelContent s changes).doc
      = applyClampedOps (L.toText s.doc) (transactionOps changes) := by
  have hdoc : (onDidChangeModelContent s changes).doc
      = (L.transact s.doc (transactionOps changes)).1 := by
    unfold onDidChangeModelContent
    rw [if_neg (by simp [hs])]
    obtain ⟨l, snt, h⟩ := notify_local (fun s _ => s)
      ({ s with doc := (L.transact s.doc (transactionOps changes)).1 } : Session L)
      (L.transact s.doc (transactionOps changes)).2
    exact congrArg Session.doc h
  rw [hdoc, hlaw, applyYOps_eq_applyClampedOps]

/-- C23, amended: the widget listener makes no bounds check.  For every change list and every
change `c` of it, with `pre` the changes sorted before it, the delete and the insert of `c` are
issued on the shared text at the offset as computed, `c.rangeOffset` plus the net length change
of `pre`, be it below zero or behind the end of the text; the length of the document is not
read.  Bringing the position into the bounds is left to the shared text: when its walk stops at
the ends of the text, the text afterwards is the one the operations brought into bounds
give. -/
theorem out_of_range_ops_issued_as_computed
    (hlaw : ∀ d ops, L.toText (L.transact d ops).1 = applyYOps (L.toText d) ops)
    (s : Session L) (changes : List Change) (hs : s.suppressLocal = false) :
    (∀ (pre : List Change) (c : Change) (post : List Change),
      sortChanges changes = pre ++ c :: post →
      transactionOps changes
        = loopOps 0 pre ++ changeOps ((c.rangeOffset : Int) + netShift pre) c
          ++ loopOps (netShift (pre ++ [c])) post) ∧
    L.toText (onDidChangeModelContent s changes).doc
      = applyClampedOps (L.toText s.doc) (transactionOps changes) := by
  refine ⟨fun pre c post hsplit => ?_, onDidChangeModelContent_text_clamped hlaw s changes hs⟩
  unfold transactionOps
  rw [hsplit, loopOps_append, loopOps_cons, netShift_append, List.append_assoc]
  simp

theorem out_of_range_ops_issued_as_computed_witness :
    (∀ d ops, demoLib.toText (demoLib.transact d ops).1 = applyYOps (demoLib.toText d) ops) ∧
    sortChanges [⟨10, 4, "x".toList⟩, ⟨0, 1, []⟩] = [⟨0, 1, []⟩] ++ ⟨10, 4, "x".toList⟩ :: [] ∧
    (10 : Int) + netShift [⟨0, 1, []⟩] = 9 ∧
    transactionOps [⟨10, 4, "x".toList⟩, ⟨0, 1, []⟩]
      = loopOps 0 [⟨0, 1, []⟩] ++ changeOps ((10 : Int) + netShift [⟨0, 1, []⟩])
          ⟨10, 4, "x".toList⟩ ++ loopOps (netShift ([⟨0, 1, []⟩] ++ [⟨10, 4, "x".toList⟩])) [] ∧
    transactionOps [⟨10, 4, "x".toList⟩, ⟨0, 1, []⟩]
      = [.delete 0 1, .delete 9 4, .insert 9 "x".toList] ∧
    demoLib.toText (onDidChangeModelContent demoSession [⟨10, 4, "x".toList⟩, ⟨0, 1, []⟩]).doc
      = "bx".toList :=
  ⟨fun _ _ => rfl, by decide, by decide,
    (out_of_range_ops_issued_as_computed (fun _ _ => rfl) demoSession
      [⟨10, 4, "x".toList⟩, ⟨0, 1, []⟩] rfl).1 [⟨0, 1, []⟩] ⟨10, 4, "x".toList⟩ [] (by decide),
    by decide, by decide⟩

/-- C23 as stated fails: for an insertion at offset 10 into the text `ab` the listener issues
the insertion at offset 10, which lies outside the text and is not the insertion brought into
the bounds, the one at offset 2; and for a change that starts inside an earlier deleted range
it issues an insertion at an offset below zero. -/
theorem out_of_range_insert_issued_unclamped :
    transactionOps [⟨10, 0, "x".toList⟩] = [.insert 10 "x".toList] ∧
    ¬ YOp.InBounds "ab".toList (.insert 10 "x".toList) ∧
    clampOp "ab".toList (.insert 10 "x".toList) = .insert 2 "x".toList ∧
    transactionOps [⟨10, 0, "x".toList⟩]
      ≠ (transactionOps [⟨10, 0, "x".toList⟩]).map (clampOp "ab".toList) ∧
    transactionOps [⟨0, 3, []⟩, ⟨1, 0, "x".toList⟩]
      = [.delete 0 3, .insert (-2) "x".toList] := by
  decide

/-- C24. A transaction without operations leaves the document as it is and raises nothing (the
replicated document notifies only of changes).  Then a widget change event with an empty change
list builds no operation and leaves the whole session as it is: the text of the document is
unchanged and nothing is sent.  A change notification with an empty delta, remote or local,
builds no edit and leaves the widget as it is: only the mirror text is refreshed. -/
theorem empty_batches_are_noops (s : Session L)
    (hquiet : L.transact s.doc [] = (s.doc, { delta := none, update := none })) :
    transactionOps [] = [] ∧
    onDidChangeModelContent s [] = s ∧
    buildEdits (s.widget.getD []) 0 [] = [] ∧
    ∀ isLocal : Bool, onYTextEvent onDidChangeModelContent s isLocal []
      = { s with lastText := L.toText s.doc } := by
  refine ⟨rfl, ?_, rfl, fun isLocal => ?_⟩
  · unfold onDidChangeModelContent
    split
    · rfl
    · show notify _ { s with doc := (L.transact s.doc []).1 } (L.transact s.doc []).2 true = s
      rw [hquiet]
      rfl
  · unfold onYTextEvent
    cases isLocal with
    | true => rfl
    | false =>
      cases hw : s.widget with
      | none => simp [hw]
      | some w => simp [hw]

theorem empty_batches_are_noops_witness :
    demoLib.transact demoSession.doc [] = (demoSession.doc, { delta := none, update := none }) ∧
    onDidChangeModelContent demoSession [] = demoSession ∧
    (onYTextEvent onDidChangeModelContent demoSession false []).widget = some "ab".toList :=
  ⟨rfl, (empty_batches_are_noops demoSession rfl).2.1,
    by rw [(empty_batches_are_noops demoSession rfl).2.2.2 false]; rfl⟩


/-! ## The synced flag -/

theorem EditorOnly.synced_eq {s t : Session L} (he : EditorOnly s t) : t.synced = s.synced := by
  unfold EditorOnly at he
  rw [he]

theorem onPartnerChat_synced (cfg : Config) (s : Session L) (msg : Msg) :
    (onPartnerChat cfg s msg).synced = s.synced := by
  cases hse : msg.senderId.strictEq cfg.myUserId with
  | true => rw [onPartnerChat_self cfg s msg hse]
  | false =>
    unfold onPartnerChat
    cases hr : s.noticeTimerRef with
    | none => simp [hse, hr]
    | some t => simp [hse, hr]

/-- An event other than a snapshot that is applied leaves the synced flag as it is. -/
theorem step_synced (cfg : Config) (s : Session L) (e : Event) (hs : ¬ AppliesSnapshot s e) :
    (step cfg s e).synced = s.synced := by
  cases e with
  | transportOpen => rfl
  | message data =>
    show (onmessage cfg s data).synced = s.synced
    rcases onmessage_shape cfg s data with he | ⟨ha, _⟩ | ⟨m, heq⟩ | heq | ⟨msg, _, _, heq⟩
    · exact he.synced_eq
    · exact absurd ha hs
    · rw [heq]
    · rw [heq]
    · rw [heq]
      exact onPartnerChat_synced cfg s msg
  | transportError => rfl
  | transportClose => rfl
  | editorMount content => exact (editorOnly_handleEditorDidMount s content).synced_eq
  | widgetChange changes => exact (editorOnly_onDidChangeModelContent s changes).synced_eq
  | sendPartner content now rnd iso =>
    obtain ⟨c, snt, heq⟩ := sendPartnerMessage_shape cfg s content now rnd iso
    show (sendPartnerMessage cfg s content now rnd iso).synced = s.synced
    rw [heq]
  | seedingEffect =>
    show (Collab.seedingEffect s).synced = s.synced
    unfold Collab.seedingEffect
    split
    · rfl
    · split
      · rfl
      · split
        · rfl
        · exact (editorOnly_seedTemplate s _).synced_eq
  | languageChange newLang =>
    obtain ⟨t, he, heq⟩ := handleLanguageChange_shape s newLang
    show (handleLanguageChange s newLang).synced = s.synced
    rw [heq]
    exact he.synced_eq
  | dismissNotice =>
    show (dismissPartnerNotice s).synced = s.synced
    unfold dismissPartnerNotice clearTimeout
    cases s.noticeTimerRef <;> rfl
  | timerFires id =>
    show (noticeTimerFires s id).synced = s.synced
    unfold noticeTimerFires
    split <;> rfl

theorem run_append (cfg : Config) (s : Session L) (pre post : List Event) :
    run cfg s (pre ++ post) = run cfg (run cfg s pre) post := by
  unfold run
  rw [List.foldl_append]

/-- When the flag is set after a list of events, one of them was a snapshot that was applied. -/
theorem synced_run (cfg : Config) (events : List Event) :
    ∀ s : Session L, s.synced = false → (run cfg s events).synced = true →
      ∃ pre e post, events = pre ++ e :: post ∧ AppliesSnapshot (run cfg s pre) e := by
  induction events with
  | nil =>
    intro s h0 h1
    rw [show run cfg s [] = s from rfl, h0] at h1
    cases h1
  | cons e es ih =>
    intro s h0 h1
    by_cases ha : AppliesSnapshot s e
    · exact ⟨[], e, es, rfl, ha⟩
    · have h2 : (step cfg s e).synced = false := by rw [step_synced cfg s e ha, h0]
      obtain ⟨pre, e1, post, heq, happ⟩ := ih (step cfg s e) h2 h1
      exact ⟨e :: pre, e1, post, by rw [heq]; rfl, happ⟩

/-- C25. In every state reached from the initial state of a session, the synced flag is set
only if one of the events so far was an inbound `YJS_SYNC` message whose snapshot was decoded
and applied by the document.  No other event changes the flag: not the opening of the transport
with its `JOIN_ROOM`, and no inbound message of another type (`YJS_UPDATE`, `PARTNER_CHAT`,
`LEFT`, `ERROR` included). -/
theorem synced_only_after_snapshot (cfg : Config) (d : L.Doc) (events : List Event) :
    ((run cfg (initialSession d) events).synced = true →
      ∃ pre e post, events = pre ++ e :: post ∧
        AppliesSnapshot (run cfg (initialSession d) pre) e) ∧
    (∀ (s : Session L) (e : Event), ¬ AppliesSnapshot s e → (step cfg s e).synced = s.synced) ∧
    (∀ s : Session L, (onopen cfg s).synced = s.synced ∧
      (onopen cfg s).sent = s.sent ++ [OutMsg.joinRoom cfg.roomId]) ∧
    ∀ (s : Session L) (msg : Msg), msg.type ≠ .str "YJS_SYNC" →
      (onmessage cfg s (some msg)).synced = s.synced := by
  refine ⟨synced_run cfg events (initialSession d) rfl, step_synced cfg,
    fun s => ⟨rfl, rfl⟩, fun s msg hne => ?_⟩
  refine step_synced cfg s (.message (some msg)) ?_
  rintro ⟨m, bytes, r, he, ht, _⟩
  cases he
  exact hne ht

theorem synced_only_after_snapshot_witness :
    (run demoConfig demoInitial demoErrorThenSync).synced = true ∧
    (∃ pre e post, demoErrorThenSync = pre ++ e :: post ∧
      AppliesSnapshot (run demoConfig demoInitial pre) e) ∧
    (onmessage demoConfig demoInitial (some demoUpdateMsg)).synced = false :=
  ⟨by decide,
    (synced_only_after_snapshot (L := demoLib) demoConfig "ab".toList demoErrorThenSync).1
      (by decide),
    by
      rw [(synced_only_after_snapshot (L := demoLib) demoConfig "ab".toList []).2.2.2
        demoInitial demoUpdateMsg (by decide)]
      rfl⟩


/-! ## Seeding and the widget -/

theorem seedTemplate_widget (s : Session L) (lang : String) :
    (seedTemplate s lang).widget = s.widget := by
  obtain ⟨l, snt, h⟩ := seedTemplate_eq s lang
  rw [h]

/-- C28, as the code behaves: the seeding transaction is a local one, and the observer of the
text returns for a local transaction before it reaches the widget.  When the template is
inserted into an empty document with the editor mounted and the widget empty, by the seeding
effect or by the language select, the document holds the template afterwards and the widget is
still empty. -/
theorem seeding_leaves_widget_empty
    (hlaw : ∀ d ops, L.toText (L.transact d ops).1 = applyYOps (L.toText d) ops)
    (s : Session L) (newLang : String) (hw : s.widget = some []) (hs : s.synced = true)
    (he : L.toText s.doc = []) :
    ((seedingEffect s).widget = some [] ∧
      L.toText (seedingEffect s).doc = getDefaultCode s.language ∧
      getDefaultCode s.language ≠ []) ∧
    ((handleLanguageChange s newLang).widget = some [] ∧
      L.toText (handleLanguageChange s newLang).doc = getDefaultCode newLang ∧
      getDefaultCode newLang ≠ []) := by
  have hseed : ∀ (t : Session L) (lang : String), t.widget = some [] → L.toText t.doc = [] →
      (seedTemplate t lang).widget = some [] ∧
      L.toText (seedTemplate t lang).doc = getDefaultCode lang := by
    intro t lang h1 h2
    refine ⟨by rw [seedTemplate_widget, h1], ?_⟩
    rw [seedTemplate_doc, hlaw, h2]
    simp [applyYOps, applyYOp]
  constructor
  · have e : seedingEffect s = seedTemplate s s.language := by
      unfold seedingEffect
      simp [hw, hs, he]
    rw [e]
    exact ⟨(hseed s _ hw he).1, (hseed s _ hw he).2, getDefaultCode_ne_nil _⟩
  · have e : handleLanguageChange s newLang
        = seedTemplate { s with language := newLang } newLang := by
      unfold handleLanguageChange
      simp [he]
    rw [e]
    have h := hseed ({ s with language := newLang } : Session L) newLang hw he
    exact ⟨h.1, h.2, getDefaultCode_ne_nil _⟩

theorem seeding_leaves_widget_empty_witness :
    (∀ d ops, demoLib.toText (demoLib.transact d ops).1 = applyYOps (demoLib.toText d) ops) ∧
    ((seedingEffect demoSyncedEmptySession).widget = some [] ∧
      demoLib.toText (seedingEffect demoSyncedEmptySession).doc
        = getDefaultCode demoSyncedEmptySession.language ∧
      getDefaultCode demoSyncedEmptySession.language ≠ []) ∧
    ((handleLanguageChange demoSyncedEmptySession "java").widget = some [] ∧
      demoLib.toText (handleLanguageChange demoSyncedEmptySession "java").doc
        = getDefaultCode "java" ∧
      getDefaultCode "java" ≠ []) :=
  ⟨fun _ _ => rfl,
    seeding_leaves_widget_empty (fun _ _ => rfl) demoSyncedEmptySession "java" rfl rfl rfl⟩

/-! ## Peer messages and the chat list -/

/-- C29. For an incoming `PARTNER_CHAT` whose `senderId` is not the local identity, the chat
list before is a prefix of the chat list after: every entry keeps its place and its fields,
also a pending entry with the `clientId` of the message, and one entry is added at the end. -/
theorem peer_message_keeps_chat_prefix (cfg : Config) (s : Session L) (msg : Msg)
    (ht : msg.type = .str "PARTNER_CHAT") (hs : msg.senderId.strictEq cfg.myUserId = false) :
    s.chat <+: (onmessage cfg s (some msg)).chat ∧
    (onmessage cfg s (some msg)).chat.length = s.chat.length + 1 ∧
    ∀ (i : Nat) (entry : ChatEntry), s.chat.get? i = some entry →
      (onmessage cfg s (some msg)).chat.get? i = some entry := by
  have h : (onmessage cfg s (some msg)).chat
      = s.chat ++ [incomingEntry cfg.myUserId msg] := by
    rw [onmessage_partnerChat_chat cfg s msg ht]
    exact partnerChatReducer_append _ _ _ (Or.inl (by simp [hs]))
  rw [h]
  refine ⟨List.prefix_append _ _, by simp, fun i entry hi => ?_⟩
  have hlt : i < s.chat.length := by
    by_contra hge
    rw [List.get?_eq_none.mpr (by omega)] at hi
    cases hi
  rw [List.get?_eq_getElem?] at hi ⊢
  rw [List.getElem?_append_left hlt]
  exact hi


theorem peer_message_keeps_chat_prefix_witness :
    demoPendingSession.chat.map (fun e => e.clientId) = [.str "local-1700-k3x9qa"] ∧
    demoPendingSession.chat <+: (onmessage demoConfig demoPendingSession
      (some demoPeerSameIdMsg)).chat ∧
    (onmessage demoConfig demoPendingSession (some demoPeerSameIdMsg)).chat.length
      = demoPendingSession.chat.length + 1 ∧
    ∀ (i : Nat) (entry : ChatEntry), demoPendingSession.chat.get? i = some entry →
      (onmessage demoConfig demoPendingSession (some demoPeerSameIdMsg)).chat.get? i
        = some entry :=
  ⟨by decide,
    peer_message_keeps_chat_prefix demoConfig demoPendingSession demoPeerSameIdMsg rfl
      (by decide)⟩


/-! ## Local execution of JavaScript -/

theorem pushFailed_eq (message : String) : ∀ (tcs : List TestCase) (idx : Nat)
    (results : List TestResult),
    pushFailed message idx tcs results
      = results ++ (tcs.enumFrom idx).map (fun p => failedEntry message p.2 p.1)
  | [], _, results => by simp [pushFailed]
  | tc :: rest, idx, results => by
    simp [pushFailed, pushFailed_eq message rest, List.enumFrom]

/-- When no test case throws `null` or `undefined`, the loop over the test cases gives one entry
for each, numbered in their order. -/
theorem runTestCases_numbers (runCase : Nat → TestCase → Except Thrown String)
    (hrun : ∀ idx tc u, runCase idx tc ≠ .error (.nullish u)) :
    ∀ (tcs : List TestCase) (idx : Nat) (results : List TestResult),
      ∃ entries : List TestResult,
        runTestCases runCase idx tcs results = (results ++ entries, none) ∧
        entries.map (fun r => r.testCaseNumber) = (List.range' (idx + 1) tcs.length) ∧
        entries.map (fun r => r.input) = tcs.map (fun tc => tc.input)
  | [], _, results => ⟨[], by simp [runTestCases], rfl, rfl⟩
  | tc :: rest, idx, results => by
    cases hr : runCase idx tc with
    | ok actual =>
      obtain ⟨entries, h1, h2, h3⟩ := runTestCases_numbers runCase hrun rest (idx + 1)
        (results ++ [completedEntry actual tc idx])
      refine ⟨completedEntry actual tc idx :: entries, ?_, ?_, ?_⟩
      · simp [runTestCases, hr, h1]
      · simp [h2, completedEntry, List.range']
      · simp [h3, completedEntry]
    | error e =>
      cases e with
      | nullish u => exact absurd hr (hrun idx tc u)
      | object m =>
        obtain ⟨entries, h1, h2, h3⟩ := runTestCases_numbers runCase hrun rest (idx + 1)
          (results ++ [failedEntry m tc idx])
        refine ⟨failedEntry m tc idx :: entries, ?_, ?_, ?_⟩
        · simp [runTestCases, hr, h1]
        · simp [h2, failedEntry, List.range']
        · simp [h3, failedEntry]

/-- When the code evaluates to a function and no test case throws `null` or `undefined`, the
results are one entry per test case passed in, numbered from 1 in their order. -/
theorem executeJavaScript_evaluated (questionTestCases : List TestCase) (prog : Program)
    (testCases : List TestCase) (he : prog.evalThrows = none) (hf : prog.definesFunction = true)
    (hrun : ∀ idx tc u, prog.runCase idx tc ≠ .error (.nullish u)) :
    ∃ results, executeJavaScript questionTestCases prog testCases
        = .ok (results, outputText results) ∧
      results.map (fun r => r.testCaseNumber) = List.range' 1 testCases.length ∧
      results.map (fun r => r.input) = testCases.map (fun tc => tc.input) := by
  obtain ⟨entries, h1, h2, h3⟩ := runTestCases_numbers prog.runCase hrun testCases 0 []
  refine ⟨entries, ?_, h2, h3⟩
  simp [executeJavaScript, he, hf, h1]

/-- When the evaluation fails, the entries pushed are those of the test cases of the question,
not of the test cases passed in: one failed entry each, numbered from 1. -/
theorem executeJavaScript_failed (questionTestCases : List TestCase) (prog : Program)
    (testCases : List TestCase) (message : String)
    (hfail : prog.evalThrows = some (.object message) ∨
      (prog.evalThrows = none ∧ prog.definesFunction = false ∧
        message = "Please define a function named \"solution\" or \"main\".")) :
    executeJavaScript questionTestCases prog testCases
      = .ok ((questionTestCases.enumFrom 0).map (fun p => failedEntry message p.2 p.1),
          outputText ((questionTestCases.enumFrom 0).map
            (fun p => failedEntry message p.2 p.1))) := by
  rcases hfail with h | ⟨h1, h2, h3⟩
  · simp [executeJavaScript, h, pushFailed_eq]
  · subst h3
    simp [executeJavaScript, h1, h2, pushFailed_eq]

/-- C30, as the code behaves: when the evaluation of the code fails (it throws, or defines no
function `solution` or `main`), the outer `catch` fills the results from the test cases of the
question instead of the test cases passed in.  For a question without test cases of its own,
whose test cases are made from its examples, the results list is then empty whatever the number
of test cases passed in, and the output text reports `0/0` and that all test cases passed. -/
theorem failed_evaluation_reports_all_passed (prog : Program) (testCases : List TestCase)
    (hfail : (∃ message, prog.evalThrows = some (.object message)) ∨
      (prog.evalThrows = none ∧ prog.definesFunction = false)) :
    executeJavaScript [] prog testCases = .ok ([], outputText []) ∧
    outputText [] = "Running your code...\n\nResults: 0/0 test cases passed.\n\n" ++
      "✓ All test cases passed! Well done!" := by
  refine ⟨?_, by decide⟩
  rcases hfail with ⟨m, h⟩ | ⟨h1, h2⟩
  · simp [executeJavaScript, h, pushFailed]
  · simp [executeJavaScript, h1, h2, pushFailed]

theorem failed_evaluation_reports_all_passed_witness :
    testCasesToUse (some demoQuestion)
      = some [{ input := .str "[1,2,3]", expectedOutput := .str "6" }] ∧
    runCode (some demoQuestion) demoBrokenProgram
      = ([], "Running your code...\n\nResults: 0/0 test cases passed.\n\n" ++
          "✓ All test cases passed! Well done!") ∧
    (runCode (some demoQuestion) demoSixProgram).1.map (fun r => (r.testCaseNumber, r.passed))
      = [(1, true)] ∧
    (executeJavaScript [] demoBrokenProgram
        [{ input := .str "[1,2,3]", expectedOutput := .str "6" }] = .ok ([], outputText []) ∧
      outputText [] = "Running your code...\n\nResults: 0/0 test cases passed.\n\n" ++
        "✓ All test cases passed! Well done!") :=
  ⟨by decide, by decide, by decide,
    failed_evaluation_reports_all_passed demoBrokenProgram
      [{ input := .str "[1,2,3]", expectedOutput := .str "6" }] (Or.inl ⟨_, rfl⟩)⟩

end Collab
